import Mathlib

/-!
# Chrome-Ext-Dashboard: background service and options pages

A shallow embedding of the extension manager's storage-backed logic:

* `src/extension/background.js` (v2 background service): install and uninstall
  event handlers, the message handler, `recordUserAction`, `saveDeletedExtension`,
  `updateDeleteType`;
* `src/background.js` (v1 background service): install and uninstall handlers;
* `logChange` and `createSnapshot` of `src/options.js`, `src/extension/options.js`
  and `src/popup.js`;
* `src/extension/options.js` (v2 options page): `loadStorageData`, `loadExtensions`,
  `toggleExtension`, `restoreSnapshot`, `exportData`, `importData`, `cleanOldRecords`,
  `editGroupName`, `deleteGroup`, `editDeviceGroupName` (both definitions) and
  `deleteDeviceGroup`;
* `src/options.js` (v1 options page): `loadStorageData`, `toggleExtension`,
  `restoreSnapshot`, `saveDescription`, `editGroupName`, `deleteGroup`.

`chrome.storage.local` is a record of optional keys (`none` = key absent), JavaScript
objects and Maps are association lists in insertion order, `Date.now()` is a
parameter of the function that calls it, the answers of `confirm` and `prompt` are
parameters, and storage calls are taken to succeed (the `catch` branches only log).
The management API is a list of items; whether a `setEnabled` call resolves is a
parameter `ok`. Handlers run one after the other, each to its end. Text whose length
matters (`saveDescription`) is a sequence of UTF-16 code units.
-/

namespace ExtDashboard

/-! ## JavaScript objects, Maps and truthiness -/

/-- A JavaScript object or `Map` with keys of type `κ`, as its entries in insertion order. -/
abbrev Dict (κ : Type) (α : Type) := List (κ × α)

/-- Property read `d[key]` / `Map.get`: `none` is `undefined`. -/
def Dict.get? {κ α : Type} [DecidableEq κ] : Dict κ α → κ → Option α
  | [], _ => none
  | (k, v) :: rest, key => if k = key then some v else Dict.get? rest key

/-- The test `Map.has(key)` / `key in d`. -/
def Dict.has {κ α : Type} [DecidableEq κ] (d : Dict κ α) (key : κ) : Bool :=
  (Dict.get? d key).isSome

/-- Assignment `d[key] = v` / `Map.set`: an existing entry keeps its place. -/
def Dict.set {κ α : Type} [DecidableEq κ] : Dict κ α → κ → α → Dict κ α
  | [], key, v => [(key, v)]
  | (k, w) :: rest, key, v =>
    if k = key then (k, v) :: rest else (k, w) :: Dict.set rest key v

/-- Removal `delete d[key]` / `Map.delete`. -/
def Dict.delete {κ α : Type} [DecidableEq κ] (d : Dict κ α) (key : κ) : Dict κ α :=
  d.filter (fun p => decide (p.1 ≠ key))

/-- In-place update of the object stored under `key` (`d[key].field = v`); nothing
happens when the key is absent. -/
def Dict.modify {κ α : Type} [DecidableEq κ] (d : Dict κ α) (key : κ) (f : α → α) : Dict κ α :=
  d.map (fun p => if p.1 = key then (p.1, f p.2) else p)

/-- Truthiness of an optional string: `undefined` and `''` are falsy. -/
def truthy : Option String → Bool
  | some s => decide (s ≠ "")
  | none => false

/-- The expression `x || d` for an optional string `x` and a string default `d`. -/
def strOr (x : Option String) (d : String) : String :=
  match x with
  | some s => if s = "" then d else s
  | none => d

/-! ## Stored data -/

/-- One element of `metadata.groupHistory`. -/
structure GroupHistoryEntry where
  functionalGroup : Option String
  deviceGroup : Option String
  timestamp : Nat
  action : String
deriving DecidableEq, Repr

/-- A value of `extensionMetadata[id]`; a `none` field is an absent property and
`rest` holds properties the background service never names (copied by `...`). -/
structure Metadata where
  name : Option String
  version : Option String
  installTime : Option Nat
  lastModified : Option Nat
  groupHistory : Option (List GroupHistoryEntry)
  source : Option String
  deleteTime : Option Nat
  deleteType : Option String
  isDeleted : Option Bool
  rest : List (String × String)
deriving DecidableEq, Repr

/-- The empty object `{}` as a metadata value. -/
def Metadata.empty : Metadata :=
  { name := none, version := none, installTime := none, lastModified := none,
    groupHistory := none, source := none, deleteTime := none, deleteType := none,
    isDeleted := none, rest := [] }

/-- An element of the `deletedExtensions` archive. -/
structure DeletedRecord where
  id : String
  name : String
  version : String
  deleteTime : Nat
  deleteType : Option String
  functionalGroup : String
  deviceGroup : String
  description : String
  metadata : Metadata
deriving DecidableEq, Repr

/-- An element of `changeHistory`; `undoData` is absent in the popup's entries. -/
structure LogEntry where
  timestamp : Nat
  action : String
  date : String
  undoData : Option String
deriving DecidableEq, Repr

/-- An element of a snapshot's `extensions` array; `group` and `deviceGroup` are
present only in the versions that write them. -/
structure SnapshotExt where
  id : String
  name : String
  version : String
  enabled : Bool
  group : Option String
  deviceGroup : Option String
deriving DecidableEq, Repr

/-- An element of `snapshots`; `id`, `type` and `deviceFilter` are present only in
the versions that write them. -/
structure Snapshot where
  id : Option Nat
  timestamp : Nat
  date : String
  extensions : List SnapshotExt
  count : Nat
  type : Option String
  deviceFilter : Option String
deriving DecidableEq, Repr

/-- The stored value of `currentFilters`; an absent property is `none`. -/
structure StoredFilters where
  functionalGroup : Option String
  deviceGroup : Option String
  viewMode : Option String
deriving DecidableEq, Repr

/-- The keys of `chrome.storage.local` used by the modelled code; the same record is
the shape of a parsed settings file, whose `version` and `exportDate` an import of
the v2.0 format stores along with the rest. -/
structure Storage where
  extensionGroups : Option (Dict String String)
  extensionDeviceGroups : Option (Dict String String)
  extensionDescriptions : Option (Dict String String)
  extensionMetadata : Option (Dict String Metadata)
  deletedExtensions : Option (List DeletedRecord)
  archiveNeedsCleanup : Option Bool
  archiveWarningDismissed : Option Bool
  changeHistory : Option (List LogEntry)
  snapshots : Option (List Snapshot)
  customGroupNames : Option (Dict String String)
  deviceGroupNames : Option (Dict String String)
  theme : Option String
  autoSnapshot : Option Bool
  currentFilters : Option StoredFilters
  version : Option String
  exportDate : Option String
deriving DecidableEq, Repr

/-- A storage with no key set. -/
def Storage.empty : Storage :=
  { extensionGroups := none, extensionDeviceGroups := none, extensionDescriptions := none,
    extensionMetadata := none, deletedExtensions := none, archiveNeedsCleanup := none,
    archiveWarningDismissed := none, changeHistory := none, snapshots := none,
    customGroupNames := none, deviceGroupNames := none, theme := none, autoSnapshot := none,
    currentFilters := none, version := none, exportDate := none }

/-- The `ExtensionInfo` fields of the management API that the code reads, with the
`group`, `deviceGroup` and `customDesc` the options pages attach to the objects of
`allExtensions`. -/
structure ExtensionInfo where
  id : String
  name : String
  version : String
  enabled : Bool
  mayDisable : Option Bool
  group : Option String
  deviceGroup : Option String
  customDesc : Option String
deriving DecidableEq, Repr

/-! ## v2 background service (`src/extension/background.js`) -/

/-- A value of the `recentUserActions` map. -/
structure UserAction where
  type : String
  timestamp : Nat
deriving DecidableEq, Repr

/-- The state of the service: the module variable `recentUserActions`, the pending
`setTimeout` callbacks of `recordUserAction` (due time and captured id) and storage.
A key `none` of the map is the key `undefined`. -/
structure BgState where
  recentUserActions : Dict (Option String) UserAction
  timers : List (Nat × Option String)
  storage : Storage
deriving DecidableEq, Repr

/-- The constant `USER_ACTION_TIMEOUT`. -/
def USER_ACTION_TIMEOUT : Nat := 30000

/-- The listener of `chrome.management.onInstalled`; the three time arguments are
the values of the `Date.now()` calls for `installTime`, `lastModified` and the
history entry's `timestamp`. -/
def onInstalled (info : ExtensionInfo) (tInstall tModified tHistory : Nat) (s : Storage) :
    Storage :=
  let groups := s.extensionGroups.getD []
  let deviceGroups := s.extensionDeviceGroups.getD []
  let metadata := s.extensionMetadata.getD []
  let groups :=
    if truthy (Dict.get? groups info.id) then groups else Dict.set groups info.id "other"
  let deviceGroups :=
    if truthy (Dict.get? deviceGroups info.id) then deviceGroups
    else Dict.set deviceGroups info.id "all_devices"
  let metadata :=
    if Dict.has metadata info.id then metadata
    else Dict.set metadata info.id
      { name := some info.name, version := some info.version,
        installTime := some tInstall, lastModified := some tModified,
        groupHistory := some [{ functionalGroup := Dict.get? groups info.id,
                                deviceGroup := Dict.get? deviceGroups info.id,
                                timestamp := tHistory, action := "installed" }],
        source := some "installed", deleteTime := none, deleteType := none,
        isDeleted := none, rest := [] }
  { s with extensionGroups := some groups, extensionDeviceGroups := some deviceGroups,
           extensionMetadata := some metadata }

/-- The `extensionInfo` object the uninstall listener builds from storage. -/
structure UninstallInfo where
  id : String
  name : String
  version : String
  group : String
  deviceGroup : String
  description : String
  metadata : Metadata
deriving DecidableEq, Repr

/-- The function `saveDeletedExtension(id, deleteType, extensionInfo)`; `now` is its
`Date.now()`. -/
def saveDeletedExtension (id : String) (deleteType : String) (extensionInfo : UninstallInfo)
    (now : Nat) (s : Storage) : Storage :=
  let deletedExtensions := s.deletedExtensions.getD []
  let extensionMetadata := s.extensionMetadata.getD []
  let deletedRecord : DeletedRecord :=
    { id := extensionInfo.id, name := extensionInfo.name, version := extensionInfo.version,
      deleteTime := now, deleteType := some deleteType,
      functionalGroup := extensionInfo.group, deviceGroup := extensionInfo.deviceGroup,
      description := extensionInfo.description,
      metadata := { extensionInfo.metadata with
        deleteTime := some now, deleteType := some deleteType, isDeleted := some true } }
  let deletedExtensions := deletedRecord :: deletedExtensions
  let extensionMetadata :=
    if Dict.has extensionMetadata id then extensionMetadata
    else Dict.set extensionMetadata id Metadata.empty
  let extensionMetadata := Dict.modify extensionMetadata id (fun m =>
    { m with deleteTime := some now, deleteType := some deleteType, isDeleted := some true })
  let needsCleanup := decide (deletedExtensions.length > 100)
  { s with deletedExtensions := some deletedExtensions,
           extensionMetadata := some extensionMetadata,
           archiveNeedsCleanup := some needsCleanup }

/-- The classification computed at the head of the uninstall listener. -/
def classifyUninstall (recentUserActions : Dict (Option String) UserAction) (id : String) :
    String :=
  if Dict.has recentUserActions (some id) then "manual" else "auto"

/-- The listener of `chrome.management.onUninstalled`, to the end of its storage
callback; `now` is the `Date.now()` of `saveDeletedExtension`. -/
def onUninstalled (id : String) (now : Nat) (st : BgState) : BgState :=
  let deleteType := classifyUninstall st.recentUserActions id
  let recentUserActions := Dict.delete st.recentUserActions (some id)
  let s := st.storage
  let extensionMetadata := s.extensionMetadata.getD []
  let extensionGroups := s.extensionGroups.getD []
  let extensionDeviceGroups := s.extensionDeviceGroups.getD []
  let extensionDescriptions := s.extensionDescriptions.getD []
  let extensionInfo : UninstallInfo :=
    { id := id,
      name := strOr ((Dict.get? extensionMetadata id).bind (fun m => m.name)) "未知擴充功能",
      version := strOr ((Dict.get? extensionMetadata id).bind (fun m => m.version)) "N/A",
      group := strOr (Dict.get? extensionGroups id) "other",
      deviceGroup := strOr (Dict.get? extensionDeviceGroups id) "all_devices",
      description := strOr (Dict.get? extensionDescriptions id) "",
      metadata := (Dict.get? extensionMetadata id).getD Metadata.empty }
  let s := saveDeletedExtension id deleteType extensionInfo now s
  let groups := s.extensionGroups.getD []
  let descriptions := s.extensionDescriptions.getD []
  let deviceGroups := s.extensionDeviceGroups.getD []
  let s := { s with extensionGroups := some (Dict.delete groups id),
                    extensionDescriptions := some (Dict.delete descriptions id),
                    extensionDeviceGroups := some (Dict.delete deviceGroups id) }
  { st with recentUserActions := recentUserActions, storage := s }

/-- The function `recordUserAction(extensionId, actionType)`: the map entry is set
and a callback that deletes the id is scheduled `USER_ACTION_TIMEOUT` ms later. -/
def recordUserAction (extensionId : Option String) (actionType : String) (now : Nat)
    (st : BgState) : BgState :=
  { st with
    recentUserActions :=
      Dict.set st.recentUserActions extensionId { type := actionType, timestamp := now },
    timers := st.timers ++ [(now + USER_ACTION_TIMEOUT, extensionId)] }

/-- Index of the first archive record with the given id (`findIndex`). -/
def findRecordIndex (extensionId : Option String) : List DeletedRecord → Option Nat
  | [] => none
  | r :: rest =>
    if some r.id = extensionId then some 0
    else (findRecordIndex extensionId rest).map (fun i => i + 1)

/-- The function `updateDeleteType(extensionId, newDeleteType)`. A missing
`extensionId` reads the property named `undefined`. -/
def updateDeleteType (extensionId : Option String) (newDeleteType : Option String)
    (s : Storage) : Storage :=
  let deletedExtensions := s.deletedExtensions.getD []
  let extensionMetadata := s.extensionMetadata.getD []
  let deletedExtensions :=
    match findRecordIndex extensionId deletedExtensions with
    | some i => deletedExtensions.modify (fun r => { r with deleteType := newDeleteType }) i
    | none => deletedExtensions
  let extensionMetadata :=
    Dict.modify extensionMetadata (extensionId.getD "undefined")
      (fun m => { m with deleteType := newDeleteType })
  { s with deletedExtensions := some deletedExtensions,
           extensionMetadata := some extensionMetadata }

/-- A message received by `chrome.runtime.onMessage`: its `type` and the properties
the senders and the listener use. -/
structure Request where
  type : String
  id : Option String
  extensionId : Option String
  enabled : Option Bool
  deleteType : Option String
  actionType : Option String
deriving DecidableEq, Repr

/-- Calls of the management API made by the message listener. -/
inductive ManagementCall where
  | getAll
  | setEnabled (id : Option String) (enabled : Option Bool)
  | uninstall (id : Option String)
deriving DecidableEq, Repr

/-- The listener of `chrome.runtime.onMessage`: the new state, the management calls
it makes, and whether it returns `true`. -/
def onMessage (request : Request) (now : Nat) (st : BgState) :
    BgState × List ManagementCall × Bool :=
  if request.type = "GET_EXTENSIONS" then
    (st, [ManagementCall.getAll], true)
  else if request.type = "TOGGLE_EXTENSION" then
    (st, [ManagementCall.setEnabled request.id request.enabled], true)
  else if request.type = "UNINSTALL_EXTENSION" then
    (recordUserAction request.id "uninstall" now st, [ManagementCall.uninstall request.id], true)
  else if request.type = "UPDATE_DELETE_TYPE" then
    ({ st with storage := updateDeleteType request.extensionId request.deleteType st.storage },
      [], true)
  else
    (st, [], false)

/-- The message `uninstallExtension(id)` of `src/extension/options.js` sends before
calling `chrome.management.uninstall`. -/
def userActionMessage (id : String) : Request :=
  { type := "USER_ACTION", id := none, extensionId := some id, enabled := none,
    deleteType := none, actionType := some "uninstall" }

/-- Runs the callbacks of every timer due at or before `now`, in scheduling order. -/
def fireTimers (now : Nat) (st : BgState) : BgState :=
  let due := st.timers.filter (fun t => decide (t.1 ≤ now))
  { st with
    recentUserActions := due.foldl (fun m t => Dict.delete m t.2) st.recentUserActions,
    timers := st.timers.filter (fun t => decide (now < t.1)) }

/-- Events delivered to the background service. -/
inductive Event where
  | installed (info : ExtensionInfo)
  | uninstalled (id : String)
  | message (request : Request)
deriving DecidableEq, Repr

/-- One event handled at time `now`, after the timers due by then have fired. -/
def handle (now : Nat) (e : Event) (st : BgState) : BgState :=
  let st := fireTimers now st
  match e with
  | Event.installed info => { st with storage := onInstalled info now now now st.storage }
  | Event.uninstalled id => onUninstalled id now st
  | Event.message request => (onMessage request now st).1

/-- A timestamped sequence of events handled in order. -/
def run (events : List (Nat × Event)) (st : BgState) : BgState :=
  events.foldl (fun st te => handle te.1 te.2 st) st

/-- The state of a freshly started service over storage `s`. -/
def BgState.init (s : Storage) : BgState :=
  { recentUserActions := [], timers := [], storage := s }

/-- The `deleteType` of the newest archive record. -/
def lastDeleteType (s : Storage) : Option String :=
  ((s.deletedExtensions.getD []).head?).bind (fun r => r.deleteType)

/-! ## v1 background service (`src/background.js`) -/

namespace V1

/-- The v1 listener of `chrome.management.onInstalled`: storage is written only when
the id has no truthy functional group. -/
def onInstalled (info : ExtensionInfo) (s : Storage) : Storage :=
  let groups := s.extensionGroups.getD []
  if truthy (Dict.get? groups info.id) then s
  else { s with extensionGroups := some (Dict.set groups info.id "other") }

/-- The v1 listener of `chrome.management.onUninstalled`. -/
def onUninstalled (id : String) (s : Storage) : Storage :=
  let groups := s.extensionGroups.getD []
  let descriptions := s.extensionDescriptions.getD []
  { s with extensionGroups := some (Dict.delete groups id),
           extensionDescriptions := some (Dict.delete descriptions id) }

end V1

/-! ## Change history and snapshots (`options.js`, `extension/options.js`, `popup.js`) -/

/-- The test `s.includes(sub)` on the characters of two strings. -/
def includesChars : List Char → List Char → Bool
  | [], sub => sub.isEmpty
  | c :: cs, sub => sub.isPrefixOf (c :: cs) || includesChars cs sub

/-- The method `String.prototype.includes`. -/
def jsIncludes (s sub : String) : Bool := includesChars s.data sub.data

/-- The call `arr.splice(n)`: the elements from index `n` on are removed. -/
def spliceFrom {α : Type} (n : Nat) (arr : List α) : List α := arr.take n

/-- The shared tail of the three `logChange` functions: the entry is put first and
the history is cut to 100 elements when it is longer. -/
def pushHistory (logEntry : LogEntry) (s : Storage) : Storage :=
  let history := s.changeHistory.getD []
  let history := logEntry :: history
  let history := if history.length > 100 then spliceFrom 100 history else history
  { s with changeHistory := some history }

/-- The test at the head of `logChange`: some excluded text occurs in the action. -/
def isExcluded (excludeActions : List String) (action : String) : Bool :=
  excludeActions.any (fun exclude => jsIncludes action exclude)

/-- The text of the change logged by `createSnapshot`. -/
def snapshotAction (count : Nat) : String :=
  "建立快照 - " ++ toString count ++ "個擴充功能"

/-- The shared storage update of the `createSnapshot` functions: the snapshot is put
first and the list is cut to `keep` elements when it is longer. -/
def pushSnapshot (keep : Nat) (snapshot : Snapshot) (s : Storage) : Storage :=
  let snapshots := s.snapshots.getD []
  let snapshots := snapshot :: snapshots
  let snapshots := if snapshots.length > keep then spliceFrom keep snapshots else snapshots
  { s with snapshots := some snapshots }

namespace OptionsV1

/-- The list `excludeActions` of `logChange` in `src/options.js`. -/
def excludeActions : List String :=
  ["切換到manager視圖", "切換到history視圖", "切換到settings視圖",
   "切換到管理器視圖", "切換到歷史記錄視圖", "切換到設定視圖"]

/-- The function `logChange(action, undoData)` of `src/options.js`; `timestamp` and
`date` are its `Date.now()` and `toLocaleString` values. -/
def logChange (action : String) (undoData : Option String) (timestamp : Nat) (date : String)
    (s : Storage) : Storage :=
  if isExcluded excludeActions action then s
  else pushHistory { timestamp := timestamp, action := action, date := date,
                     undoData := undoData } s

/-- The snapshot object built by `createSnapshot` in `src/options.js`. -/
def makeSnapshot (allExtensions : List ExtensionInfo) (tId tStamp : Nat) (date : String) :
    Snapshot :=
  let enabledExtensions := allExtensions.filter (fun ext => ext.enabled)
  { id := some tId, timestamp := tStamp, date := date,
    extensions := enabledExtensions.map (fun ext =>
      { id := ext.id, name := ext.name, version := ext.version, enabled := ext.enabled,
        group := ext.group, deviceGroup := none }),
    count := enabledExtensions.length, type := some "manual", deviceFilter := none }

/-- The function `createSnapshot()` of `src/options.js`; `tLog` and `dLog` are the
time and date of the `logChange` call it makes. -/
def createSnapshot (allExtensions : List ExtensionInfo) (tId tStamp : Nat) (date : String)
    (tLog : Nat) (dLog : String) (s : Storage) : Storage :=
  let snapshot := makeSnapshot allExtensions tId tStamp date
  let s := pushSnapshot 50 snapshot s
  logChange (snapshotAction snapshot.count) none tLog dLog s

end OptionsV1

namespace OptionsV2

/-- The list `excludeActions` of `logChange` in `src/extension/options.js`. -/
def excludeActions : List String :=
  ["切換到manager視圖", "切換到history視圖", "切換到settings視圖"]

/-- The function `logChange(action, undoData)` of `src/extension/options.js`. -/
def logChange (action : String) (undoData : Option String) (timestamp : Nat) (date : String)
    (s : Storage) : Storage :=
  if isExcluded excludeActions action then s
  else pushHistory { timestamp := timestamp, action := action, date := date,
                     undoData := undoData } s

/-- The snapshot object built by `createSnapshot` in `src/extension/options.js`;
`deviceFilter` is `currentFilters.deviceGroup`. -/
def makeSnapshot (allExtensions : List ExtensionInfo) (deviceFilter : Option String)
    (tId tStamp : Nat) (date : String) : Snapshot :=
  let enabledExtensions := allExtensions.filter (fun ext => ext.enabled)
  { id := some tId, timestamp := tStamp, date := date,
    extensions := enabledExtensions.map (fun ext =>
      { id := ext.id, name := ext.name, version := ext.version, enabled := ext.enabled,
        group := ext.group, deviceGroup := ext.deviceGroup }),
    count := enabledExtensions.length, type := some "manual", deviceFilter := deviceFilter }

/-- The function `createSnapshot()` of `src/extension/options.js`. -/
def createSnapshot (allExtensions : List ExtensionInfo) (deviceFilter : Option String)
    (tId tStamp : Nat) (date : String) (tLog : Nat) (dLog : String) (s : Storage) : Storage :=
  let snapshot := makeSnapshot allExtensions deviceFilter tId tStamp date
  let s := pushSnapshot 50 snapshot s
  logChange (snapshotAction snapshot.count) none tLog dLog s

end OptionsV2

namespace Popup

/-- The function `logChange(action)` of `src/popup.js`: no action is filtered. -/
def logChange (action : String) (timestamp : Nat) (date : String) (s : Storage) : Storage :=
  pushHistory { timestamp := timestamp, action := action, date := date, undoData := none } s

/-- The snapshot object built by `createSnapshot` in `src/popup.js`. -/
def makeSnapshot (allExtensions : List ExtensionInfo) (tStamp : Nat) (date : String) :
    Snapshot :=
  let enabledExtensions := allExtensions.filter (fun ext => ext.enabled)
  { id := none, timestamp := tStamp, date := date,
    extensions := enabledExtensions.map (fun ext =>
      { id := ext.id, name := ext.name, version := ext.version, enabled := ext.enabled,
        group := none, deviceGroup := none }),
    count := enabledExtensions.length, type := none, deviceFilter := none }

/-- The function `createSnapshot()` of `src/popup.js`, which keeps 30 snapshots. -/
def createSnapshot (allExtensions : List ExtensionInfo) (tStamp : Nat) (date : String)
    (tLog : Nat) (dLog : String) (s : Storage) : Storage :=
  let snapshot := makeSnapshot allExtensions tStamp date
  let s := pushSnapshot 30 snapshot s
  logChange (snapshotAction snapshot.count) tLog dLog s

end Popup

/-! ## Inputs and predicates of the statements -/

/-- The message whose branch of the listener calls `recordUserAction`. -/
def uninstallRequest (id : String) : Request :=
  { type := "UNINSTALL_EXTENSION", id := some id, extensionId := none, enabled := none,
    deleteType := none, actionType := none }

/-- Two `recordUserAction` calls for the same id, 20 s apart, and the uninstall
event 15 s after the second one. -/
def staleTimerTrace : List (Nat × Event) :=
  [(0, Event.message (uninstallRequest "x")),
   (20000, Event.message (uninstallRequest "x")),
   (35000, Event.uninstalled "x")]

/-- A storage whose functional-group map holds the empty string for "x". -/
def emptyGroupStorage : Storage :=
  { Storage.empty with extensionGroups := some [("x", ""), ("y", "dev")] }

/-- An installed extension with id "x". -/
def xInfo : ExtensionInfo :=
  { id := "x", name := "X", version := "1.0", enabled := true, mayDisable := some true,
    group := none, deviceGroup := none, customDesc := none }

/-- Whether the last install or uninstall event for `id` in the sequence is an
install (`false` when the sequence has no such event). -/
def lastEventIsInstall (id : String) (events : List (Nat × Event)) : Bool :=
  events.foldl (fun acc te =>
    match te.2 with
    | Event.installed info => if info.id = id then true else acc
    | Event.uninstalled i => if i = id then false else acc
    | Event.message _ => acc) false

/-- The metadata entry of `id`, if any, is not marked `isDeleted = true`. -/
def NotMarkedDeleted (s : Storage) (id : String) : Prop :=
  ∀ m : Metadata, Dict.get? (s.extensionMetadata.getD []) id = some m → m.isDeleted ≠ some true

/-- Install, uninstall, install of "x" on a fresh storage. -/
def reinstallTrace : List (Nat × Event) :=
  [(1, Event.installed xInfo), (2, Event.uninstalled "x"), (3, Event.installed xInfo)]

/-! ## Text helpers of the options pages -/

/-- The code points `String.prototype.trim` removes: WhiteSpace and LineTerminator. -/
def isJsWhitespace (c : Char) : Bool :=
  [0x9, 0xA, 0xB, 0xC, 0xD, 0x20, 0xA0, 0x1680, 0x2028, 0x2029, 0x202F, 0x205F, 0x3000,
    0xFEFF].contains c.toNat || (decide (0x2000 ≤ c.toNat) && decide (c.toNat ≤ 0x200A))

/-- The method `String.prototype.trim`. -/
def jsTrim (s : String) : String :=
  ⟨((s.data.dropWhile isJsWhitespace).reverse.dropWhile isJsWhitespace).reverse⟩

/-- A JavaScript string as the sequence of its UTF-16 code units, the elements that
`length` counts and `substring` cuts between. -/
abbrev JsText := List Nat

/-- The UTF-16 code units of a text: one unit for a code point below U+10000, a
surrogate pair for any other. -/
def utf16 (s : String) : JsText :=
  (s.data.map (fun c =>
    if c.toNat < 0x10000 then [c.toNat]
    else [0xD800 + (c.toNat - 0x10000) / 0x400, 0xDC00 + (c.toNat - 0x10000) % 0x400])).flatten

/-- The code units `String.prototype.trim` removes: WhiteSpace and LineTerminator. -/
def isJsWhitespaceUnit (u : Nat) : Bool :=
  [0x9, 0xA, 0xB, 0xC, 0xD, 0x20, 0xA0, 0x1680, 0x2028, 0x2029, 0x202F, 0x205F, 0x3000,
    0xFEFF].contains u || (decide (0x2000 ≤ u) && decide (u ≤ 0x200A))

/-- The method `String.prototype.trim` on code units. -/
def trimUnits (t : JsText) : JsText :=
  ((t.dropWhile isJsWhitespaceUnit).reverse.dropWhile isJsWhitespaceUnit).reverse

/-- The method `s.startsWith(pre)`. -/
def startsWith (s pre : String) : Bool := pre.data.isPrefixOf s.data

/-- The spread `{...a, ...b}`: the entries of `a`, overridden and extended by `b`. -/
def mergeDict (a b : Dict String String) : Dict String String :=
  b.foldl (fun acc kv => Dict.set acc kv.1 kv.2) a

/-- The loop `exts.forEach(ext => d[ext.id] = v)`. -/
def assignAll (d : Dict String String) (exts : List ExtensionInfo) (v : String) :
    Dict String String :=
  exts.foldl (fun acc ext => Dict.set acc ext.id v) d

/-- The loop that copies the `custom_` keys of `groupNames` into a new object. -/
def customGroupsOf (groupNames : Dict String String) : Dict String String :=
  groupNames.filter (fun kv => startsWith kv.1 "custom_")

/-! ## v2 options page (`src/extension/options.js`): groups and archive -/

namespace OptionsV2

/-- The module variable `currentFilters`. -/
structure Filters where
  functionalGroup : String
  deviceGroup : String
  viewMode : String
deriving DecidableEq, Repr

/-- The module variables of the page that the modelled functions read or write. -/
structure Page where
  allExtensions : List ExtensionInfo
  deletedExtensions : List DeletedRecord
  currentFilters : Filters
  groupNames : Dict String String
  deviceGroupNames : Dict String String
  extensionGroups : Dict String String
  extensionDeviceGroups : Dict String String
  extensionDescriptions : Dict String String
  extensionMetadata : Dict String Metadata
deriving DecidableEq, Repr

/-- The initial value of `groupNames`. -/
def defaultGroupNames : Dict String String :=
  [("all", "所有擴充功能"), ("adblocker", "🛡️ 廣告封鎖與隱私"), ("ai", "🤖 AI助手與聊天"),
   ("productivity", "📌 生產力工具"), ("dev", "💻 開發工具"), ("screenshot", "📸 截圖與複製"),
   ("youtube", "🎬 YouTube工具"), ("translate", "🌐 翻譯工具"), ("scraper", "🔍 資料抓取"),
   ("other", "🔧 其他工具")]

/-- The device groups `loadStorageData` uses when storage holds none. -/
def defaultDeviceGroupNames : Dict String String :=
  [("all_devices", "🌐 所有設備"), ("desktop_main", "🖥️ 主力機"),
   ("laptop_portable", "💻 外出筆電")]

/-- The module variables as the script initialises them. -/
def Page.initial : Page :=
  { allExtensions := [], deletedExtensions := [],
    currentFilters := { functionalGroup := "all", deviceGroup := "all_devices",
                        viewMode := "active" },
    groupNames := defaultGroupNames, deviceGroupNames := [], extensionGroups := [],
    extensionDeviceGroups := [], extensionDescriptions := [], extensionMetadata := [] }

/-- The function `loadStorageData()`. -/
def loadStorageData (p : Page) (s : Storage) : Page :=
  { p with
    extensionGroups := s.extensionGroups.getD [],
    extensionDescriptions := s.extensionDescriptions.getD [],
    extensionMetadata := s.extensionMetadata.getD [],
    deletedExtensions := s.deletedExtensions.getD [],
    groupNames :=
      match s.customGroupNames with
      | some custom => mergeDict p.groupNames custom
      | none => p.groupNames,
    deviceGroupNames := s.deviceGroupNames.getD defaultDeviceGroupNames,
    extensionDeviceGroups := s.extensionDeviceGroups.getD [],
    currentFilters :=
      match s.currentFilters with
      | some f =>
        { functionalGroup := f.functionalGroup.getD p.currentFilters.functionalGroup,
          deviceGroup := f.deviceGroup.getD p.currentFilters.deviceGroup,
          viewMode := f.viewMode.getD p.currentFilters.viewMode }
      | none => p.currentFilters }

/-- The function `editGroupName(groupId)`; `answer` is what `prompt` returns
(`none` when the user cancels). -/
def editGroupName (groupId : String) (answer : Option String) (tLog : Nat) (dLog : String)
    (p : Page) (s : Storage) : Page × Storage :=
  if groupId = "all" then (p, s)
  else
    let currentName := Dict.get? p.groupNames groupId
    match answer with
    | none => (p, s)
    | some newName =>
      if newName = "" ∨ jsTrim newName = "" ∨ some newName = currentName then (p, s)
      else
        let groupNames := Dict.set p.groupNames groupId (jsTrim newName)
        let s := { s with customGroupNames := some (customGroupsOf groupNames) }
        let s := logChange
          ("重新命名群組：" ++ currentName.getD "undefined" ++ " → " ++ jsTrim newName)
          none tLog dLog s
        ({ p with groupNames := groupNames }, s)

/-- The function `deleteGroup(groupId)`; `moveToOther` is the answer to the
confirmation shown when the group holds extensions. -/
def deleteGroup (groupId : String) (moveToOther : Bool) (tLog : Nat) (dLog : String)
    (p : Page) (s : Storage) : Page × Storage :=
  if groupId = "all" ∨ startsWith groupId "custom_" = false then (p, s)
  else
    let groupName := Dict.get? p.groupNames groupId
    let extensionsInGroup := p.allExtensions.filter (fun ext => ext.group = some groupId)
    if extensionsInGroup.length > 0 ∧ moveToOther = false then (p, s)
    else
      let moved : Page × Storage :=
        if extensionsInGroup.length > 0 then
          let extensionGroups := assignAll p.extensionGroups extensionsInGroup "other"
          ({ p with
             allExtensions := p.allExtensions.map (fun ext =>
               if ext.group = some groupId then { ext with group := some "other" } else ext),
             extensionGroups := extensionGroups },
           { s with extensionGroups := some extensionGroups })
        else (p, s)
      let groupNames := Dict.delete moved.1.groupNames groupId
      let s := { moved.2 with customGroupNames := some (customGroupsOf groupNames) }
      let currentFilters :=
        if moved.1.currentFilters.functionalGroup = groupId then
          { moved.1.currentFilters with functionalGroup := "all" }
        else moved.1.currentFilters
      let s := logChange ("刪除群組：" ++ groupName.getD "undefined") none tLog dLog s
      ({ moved.1 with groupNames := groupNames, currentFilters := currentFilters }, s)

/-- The declared function `editDeviceGroupName(groupId)` (line 480), with its guard. -/
def editDeviceGroupName (groupId : String) (answer : Option String) (tLog : Nat)
    (dLog : String) (p : Page) (s : Storage) : Page × Storage :=
  if startsWith groupId "device_" = false then (p, s)
  else
    let currentName := Dict.get? p.deviceGroupNames groupId
    match answer with
    | none => (p, s)
    | some newName =>
      if newName = "" ∨ jsTrim newName = "" ∨ some newName = currentName then (p, s)
      else
        let deviceGroupNames := Dict.set p.deviceGroupNames groupId (jsTrim newName)
        let s := { s with deviceGroupNames := some deviceGroupNames }
        let s := logChange
          ("編輯設備群組：" ++ currentName.getD "undefined" ++ " → " ++ jsTrim newName)
          none tLog dLog s
        ({ p with deviceGroupNames := deviceGroupNames }, s)

/-- The function assigned to `window.editDeviceGroupName` at the end of the script
(line 3745), which replaces the declared one as the global of that name. -/
def windowEditDeviceGroupName (groupId : String) (answer : Option String) (tLog : Nat)
    (dLog : String) (p : Page) (s : Storage) : Page × Storage :=
  let currentName := Dict.get? p.deviceGroupNames groupId
  match answer with
  | none => (p, s)
  | some newName =>
    if newName = "" ∨ jsTrim newName = "" ∨ some newName = currentName then (p, s)
    else
      let deviceGroupNames := Dict.set p.deviceGroupNames groupId (jsTrim newName)
      let s := { s with deviceGroupNames := some deviceGroupNames }
      let s := logChange
        ("編輯設備群組：" ++ currentName.getD "undefined" ++ " → " ++ jsTrim newName)
        none tLog dLog s
      ({ p with deviceGroupNames := deviceGroupNames }, s)

/-- The function `deleteDeviceGroup(groupId)`; `firstConfirm` and `secondConfirm` are
the answers to its two confirmations (the second is asked only when the group holds
extensions). -/
def deleteDeviceGroup (groupId : String) (firstConfirm secondConfirm : Bool) (tLog : Nat)
    (dLog : String) (p : Page) (s : Storage) : Page × Storage :=
  if groupId = "all_devices" then (p, s)
  else
    let groupName := Dict.get? p.deviceGroupNames groupId
    let extensionsInGroup := p.allExtensions.filter (fun ext => ext.deviceGroup = some groupId)
    if firstConfirm = false then (p, s)
    else if extensionsInGroup.length > 0 ∧ secondConfirm = false then (p, s)
    else
      let moved : Page × Storage :=
        if extensionsInGroup.length > 0 then
          let extensionDeviceGroups :=
            assignAll p.extensionDeviceGroups extensionsInGroup "all_devices"
          ({ p with
             allExtensions := p.allExtensions.map (fun ext =>
               if ext.deviceGroup = some groupId then
                 { ext with deviceGroup := some "all_devices" }
               else ext),
             extensionDeviceGroups := extensionDeviceGroups },
           { s with extensionDeviceGroups := some extensionDeviceGroups })
        else (p, s)
      let deviceGroupNames := Dict.delete moved.1.deviceGroupNames groupId
      let s := { moved.2 with deviceGroupNames := some deviceGroupNames }
      let currentFilters :=
        if moved.1.currentFilters.deviceGroup = groupId then
          { moved.1.currentFilters with deviceGroup := "all_devices" }
        else moved.1.currentFilters
      let s := logChange ("刪除設備群組：" ++ groupName.getD "undefined") none tLog dLog s
      ({ moved.1 with deviceGroupNames := deviceGroupNames, currentFilters := currentFilters },
        s)

/-- The age limit of `cleanOldRecords`, `90 * 24 * 60 * 60 * 1000` ms. -/
def ninetyDays : Nat := 90 * 24 * 60 * 60 * 1000

/-- The function `cleanOldRecords()`; `confirmed` is the answer to its confirmation
and `now` its `Date.now()`. The third component is the number shown in the alert
(`none` when nothing is shown). -/
def cleanOldRecords (confirmed : Bool) (now : Nat) (p : Page) (s : Storage) :
    Page × Storage × Option Nat :=
  if confirmed = false then (p, s, none)
  else
    let cutoffTime : Int := (now : Int) - (ninetyDays : Int)
    let before := p.deletedExtensions.length
    let deletedExtensions :=
      p.deletedExtensions.filter (fun d => decide ((d.deleteTime : Int) > cutoffTime))
    let s := { s with deletedExtensions := some deletedExtensions }
    let removed := before - deletedExtensions.length
    ({ p with deletedExtensions := deletedExtensions }, s, some removed)

end OptionsV2

/-! ## v1 options page (`src/options.js`): groups and descriptions -/

namespace OptionsV1

/-- The module variables of the page that the modelled functions read or write. -/
structure Page where
  allExtensions : List ExtensionInfo
  currentGroup : String
  groupNames : Dict String String
  extensionGroups : Dict String String
  extensionDescriptions : Dict String String
deriving DecidableEq, Repr

/-- The function `deleteGroup(groupId)` of `src/options.js`. -/
def deleteGroup (groupId : String) (moveToOther : Bool) (tLog : Nat) (dLog : String)
    (p : Page) (s : Storage) : Page × Storage :=
  if groupId = "all" ∨ startsWith groupId "custom_" = false then (p, s)
  else
    let groupName := Dict.get? p.groupNames groupId
    let extensionsInGroup := p.allExtensions.filter (fun ext => ext.group = some groupId)
    if extensionsInGroup.length > 0 ∧ moveToOther = false then (p, s)
    else
      let moved : Page × Storage :=
        if extensionsInGroup.length > 0 then
          let extensionGroups := assignAll p.extensionGroups extensionsInGroup "other"
          ({ p with
             allExtensions := p.allExtensions.map (fun ext =>
               if ext.group = some groupId then { ext with group := some "other" } else ext),
             extensionGroups := extensionGroups },
           { s with extensionGroups := some extensionGroups })
        else (p, s)
      let groupNames := Dict.delete moved.1.groupNames groupId
      let s := { moved.2 with customGroupNames := some (customGroupsOf groupNames) }
      let s := logChange ("刪除群組：" ++ groupName.getD "undefined") none tLog dLog s
      let currentGroup := if moved.1.currentGroup = groupId then "all" else moved.1.currentGroup
      ({ moved.1 with groupNames := groupNames, currentGroup := currentGroup }, s)

/-- The placeholder text of an empty description. -/
def descriptionPlaceholder : String := "點擊添加描述..."

/-- What a call of `saveDescription` leaves behind: the page variable
`extensionDescriptions`, the value assigned to `ext.customDesc`, the object written
to storage under the key `extensionDescriptions`, and the action passed to
`logChange` (`none` where the call makes no such assignment, write or log).
Descriptions are code-unit sequences, because the cut at 47 may fall inside a
surrogate pair. -/
structure DescriptionWrite where
  extensionDescriptions : Dict String JsText
  customDesc : Option JsText
  stored : Option (Dict String JsText)
  logged : Option String
deriving DecidableEq, Repr

/-- The function `saveDescription(id, newDesc)` of `src/options.js` on the page
variables `allExtensions` and `extensionDescriptions`; the text of the edited
element is not part of the state. -/
def saveDescription (allExtensions : List ExtensionInfo)
    (extensionDescriptions : Dict String JsText) (id : String) (newDesc : JsText) :
    DescriptionWrite :=
  match allExtensions.find? (fun e => e.id = id) with
  | none =>
    { extensionDescriptions := extensionDescriptions, customDesc := none, stored := none,
      logged := none }
  | some ext =>
    let trimmedDesc := trimUnits newDesc
    if trimmedDesc = [] ∨ trimmedDesc = utf16 descriptionPlaceholder then
      { extensionDescriptions := extensionDescriptions, customDesc := none, stored := none,
        logged := none }
    else
      let saved :=
        if trimmedDesc.length > 50 then trimmedDesc.take 47 ++ utf16 "..."
        else trimmedDesc
      let extensionDescriptions := Dict.set extensionDescriptions id saved
      { extensionDescriptions := extensionDescriptions, customDesc := some saved,
        stored := some extensionDescriptions,
        logged := some ("更新 " ++ ext.name ++ " 的描述") }

end OptionsV1

namespace OptionsV1

/-- The initial value of `groupNames` in `src/options.js`. -/
def defaultGroupNames : Dict String String :=
  [("all", "所有擴充功能"), ("adblocker", "🛡️ 廣告封鎖與隱私"), ("ai", "🤖 AI助手與聊天"),
   ("productivity", "📌 生產力工具"), ("dev", "💻 開發工具"), ("screenshot", "📸 截圖與複製"),
   ("youtube", "🎬 YouTube工具"), ("translate", "🌐 翻譯工具"), ("scraper", "🔍 資料抓取"),
   ("other", "🔧 其他工具")]

/-- The module variables as the script initialises them. -/
def Page.initial : Page :=
  { allExtensions := [], currentGroup := "all", groupNames := defaultGroupNames,
    extensionGroups := [], extensionDescriptions := [] }

/-- The function `loadStorageData()` of `src/options.js`. -/
def loadStorageData (p : Page) (s : Storage) : Page :=
  { p with
    extensionGroups := s.extensionGroups.getD [],
    extensionDescriptions := s.extensionDescriptions.getD [],
    groupNames := mergeDict p.groupNames (s.customGroupNames.getD []) }

/-- The function `getDefaultGroupName(groupId)`. -/
def getDefaultGroupName (groupId : String) : String :=
  strOr (Dict.get? (defaultGroupNames.filter (fun kv => decide (kv.1 ≠ "all"))) groupId) ""

/-- The built-in group ids `editGroupName` of `src/options.js` also saves. -/
def builtinGroupIds : List String :=
  ["adblocker", "ai", "productivity", "dev", "screenshot", "youtube", "translate", "scraper",
   "other"]

/-- The function `editGroupName(groupId)` of `src/options.js`: custom and built-in
names that differ from the default name are stored. -/
def editGroupName (groupId : String) (answer : Option String) (tLog : Nat) (dLog : String)
    (p : Page) (s : Storage) : Page × Storage :=
  if groupId = "all" then (p, s)
  else
    let currentName := Dict.get? p.groupNames groupId
    match answer with
    | none => (p, s)
    | some newName =>
      if newName = "" ∨ jsTrim newName = "" ∨ some newName = currentName then (p, s)
      else
        let groupNames := Dict.set p.groupNames groupId (jsTrim newName)
        let customGroups := groupNames.filter (fun kv =>
          (startsWith kv.1 "custom_" || builtinGroupIds.contains kv.1) &&
            decide (kv.2 ≠ getDefaultGroupName kv.1))
        let s := { s with customGroupNames := some customGroups }
        let s := logChange
          ("群組重新命名：" ++ currentName.getD "undefined" ++ " → " ++ jsTrim newName)
          none tLog dLog s
        ({ p with groupNames := groupNames }, s)

end OptionsV1

/-- The v2 page after `loadStorageData` on an empty storage. -/
def loadedPage : OptionsV2.Page := OptionsV2.loadStorageData OptionsV2.Page.initial Storage.empty

/-- The stored record of the extension "old", deleted at time 5. -/
def oldRecord : DeletedRecord :=
  { id := "old", name := "Old", version := "1", deleteTime := 5, deleteType := some "auto",
    functionalGroup := "other", deviceGroup := "all_devices", description := "",
    metadata := Metadata.empty }

/-- An extension "y" in the functional group custom_1 and the device group device_1. -/
def yInfo : ExtensionInfo :=
  { id := "y", name := "Y", version := "2.0", enabled := false, mayDisable := some true,
    group := some "custom_1", deviceGroup := some "device_1", customDesc := none }

/-- A v2 page with one custom functional group and one custom device group, both
holding "y". -/
def customPage : OptionsV2.Page :=
  { loadedPage with
    allExtensions := [yInfo],
    groupNames := OptionsV2.defaultGroupNames ++ [("custom_1", "Mine")],
    deviceGroupNames := OptionsV2.defaultDeviceGroupNames ++ [("device_1", "Phone")],
    extensionGroups := [("y", "custom_1")],
    extensionDeviceGroups := [("y", "device_1")],
    currentFilters := { functionalGroup := "custom_1", deviceGroup := "device_1",
                        viewMode := "active" } }

/-- A v1 page with one custom functional group holding "y". -/
def customPageV1 : OptionsV1.Page :=
  { allExtensions := [yInfo], currentGroup := "custom_1",
    groupNames := OptionsV2.defaultGroupNames ++ [("custom_1", "Mine")],
    extensionGroups := [("y", "custom_1")], extensionDescriptions := [] }

/-- What deleting the functional group `groupId` does to the group names, the
extensions and the group map: the id is no key of the names, every extension of
`all0` in the group is in 'other' and no other extension is changed, in the list and
in the map. -/
def GroupDeleted (groupId : String) (all0 all1 : List ExtensionInfo)
    (names1 eg0 eg1 : Dict String String) : Prop :=
  Dict.has names1 groupId = false ∧
  all1 = all0.map (fun ext =>
    if ext.group = some groupId then { ext with group := some "other" } else ext) ∧
  ∀ k : String, Dict.get? eg1 k =
    if k ∈ (all0.filter (fun ext => decide (ext.group = some groupId))).map (fun ext => ext.id)
    then some "other" else Dict.get? eg0 k

/-- What deleting the device group `groupId` does to the device group names, the
extensions and the device group map. -/
def DeviceGroupDeleted (groupId : String) (all0 all1 : List ExtensionInfo)
    (names1 dg0 dg1 : Dict String String) : Prop :=
  Dict.has names1 groupId = false ∧
  all1 = all0.map (fun ext =>
    if ext.deviceGroup = some groupId then { ext with deviceGroup := some "all_devices" }
    else ext) ∧
  ∀ k : String, Dict.get? dg1 k =
    if k ∈ (all0.filter (fun ext => decide (ext.deviceGroup = some groupId))).map
      (fun ext => ext.id)
    then some "all_devices" else Dict.get? dg0 k

/-! ## v2 options page: export and import of settings -/

/-- One key of `chrome.storage.local.set(items)`: a key present in `items` replaces
the stored value, an absent key leaves it. -/
def setKey {α : Type} (item stored : Option α) : Option α :=
  match item with
  | some v => some v
  | none => stored

/-- The call `chrome.storage.local.set(items)`. -/
def storageSet (s items : Storage) : Storage :=
  { extensionGroups := setKey items.extensionGroups s.extensionGroups,
    extensionDeviceGroups := setKey items.extensionDeviceGroups s.extensionDeviceGroups,
    extensionDescriptions := setKey items.extensionDescriptions s.extensionDescriptions,
    extensionMetadata := setKey items.extensionMetadata s.extensionMetadata,
    deletedExtensions := setKey items.deletedExtensions s.deletedExtensions,
    archiveNeedsCleanup := setKey items.archiveNeedsCleanup s.archiveNeedsCleanup,
    archiveWarningDismissed := setKey items.archiveWarningDismissed s.archiveWarningDismissed,
    changeHistory := setKey items.changeHistory s.changeHistory,
    snapshots := setKey items.snapshots s.snapshots,
    customGroupNames := setKey items.customGroupNames s.customGroupNames,
    deviceGroupNames := setKey items.deviceGroupNames s.deviceGroupNames,
    theme := setKey items.theme s.theme,
    autoSnapshot := setKey items.autoSnapshot s.autoSnapshot,
    currentFilters := setKey items.currentFilters s.currentFilters,
    version := setKey items.version s.version,
    exportDate := setKey items.exportDate s.exportDate }

namespace OptionsV2

/-- The object `exportData` of `exportData()` writes to the file; `exportDate` is
`new Date().toISOString()`. Writing it with `JSON.stringify` and reading it with
`JSON.parse` gives the same record back. -/
def exportFile (data : Storage) (exportDate : String) : Storage :=
  { Storage.empty with
    version := some "2.0",
    extensionGroups := some (data.extensionGroups.getD []),
    extensionDeviceGroups := some (data.extensionDeviceGroups.getD []),
    extensionDescriptions := some (data.extensionDescriptions.getD []),
    extensionMetadata := some (data.extensionMetadata.getD []),
    deviceGroupNames := some (data.deviceGroupNames.getD []),
    customGroupNames := some (data.customGroupNames.getD []),
    theme := some (strOr data.theme "dark"),
    autoSnapshot := some (decide (data.autoSnapshot ≠ some false)),
    exportDate := some exportDate }

/-- The function `exportData()`: the file and the storage after its `logChange`. -/
def exportData (exportDate : String) (tLog : Nat) (dLog : String) (s : Storage) :
    Storage × Storage :=
  (exportFile s exportDate, logChange "匯出設定資料（v2.0）" none tLog dLog s)

/-- The object `converted` that `importData` builds from a file of the v1.0 format. -/
def convertV1 (data : Storage) : Storage :=
  { Storage.empty with
    extensionGroups := some (data.extensionGroups.getD []),
    extensionDescriptions := some (data.extensionDescriptions.getD []),
    customGroupNames := some (data.customGroupNames.getD []),
    theme := some (strOr data.theme "dark"),
    autoSnapshot := some (decide (data.autoSnapshot ≠ some false)) }

/-- The storage effect of `importData()` for the parsed file `data`; `confirmed` is
the answer to its confirmation. The page variables it reloads afterwards are dropped
by the `location.reload()` that ends it. -/
def importData (data : Storage) (confirmed : Bool) (tLog : Nat) (dLog : String)
    (s : Storage) : Storage :=
  if confirmed = false then s
  else
    let version := strOr data.version "1.0"
    let s := if version = "2.0" then storageSet s data else storageSet s (convertV1 data)
    logChange ("匯入設定資料（" ++ version ++ "）") none tLog dLog s

end OptionsV2

/-! ## Enabling and disabling: toggles and snapshot restore -/

/-- An item as `chrome.management` holds it. -/
structure BrowserExt where
  id : String
  name : String
  version : String
  enabled : Bool
  mayDisable : Option Bool
  type : String
deriving DecidableEq, Repr

/-- The state behind the management API: the installed items and `chrome.runtime.id`. -/
structure Browser where
  items : List BrowserExt
  selfId : String
deriving DecidableEq, Repr

/-- The effect of a `chrome.management.setEnabled(id, enabled)` that resolves. -/
def Browser.setEnabled (b : Browser) (id : String) (enabled : Bool) : Browser :=
  { b with items := b.items.map (fun e => if e.id = id then { e with enabled := enabled } else e) }

/-- The items `loadExtensions` keeps: of type 'extension' and not the manager itself. -/
def Browser.visible (b : Browser) : List BrowserExt :=
  b.items.filter (fun e => decide (e.type = "extension") && decide (e.id ≠ b.selfId))

/-- The assignment `ext.enabled = v` on the object `allExtensions.find` returns for `id`. -/
def setEnabledFirst (id : String) (v : Bool) : List ExtensionInfo → List ExtensionInfo
  | [] => []
  | e :: rest =>
    if e.id = id then { e with enabled := v } :: rest else e :: setEnabledFirst id v rest

/-- The value of `s.id || s.timestamp` for a snapshot. -/
def snapKey (sn : Snapshot) : Nat :=
  match sn.id with
  | some n => if n = 0 then sn.timestamp else n
  | none => sn.timestamp

/-- The loop of `restoreSnapshot` over `allExtensions`: for an eligible extension
whose `enabled` differs from membership in the snapshot's ids, `setEnabled` is called;
when the call resolves (`ok`), the browser and `ext.enabled` are updated. The result
is the list after the loop, the browser, and the calls made, in order. -/
def restoreLoop (eligible : ExtensionInfo → Bool) (ok : String → Bool → Bool)
    (ids : List String) :
    List ExtensionInfo → Browser → List ExtensionInfo × Browser × List (String × Bool)
  | [], b => ([], b, [])
  | ext :: rest, b =>
    let shouldBeEnabled := ids.contains ext.id
    if eligible ext && (ext.enabled != shouldBeEnabled) then
      if ok ext.id shouldBeEnabled then
        let r := restoreLoop eligible ok ids rest (b.setEnabled ext.id shouldBeEnabled)
        ({ ext with enabled := shouldBeEnabled } :: r.1, r.2.1,
          (ext.id, shouldBeEnabled) :: r.2.2)
      else
        let r := restoreLoop eligible ok ids rest b
        (ext :: r.1, r.2.1, (ext.id, shouldBeEnabled) :: r.2.2)
    else
      let r := restoreLoop eligible ok ids rest b
      (ext :: r.1, r.2.1, r.2.2)

/-- The page's list shows the browser's state: the same ids with the same `enabled`,
in the order of the visible items. -/
def InSync (allExtensions : List ExtensionInfo) (b : Browser) : Prop :=
  allExtensions.map (fun e => (e.id, e.enabled)) = b.visible.map (fun e => (e.id, e.enabled))

namespace OptionsV2

/-- The function `loadExtensions()`: the visible items with the stored group, device
group and description attached. -/
def loadExtensions (b : Browser) (p : Page) : Page :=
  { p with allExtensions := b.visible.map (fun e =>
      { id := e.id, name := e.name, version := e.version, enabled := e.enabled,
        mayDisable := e.mayDisable,
        group := some (strOr (Dict.get? p.extensionGroups e.id) "other"),
        deviceGroup := some (strOr (Dict.get? p.extensionDeviceGroups e.id) "all_devices"),
        customDesc := some (strOr (Dict.get? p.extensionDescriptions e.id) "") }) }

/-- The function `toggleExtension(id)`; `ok` tells whether a `setEnabled` call
resolves. The delayed check reads the item back from the browser. -/
def toggleExtension (id : String) (ok : String → Bool → Bool) (tLog : Nat) (dLog : String)
    (w : Page × Browser × Storage) : Page × Browser × Storage :=
  match w.1.allExtensions.find? (fun e => e.id = id) with
  | none => w
  | some ext =>
    let newState := !ext.enabled
    if ok id newState then
      let b := w.2.1.setEnabled id newState
      let allExtensions := setEnabledFirst id newState w.1.allExtensions
      let allExtensions :=
        match b.items.find? (fun e => e.id = id) with
        | some updatedExt => setEnabledFirst id updatedExt.enabled allExtensions
        | none => allExtensions
      let s := logChange ((if newState then "啟用" else "停用") ++ " " ++ ext.name) none
        tLog dLog w.2.2
      ({ w.1 with allExtensions := allExtensions }, b, s)
    else w

/-- The function `restoreSnapshot(snapshotId)`; `confirmed` is the answer to its
confirmation. The second component lists the `setEnabled` calls it makes. -/
def restoreSnapshot (snapshotId : Nat) (confirmed : Bool) (ok : String → Bool → Bool)
    (tLog : Nat) (dLog : String) (w : Page × Browser × Storage) :
    (Page × Browser × Storage) × List (String × Bool) :=
  match (w.2.2.snapshots.getD []).find? (fun sn => decide (snapKey sn = snapshotId)) with
  | none => (w, [])
  | some snapshot =>
    if confirmed = false then (w, [])
    else
      let snapshotExtIds := snapshot.extensions.map (fun e => e.id)
      let r := restoreLoop (fun _ => true) ok snapshotExtIds w.1.allExtensions w.2.1
      let p := loadExtensions r.2.1 { w.1 with allExtensions := r.1 }
      let s := logChange ("恢復快照 - " ++ snapshot.date) none tLog dLog w.2.2
      ((p, r.2.1, s), r.2.2)

end OptionsV2

namespace OptionsV1

/-- The function `toggleExtension(id)` of `src/options.js`. -/
def toggleExtension (id : String) (ok : String → Bool → Bool) (tLog : Nat) (dLog : String)
    (w : Page × Browser × Storage) : Page × Browser × Storage :=
  match w.1.allExtensions.find? (fun e => e.id = id) with
  | none => w
  | some ext =>
    let newState := !ext.enabled
    if ok id newState then
      let b := w.2.1.setEnabled id newState
      let allExtensions := setEnabledFirst id newState w.1.allExtensions
      let allExtensions :=
        match b.items.find? (fun e => e.id = id) with
        | some updatedExt => setEnabledFirst id updatedExt.enabled allExtensions
        | none => setEnabledFirst id newState allExtensions
      let s := logChange ((if newState then "啟用" else "停用") ++ " " ++ ext.name)
        (some ("toggleExtension " ++ id)) tLog dLog w.2.2
      ({ w.1 with allExtensions := allExtensions }, b, s)
    else w

/-- The test `ext.mayDisable !== false`. -/
def mayBeRestored (ext : ExtensionInfo) : Bool := decide (ext.mayDisable ≠ some false)

/-- The number of calls of the loop that resolved (`successCount`). -/
def successCount (ok : String → Bool → Bool) (calls : List (String × Bool)) : Nat :=
  (calls.filter (fun c => ok c.1 c.2)).length

/-- The function `restoreSnapshot(snapshotId)` of `src/options.js`. -/
def restoreSnapshot (snapshotId : Nat) (confirmed : Bool) (ok : String → Bool → Bool)
    (tLog : Nat) (dLog : String) (w : Page × Browser × Storage) :
    (Page × Browser × Storage) × List (String × Bool) :=
  match (w.2.2.snapshots.getD []).find? (fun sn => decide (sn.id = some snapshotId)) with
  | none => (w, [])
  | some snapshot =>
    if confirmed = false then (w, [])
    else
      let enabledIds := snapshot.extensions.map (fun e => e.id)
      let r := restoreLoop mayBeRestored ok enabledIds w.1.allExtensions w.2.1
      let s := logChange
        ("還原快照 - 影響" ++ toString (successCount ok r.2.2) ++ "個擴充功能") none tLog dLog
        w.2.2
      (({ w.1 with allExtensions := r.1 }, r.2.1, s), r.2.2)

end OptionsV1

/-- A browser with the extensions "x" (enabled) and "y" (disabled), the manager
itself and a theme. -/
def demoBrowser : Browser :=
  { items :=
      [{ id := "x", name := "X", version := "1.0", enabled := true, mayDisable := some true,
         type := "extension" },
       { id := "mgr", name := "Manager", version := "2.0", enabled := true,
         mayDisable := some true, type := "extension" },
       { id := "t", name := "Theme", version := "1.0", enabled := true, mayDisable := some true,
         type := "theme" },
       { id := "y", name := "Y", version := "2.0", enabled := false, mayDisable := some true,
         type := "extension" }],
    selfId := "mgr" }

/-- The v2 page after `loadExtensions` on `demoBrowser`. -/
def demoPage : OptionsV2.Page := OptionsV2.loadExtensions demoBrowser loadedPage

/-- A stored snapshot with id 100 in which only "y" is enabled. -/
def demoSnapshot : Snapshot :=
  { id := some 100, timestamp := 100, date := "d",
    extensions := [{ id := "y", name := "Y", version := "2.0", enabled := true,
                     group := some "other", deviceGroup := some "all_devices" }],
    count := 1, type := some "manual", deviceFilter := some "all_devices" }

/-- A storage holding `demoSnapshot`. -/
def demoStorage : Storage := { Storage.empty with snapshots := some [demoSnapshot] }

/-- An enabled extension "z" with `mayDisable === false`. -/
def zInfo : ExtensionInfo :=
  { id := "z", name := "Z", version := "3.0", enabled := true, mayDisable := some false,
    group := some "other", deviceGroup := none, customDesc := none }

/-- A v1 page listing "x" (enabled), "y" (disabled) and "z" (enabled, not to be
disabled). -/
def demoPageV1 : OptionsV1.Page :=
  { OptionsV1.Page.initial with allExtensions := [xInfo, yInfo, zInfo] }

namespace OptionsV2

/-- The sequence `createSnapshot()`, then `toggleExtension(id)` for each id of
`toggles`. -/
def snapshotThenToggle (toggles : List String) (ok : String → Bool → Bool) (tId tStamp : Nat)
    (date : String) (tLog : Nat) (dLog : String) (w : Page × Browser × Storage) :
    Page × Browser × Storage :=
  toggles.foldl (fun w id => toggleExtension id ok tLog dLog w)
    (w.1, w.2.1, createSnapshot w.1.allExtensions (some w.1.currentFilters.deviceGroup) tId
      tStamp date tLog dLog w.2.2)

/-- The sequence `createSnapshot()`, `toggleExtension(id)` for each id of `toggles`,
then a confirmed `restoreSnapshot` of the snapshot just created, identified as the
snapshot list does by `id || timestamp`. -/
def roundTrip (toggles : List String) (ok : String → Bool → Bool) (tId tStamp : Nat)
    (date : String) (tLog : Nat) (dLog : String) (w : Page × Browser × Storage) :
    (Page × Browser × Storage) × List (String × Bool) :=
  restoreSnapshot
    (snapKey (makeSnapshot w.1.allExtensions (some w.1.currentFilters.deviceGroup) tId tStamp
      date))
    true ok tLog dLog (snapshotThenToggle toggles ok tId tStamp date tLog dLog w)

end OptionsV2

namespace OptionsV1

/-- The sequence `createSnapshot()`, then `toggleExtension(id)` for each id of
`toggles`, on the v1 page. -/
def snapshotThenToggle (toggles : List String) (ok : String → Bool → Bool) (tId tStamp : Nat)
    (date : String) (tLog : Nat) (dLog : String) (w : Page × Browser × Storage) :
    Page × Browser × Storage :=
  toggles.foldl (fun w id => toggleExtension id ok tLog dLog w)
    (w.1, w.2.1, createSnapshot w.1.allExtensions tId tStamp date tLog dLog w.2.2)

/-- The round trip on the v1 page, where a snapshot is identified by its `id`. -/
def roundTrip (toggles : List String) (ok : String → Bool → Bool) (tId tStamp : Nat)
    (date : String) (tLog : Nat) (dLog : String) (w : Page × Browser × Storage) :
    (Page × Browser × Storage) × List (String × Bool) :=
  restoreSnapshot tId true ok tLog dLog (snapshotThenToggle toggles ok tId tStamp date tLog dLog w)

end OptionsV1

/-- A browser matching `demoPageV1`. -/
def demoBrowserV1 : Browser :=
  { items :=
      [{ id := "x", name := "X", version := "1.0", enabled := true, mayDisable := some true,
         type := "extension" },
       { id := "y", name := "Y", version := "2.0", enabled := false, mayDisable := some true,
         type := "extension" },
       { id := "z", name := "Z", version := "3.0", enabled := true, mayDisable := some false,
         type := "extension" }],
    selfId := "mgr" }

/-- `demoBrowser` after "x" was disabled without the page being reloaded. -/
def staleBrowser : Browser := demoBrowser.setEnabled "x" false

/-- `demoBrowserV1` after "x" was disabled without the page being reloaded. -/
def staleBrowserV1 : Browser := demoBrowserV1.setEnabled "x" false

/-- A stored snapshot with id 200 in which only "x" is enabled. -/
def xSnapshot : Snapshot :=
  { id := some 200, timestamp := 200, date := "d",
    extensions := [{ id := "x", name := "X", version := "1.0", enabled := true,
                     group := some "other", deviceGroup := some "all_devices" }],
    count := 1, type := some "manual", deviceFilter := some "all_devices" }

/-- A storage holding `xSnapshot`. -/
def xStorage : Storage := { Storage.empty with snapshots := some [xSnapshot] }

/-- A storage whose theme is the empty string. -/
def emptyThemeStorage : Storage := { Storage.empty with theme := some "" }

/-- A settings file of the v1.0 format, as `exportData` of `src/options.js` writes it. -/
def v1File : Storage :=
  { Storage.empty with
    extensionGroups := some [("y", "dev")], extensionDescriptions := some [],
    theme := some "light", autoSnapshot := some false, exportDate := some "2024-01-01" }

/-! ## Lemmas on objects -/

theorem Dict.delete_cons {κ α : Type} [DecidableEq κ] (a : κ) (w : α) (rest : Dict κ α)
    (k : κ) :
    Dict.delete ((a, w) :: rest) k =
      if a = k then Dict.delete rest k else (a, w) :: Dict.delete rest k := by
  by_cases h : a = k <;> simp [Dict.delete, List.filter, h]

theorem Dict.modify_cons {κ α : Type} [DecidableEq κ] (a : κ) (w : α) (rest : Dict κ α)
    (k : κ) (f : α → α) :
    Dict.modify ((a, w) :: rest) k f =
      (if a = k then (a, f w) else (a, w)) :: Dict.modify rest k f := by
  simp [Dict.modify]

theorem Dict.get?_set {κ α : Type} [DecidableEq κ] (d : Dict κ α) (k k' : κ) (v : α) :
    Dict.get? (Dict.set d k v) k' = if k = k' then some v else Dict.get? d k' := by
  induction d with
  | nil => simp [Dict.set, Dict.get?]
  | cons p rest ih =>
    obtain ⟨a, w⟩ := p
    simp only [Dict.set]
    split_ifs with h1 h2 <;> simp_all [Dict.get?]

theorem Dict.get?_delete {κ α : Type} [DecidableEq κ] (d : Dict κ α) (k k' : κ) :
    Dict.get? (Dict.delete d k) k' = if k = k' then none else Dict.get? d k' := by
  induction d with
  | nil => simp [Dict.delete, Dict.get?]
  | cons p rest ih =>
    obtain ⟨a, w⟩ := p
    rw [Dict.delete_cons]
    split_ifs with h1 h2 <;> simp_all [Dict.get?]

theorem Dict.get?_modify {κ α : Type} [DecidableEq κ] (d : Dict κ α) (k k' : κ) (f : α → α) :
    Dict.get? (Dict.modify d k f) k' =
      if k = k' then (Dict.get? d k').map f else Dict.get? d k' := by
  induction d with
  | nil => simp [Dict.modify, Dict.get?]
  | cons p rest ih =>
    obtain ⟨a, w⟩ := p
    rw [Dict.modify_cons]
    split_ifs with h1 h2 <;> simp_all [Dict.get?]

theorem Dict.has_delete_self {κ α : Type} [DecidableEq κ] (d : Dict κ α) (k : κ) :
    Dict.has (Dict.delete d k) k = false := by
  simp [Dict.has, Dict.get?_delete]

/-! ## The uninstall listener -/

/-- The archive after the uninstall listener: one new record in front of the old ones. -/
theorem onUninstalled_archive (id : String) (now : Nat) (st : BgState) :
    (onUninstalled id now st).storage.deletedExtensions =
      some ({ id := id,
              name := strOr (((st.storage.extensionMetadata.getD []).get? id).bind
                (fun m => m.name)) "未知擴充功能",
              version := strOr (((st.storage.extensionMetadata.getD []).get? id).bind
                (fun m => m.version)) "N/A",
              deleteTime := now,
              deleteType := some (classifyUninstall st.recentUserActions id),
              functionalGroup := strOr ((st.storage.extensionGroups.getD []).get? id) "other",
              deviceGroup :=
                strOr ((st.storage.extensionDeviceGroups.getD []).get? id) "all_devices",
              description := strOr ((st.storage.extensionDescriptions.getD []).get? id) "",
              metadata :=
                { ((st.storage.extensionMetadata.getD []).get? id).getD Metadata.empty with
                  deleteTime := some now,
                  deleteType := some (classifyUninstall st.recentUserActions id),
                  isDeleted := some true } } ::
            st.storage.deletedExtensions.getD []) := rfl

/-- C1: the uninstall listener archives the id with deleteType 'manual' exactly when
`recentUserActions` holds the id when the event is handled and with 'auto' otherwise,
and afterwards the map holds no entry for the id. -/
theorem C1_uninstall_classification (id : String) (now : Nat) (st : BgState) :
    ∃ r : DeletedRecord,
      (onUninstalled id now st).storage.deletedExtensions =
        some (r :: st.storage.deletedExtensions.getD []) ∧
      r.id = id ∧
      (r.deleteType = some "manual" ↔ Dict.has st.recentUserActions (some id) = true) ∧
      (r.deleteType = some "auto" ↔ Dict.has st.recentUserActions (some id) = false) ∧
      Dict.has (onUninstalled id now st).recentUserActions (some id) = false := by
  refine ⟨_, onUninstalled_archive id now st, rfl, ?_, ?_, ?_⟩
  · cases h : Dict.has st.recentUserActions (some id) <;>
      simp [classifyUninstall, h]
  · cases h : Dict.has st.recentUserActions (some id) <;>
      simp [classifyUninstall, h]
  · exact Dict.has_delete_self st.recentUserActions (some id)

/-! ## The 30-second window and the message listener -/

/-- C2, evaluated: the timer of the first `recordUserAction` call fires at 30000 ms
and deletes the entry the second call set at 20000 ms, so the uninstall handled at
35000 ms, 15 s after the second call, is classified 'auto'. -/
theorem C2_stale_timer_classified_auto :
    35000 - 20000 < USER_ACTION_TIMEOUT ∧
    (run (staleTimerTrace.take 2) (BgState.init Storage.empty)).recentUserActions =
      [(some "x", { type := "uninstall", timestamp := 20000 })] ∧
    (fireTimers 35000
      (run (staleTimerTrace.take 2) (BgState.init Storage.empty))).recentUserActions = [] ∧
    lastDeleteType (run staleTimerTrace (BgState.init Storage.empty)).storage =
      some "auto" := by
  refine ⟨by decide, ?_, ?_, ?_⟩ <;> decide

/-- The message listener has no branch for the type 'USER_ACTION': the state is
returned as it was, no management call is made and the listener returns `undefined`. -/
theorem onMessage_userAction (id : String) (now : Nat) (st : BgState) :
    onMessage (userActionMessage id) now st = (st, [], false) := by
  simp [onMessage, userActionMessage]

/-- C3, evaluated: after the listener has processed the options page's 'USER_ACTION'
message for "abc" the map does not hold "abc", and the uninstall event that follows
is classified 'auto'. -/
theorem C3_user_action_not_recorded :
    Dict.has (onMessage (userActionMessage "abc") 1000
      (BgState.init Storage.empty)).1.recentUserActions (some "abc") = false ∧
    lastDeleteType (run [(1000, Event.message (userActionMessage "abc")),
                         (1001, Event.uninstalled "abc")]
      (BgState.init Storage.empty)).storage = some "auto" := by
  refine ⟨?_, ?_⟩ <;> decide

/-! ## The archive record, the cleanup flag and the frame of an uninstall -/

/-- C4 fails as stated: storage holds the functional group '' for "x", yet the
record archived for "x" carries 'other'. -/
theorem C4_empty_group_replaced :
    Dict.get? (emptyGroupStorage.extensionGroups.getD []) "x" = some "" ∧
    ((onUninstalled "x" 5 (BgState.init emptyGroupStorage)).storage.deletedExtensions.getD
      []).map (fun r => r.functionalGroup) = ["other"] := by
  refine ⟨?_, ?_⟩ <;> decide

/-- C4, amended: the uninstall listener leaves `deletedExtensions` equal to one new
record followed by the previous records in their order; the record carries the id,
`now` as deleteTime, the classification as deleteType, and for name, version,
functional group, device group and description the value storage held when that
value is a non-empty string, and the fallback '未知擴充功能', 'N/A', 'other',
'all_devices', '' when storage holds none or holds the empty string. -/
theorem C4_archive_record (id : String) (now : Nat) (st : BgState) :
    ∃ r : DeletedRecord,
      (onUninstalled id now st).storage.deletedExtensions =
        some (r :: st.storage.deletedExtensions.getD []) ∧
      r.id = id ∧ r.deleteTime = now ∧
      r.deleteType = some (classifyUninstall st.recentUserActions id) ∧
      r.name = (match (Dict.get? (st.storage.extensionMetadata.getD []) id).bind
                  (fun m => m.name) with
                | some v => if v = "" then "未知擴充功能" else v
                | none => "未知擴充功能") ∧
      r.version = (match (Dict.get? (st.storage.extensionMetadata.getD []) id).bind
                     (fun m => m.version) with
                   | some v => if v = "" then "N/A" else v
                   | none => "N/A") ∧
      r.functionalGroup = (match Dict.get? (st.storage.extensionGroups.getD []) id with
                           | some v => if v = "" then "other" else v
                           | none => "other") ∧
      r.deviceGroup = (match Dict.get? (st.storage.extensionDeviceGroups.getD []) id with
                       | some v => if v = "" then "all_devices" else v
                       | none => "all_devices") ∧
      r.description = (match Dict.get? (st.storage.extensionDescriptions.getD []) id with
                       | some v => v
                       | none => "") := by
  refine ⟨_, onUninstalled_archive id now st, rfl, rfl, rfl, rfl, rfl, rfl, rfl, ?_⟩
  cases h : Dict.get? (st.storage.extensionDescriptions.getD []) id with
  | none => simp [strOr]
  | some v => by_cases hv : v = "" <;> simp [strOr, hv]

/-- The metadata map after the uninstall listener. -/
theorem onUninstalled_metadata (id : String) (now : Nat) (st : BgState) (k : String) :
    Dict.get? ((onUninstalled id now st).storage.extensionMetadata.getD []) k =
      if id = k then
        some { (Dict.get? (st.storage.extensionMetadata.getD []) id).getD Metadata.empty with
               deleteTime := some now,
               deleteType := some (classifyUninstall st.recentUserActions id),
               isDeleted := some true }
      else Dict.get? (st.storage.extensionMetadata.getD []) k := by
  simp only [onUninstalled, saveDeletedExtension, Option.getD_some]
  rw [Dict.get?_modify]
  by_cases hk : id = k
  · subst hk
    cases h : Dict.get? (st.storage.extensionMetadata.getD []) id with
    | none => simp [Dict.has, h, Dict.get?_set]
    | some m => simp [Dict.has, h]
  · cases h : Dict.has (st.storage.extensionMetadata.getD []) id <;>
      simp [hk, Dict.get?_set]

/-- C5: after the uninstall listener the id is no key of extensionGroups,
extensionDescriptions and extensionDeviceGroups, the entries of every other id in
these maps are unchanged, and extensionMetadata holds an entry for the id with
isDeleted = true and the deleteTime and deleteType of the new archive record. -/
theorem C5_uninstall_frame (id : String) (now : Nat) (st : BgState) :
    Dict.has ((onUninstalled id now st).storage.extensionGroups.getD []) id = false ∧
    Dict.has ((onUninstalled id now st).storage.extensionDescriptions.getD []) id = false ∧
    Dict.has ((onUninstalled id now st).storage.extensionDeviceGroups.getD []) id = false ∧
    (∀ k : String, k ≠ id →
      Dict.get? ((onUninstalled id now st).storage.extensionGroups.getD []) k =
        Dict.get? (st.storage.extensionGroups.getD []) k ∧
      Dict.get? ((onUninstalled id now st).storage.extensionDescriptions.getD []) k =
        Dict.get? (st.storage.extensionDescriptions.getD []) k ∧
      Dict.get? ((onUninstalled id now st).storage.extensionDeviceGroups.getD []) k =
        Dict.get? (st.storage.extensionDeviceGroups.getD []) k) ∧
    ∃ (m : Metadata) (r : DeletedRecord),
      Dict.get? ((onUninstalled id now st).storage.extensionMetadata.getD []) id = some m ∧
      ((onUninstalled id now st).storage.deletedExtensions.getD []).head? = some r ∧
      m.isDeleted = some true ∧ m.deleteTime = some r.deleteTime ∧
      m.deleteType = r.deleteType := by
  refine ⟨?_, ?_, ?_, ?_, ?_⟩
  · exact Dict.has_delete_self _ id
  · exact Dict.has_delete_self _ id
  · exact Dict.has_delete_self _ id
  · intro k hk
    have hk' : ¬ id = k := fun h => hk h.symm
    simp [onUninstalled, saveDeletedExtension, Dict.get?_delete, hk']
  · have hm := onUninstalled_metadata id now st id
    rw [if_pos rfl] at hm
    rw [onUninstalled_archive, hm]
    exact ⟨_, _, rfl, rfl, rfl, rfl, rfl⟩

/-- C6: after `saveDeletedExtension` the stored flag archiveNeedsCleanup is true
exactly when the stored archive, the new record included, holds more than 100
records; that archive is one record longer than the previous one. -/
theorem C6_cleanup_flag (id deleteType : String) (extensionInfo : UninstallInfo) (now : Nat)
    (s : Storage) :
    ((saveDeletedExtension id deleteType extensionInfo now s).deletedExtensions.getD
        []).length = (s.deletedExtensions.getD []).length + 1 ∧
    ((saveDeletedExtension id deleteType extensionInfo now s).archiveNeedsCleanup = some true ↔
      100 < ((saveDeletedExtension id deleteType extensionInfo now s).deletedExtensions.getD
        []).length) ∧
    ((saveDeletedExtension id deleteType extensionInfo now s).archiveNeedsCleanup = some false ↔
      ((saveDeletedExtension id deleteType extensionInfo now s).deletedExtensions.getD
        []).length ≤ 100) := by
  simp [saveDeletedExtension]

/-! ## Install defaults -/

/-- C7 fails as stated: the id "x" has the functional group '' before the install
event and the group 'other' after it. -/
theorem C7_empty_assignment_overwritten :
    Dict.get? (emptyGroupStorage.extensionGroups.getD []) "x" = some "" ∧
    Dict.get? ((onInstalled xInfo 7 7 7 emptyGroupStorage).extensionGroups.getD []) "x" =
      some "other" ∧
    Dict.get? ((V1.onInstalled xInfo emptyGroupStorage).extensionGroups.getD []) "x" =
      some "other" := by
  refine ⟨?_, ?_, ?_⟩ <;> decide

theorem truthy_eq_false (x : Option String) : truthy x = false ↔ (x = none ∨ x = some "") := by
  cases x with
  | none => simp [truthy]
  | some v => simp [truthy]

/-- C7, amended: the install listener assigns the functional group 'other' (v1 and
v2) and the device group 'all_devices' (v2) to the id exactly when the id has no
assignment or the empty string as its assignment; a non-empty assignment of the id
and every assignment of any other id is left unchanged, and the v1 listener leaves
extensionDeviceGroups as it is. -/
theorem C7_install_defaults (info : ExtensionInfo) (tInstall tModified tHistory : Nat)
    (s : Storage) (k : String) :
    Dict.get? ((onInstalled info tInstall tModified tHistory s).extensionGroups.getD []) k =
      (if k = info.id ∧ (Dict.get? (s.extensionGroups.getD []) k = none ∨
            Dict.get? (s.extensionGroups.getD []) k = some "")
        then some "other" else Dict.get? (s.extensionGroups.getD []) k) ∧
    Dict.get? ((onInstalled info tInstall tModified tHistory s).extensionDeviceGroups.getD
        []) k =
      (if k = info.id ∧ (Dict.get? (s.extensionDeviceGroups.getD []) k = none ∨
            Dict.get? (s.extensionDeviceGroups.getD []) k = some "")
        then some "all_devices" else Dict.get? (s.extensionDeviceGroups.getD []) k) ∧
    Dict.get? ((V1.onInstalled info s).extensionGroups.getD []) k =
      (if k = info.id ∧ (Dict.get? (s.extensionGroups.getD []) k = none ∨
            Dict.get? (s.extensionGroups.getD []) k = some "")
        then some "other" else Dict.get? (s.extensionGroups.getD []) k) ∧
    (V1.onInstalled info s).extensionDeviceGroups = s.extensionDeviceGroups := by
  refine ⟨?_, ?_, ?_, ?_⟩
  · simp only [onInstalled, Option.getD_some]
    by_cases hk : k = info.id
    · subst hk
      cases ht : truthy (Dict.get? (s.extensionGroups.getD []) info.id)
      · have h := (truthy_eq_false _).1 ht
        simp [Dict.get?_set, h]
      · have h : ¬ (Dict.get? (s.extensionGroups.getD []) info.id = none ∨
            Dict.get? (s.extensionGroups.getD []) info.id = some "") := by
          intro h'
          rw [(truthy_eq_false _).2 h'] at ht
          exact Bool.noConfusion ht
        simp [h]
    · have hk' : ¬ info.id = k := fun h => hk h.symm
      cases ht : truthy (Dict.get? (s.extensionGroups.getD []) info.id) <;>
        simp [Dict.get?_set, hk, hk']
  · simp only [onInstalled, Option.getD_some]
    by_cases hk : k = info.id
    · subst hk
      cases ht : truthy (Dict.get? (s.extensionDeviceGroups.getD []) info.id)
      · have h := (truthy_eq_false _).1 ht
        simp [Dict.get?_set, h]
      · have h : ¬ (Dict.get? (s.extensionDeviceGroups.getD []) info.id = none ∨
            Dict.get? (s.extensionDeviceGroups.getD []) info.id = some "") := by
          intro h'
          rw [(truthy_eq_false _).2 h'] at ht
          exact Bool.noConfusion ht
        simp [h]
    · have hk' : ¬ info.id = k := fun h => hk h.symm
      cases ht : truthy (Dict.get? (s.extensionDeviceGroups.getD []) info.id) <;>
        simp [Dict.get?_set, hk, hk']
  · simp only [V1.onInstalled]
    by_cases hk : k = info.id
    · subst hk
      cases ht : truthy (Dict.get? (s.extensionGroups.getD []) info.id)
      · have h := (truthy_eq_false _).1 ht
        simp [Dict.get?_set, h]
      · have h : ¬ (Dict.get? (s.extensionGroups.getD []) info.id = none ∨
            Dict.get? (s.extensionGroups.getD []) info.id = some "") := by
          intro h'
          rw [(truthy_eq_false _).2 h'] at ht
          exact Bool.noConfusion ht
        simp [h]
    · have hk' : ¬ info.id = k := fun h => hk h.symm
      cases ht : truthy (Dict.get? (s.extensionGroups.getD []) info.id) <;>
        simp [Dict.get?_set, hk, hk']
  · simp only [V1.onInstalled]
    cases ht : truthy (Dict.get? (s.extensionGroups.getD []) info.id) <;> simp

/-! ## Change history and snapshots -/

theorem pushHistory_changeHistory (logEntry : LogEntry) (s : Storage) :
    (pushHistory logEntry s).changeHistory =
      some ((logEntry :: s.changeHistory.getD []).take 100) := by
  simp only [pushHistory, spliceFrom]
  split_ifs with h
  · rfl
  · rw [List.take_of_length_le (by omega)]

theorem pushHistory_length (logEntry : LogEntry) (s : Storage) :
    ((pushHistory logEntry s).changeHistory.getD []).length =
      min ((s.changeHistory.getD []).length + 1) 100 := by
  rw [pushHistory_changeHistory]
  simp only [Option.getD_some, List.length_take, List.length_cons]
  omega

theorem pushHistory_snapshots (logEntry : LogEntry) (s : Storage) :
    (pushHistory logEntry s).snapshots = s.snapshots := rfl

theorem pushSnapshot_snapshots (keep : Nat) (snapshot : Snapshot) (s : Storage) :
    (pushSnapshot keep snapshot s).snapshots =
      some ((snapshot :: s.snapshots.getD []).take keep) := by
  simp only [pushSnapshot, spliceFrom]
  split_ifs with h
  · rfl
  · rw [List.take_of_length_le (by omega)]

/-- C9: for an action that is not filtered out, each `logChange` (v1 options page,
v2 options page, popup) stores exactly the first 100 elements of the new entry
followed by the old history in its order, so the stored length is
min(old length + 1, 100). -/
theorem C9_history_cap (action : String) (undoData : Option String) (timestamp : Nat)
    (date : String) (s : Storage) :
    (isExcluded OptionsV1.excludeActions action = false →
      (OptionsV1.logChange action undoData timestamp date s).changeHistory =
        some (({ timestamp := timestamp, action := action, date := date,
                 undoData := undoData } :: s.changeHistory.getD []).take 100) ∧
      ((OptionsV1.logChange action undoData timestamp date s).changeHistory.getD []).length =
        min ((s.changeHistory.getD []).length + 1) 100) ∧
    (isExcluded OptionsV2.excludeActions action = false →
      (OptionsV2.logChange action undoData timestamp date s).changeHistory =
        some (({ timestamp := timestamp, action := action, date := date,
                 undoData := undoData } :: s.changeHistory.getD []).take 100) ∧
      ((OptionsV2.logChange action undoData timestamp date s).changeHistory.getD []).length =
        min ((s.changeHistory.getD []).length + 1) 100) ∧
    (Popup.logChange action timestamp date s).changeHistory =
      some (({ timestamp := timestamp, action := action, date := date,
               undoData := none } :: s.changeHistory.getD []).take 100) ∧
    ((Popup.logChange action timestamp date s).changeHistory.getD []).length =
      min ((s.changeHistory.getD []).length + 1) 100 := by
  refine ⟨?_, ?_, ?_, ?_⟩
  · intro h
    simp only [OptionsV1.logChange, h]
    exact ⟨pushHistory_changeHistory _ s, pushHistory_length _ s⟩
  · intro h
    simp only [OptionsV2.logChange, h]
    exact ⟨pushHistory_changeHistory _ s, pushHistory_length _ s⟩
  · exact pushHistory_changeHistory _ s
  · exact pushHistory_length _ s

/-- C9 at the action '卸載 X' and a history of one entry. -/
theorem C9_history_cap_witness :
    (OptionsV1.logChange "卸載 X" none 9 "d"
        { Storage.empty with changeHistory := some [⟨1, "a", "d", none⟩] }).changeHistory =
      some [⟨9, "卸載 X", "d", none⟩, ⟨1, "a", "d", none⟩] ∧
    (OptionsV2.logChange "卸載 X" none 9 "d"
        { Storage.empty with changeHistory := some [⟨1, "a", "d", none⟩] }).changeHistory =
      some [⟨9, "卸載 X", "d", none⟩, ⟨1, "a", "d", none⟩] :=
  ⟨((C9_history_cap "卸載 X" none 9 "d"
      { Storage.empty with changeHistory := some [⟨1, "a", "d", none⟩] }).1 (by decide)).1,
   ((C9_history_cap "卸載 X" none 9 "d"
      { Storage.empty with changeHistory := some [⟨1, "a", "d", none⟩] }).2.1 (by decide)).1⟩

theorem logChangeV1_snapshots (action : String) (undoData : Option String)
    (timestamp : Nat) (date : String) (s : Storage) :
    (OptionsV1.logChange action undoData timestamp date s).snapshots = s.snapshots := by
  simp only [OptionsV1.logChange]
  split_ifs <;> rfl

theorem logChangeV2_snapshots (action : String) (undoData : Option String)
    (timestamp : Nat) (date : String) (s : Storage) :
    (OptionsV2.logChange action undoData timestamp date s).snapshots = s.snapshots := by
  simp only [OptionsV2.logChange]
  split_ifs <;> rfl

/-- The popup's `createSnapshot` keeps 30 snapshots. -/
theorem popup_createSnapshot_snapshots (allExtensions : List ExtensionInfo) (tStamp : Nat)
    (date : String) (tLog : Nat) (dLog : String) (s : Storage) :
    (Popup.createSnapshot allExtensions tStamp date tLog dLog s).snapshots =
      some ((Popup.makeSnapshot allExtensions tStamp date :: s.snapshots.getD []).take 30) := by
  simp only [Popup.createSnapshot, Popup.logChange, pushHistory_snapshots,
    pushSnapshot_snapshots]

/-- C10: `createSnapshot` of the options page (v1 and v2) stores the new snapshot
first, followed by the previous snapshots in their order, cut to 50 elements; the
new snapshot lists exactly the enabled extensions of `allExtensions`, in their
order, and its count is their number. -/
theorem C10_snapshot_cap (allExtensions : List ExtensionInfo) (deviceFilter : Option String)
    (tId tStamp : Nat) (date : String) (tLog : Nat) (dLog : String) (s : Storage) :
    (OptionsV1.createSnapshot allExtensions tId tStamp date tLog dLog s).snapshots =
      some ((OptionsV1.makeSnapshot allExtensions tId tStamp date ::
        s.snapshots.getD []).take 50) ∧
    (OptionsV2.createSnapshot allExtensions deviceFilter tId tStamp date tLog dLog s).snapshots =
      some ((OptionsV2.makeSnapshot allExtensions deviceFilter tId tStamp date ::
        s.snapshots.getD []).take 50) ∧
    (OptionsV1.makeSnapshot allExtensions tId tStamp date).extensions.map (fun e => e.id) =
      (allExtensions.filter (fun ext => ext.enabled)).map (fun ext => ext.id) ∧
    (OptionsV2.makeSnapshot allExtensions deviceFilter tId tStamp date).extensions.map
        (fun e => e.id) =
      (allExtensions.filter (fun ext => ext.enabled)).map (fun ext => ext.id) ∧
    (∀ id : String,
      id ∈ (OptionsV2.makeSnapshot allExtensions deviceFilter tId tStamp date).extensions.map
          (fun e => e.id) ↔
        ∃ ext ∈ allExtensions, ext.enabled = true ∧ ext.id = id) ∧
    (OptionsV1.makeSnapshot allExtensions tId tStamp date).count =
      (allExtensions.filter (fun ext => ext.enabled)).length ∧
    (OptionsV2.makeSnapshot allExtensions deviceFilter tId tStamp date).count =
      (allExtensions.filter (fun ext => ext.enabled)).length := by
  refine ⟨?_, ?_, ?_, ?_, ?_, rfl, rfl⟩
  · simp only [OptionsV1.createSnapshot, logChangeV1_snapshots,
      pushSnapshot_snapshots]
  · simp only [OptionsV2.createSnapshot, logChangeV2_snapshots,
      pushSnapshot_snapshots]
  · simp [OptionsV1.makeSnapshot, List.map_map, Function.comp_def]
  · simp [OptionsV2.makeSnapshot, List.map_map, Function.comp_def]
  · intro id
    simp [OptionsV2.makeSnapshot, List.map_map, Function.comp_def, and_assoc]

/-! ## Metadata along a sequence of events -/

/-- C8 fails as stated: the last event for "x" is an install, and the metadata entry
of "x" is still marked isDeleted = true from the uninstall before it. -/
theorem C8_reinstall_keeps_deleted_mark :
    lastEventIsInstall "x" reinstallTrace = true ∧
    (Dict.get? ((run reinstallTrace (BgState.init Storage.empty)).storage.extensionMetadata.getD
      []) "x").map (fun m => m.isDeleted) = some (some true) := by
  refine ⟨?_, ?_⟩ <;> decide

theorem fireTimers_storage (now : Nat) (st : BgState) :
    (fireTimers now st).storage = st.storage := rfl

theorem onInstalled_metadata (info : ExtensionInfo) (t1 t2 t3 : Nat) (s : Storage)
    (k : String) :
    Dict.get? ((onInstalled info t1 t2 t3 s).extensionMetadata.getD []) k =
      if info.id = k ∧ Dict.get? (s.extensionMetadata.getD []) k = none then
        some { name := some info.name, version := some info.version,
               installTime := some t1, lastModified := some t2,
               groupHistory := some [{
                 functionalGroup := Dict.get? ((onInstalled info t1 t2 t3 s).extensionGroups.getD
                   []) info.id,
                 deviceGroup := Dict.get?
                   ((onInstalled info t1 t2 t3 s).extensionDeviceGroups.getD []) info.id,
                 timestamp := t3, action := "installed" }],
               source := some "installed", deleteTime := none, deleteType := none,
               isDeleted := none, rest := [] }
      else Dict.get? (s.extensionMetadata.getD []) k := by
  simp only [onInstalled, Option.getD_some]
  by_cases hk : info.id = k
  · subst hk
    cases h : Dict.get? (s.extensionMetadata.getD []) info.id with
    | none => simp [Dict.has, h, Dict.get?_set]
    | some m => simp [Dict.has, h]
  · cases h : Dict.has (s.extensionMetadata.getD []) info.id <;>
      simp [hk, Dict.get?_set]

theorem updateDeleteType_metadata (extensionId newDeleteType : Option String) (s : Storage)
    (k : String) :
    Dict.get? ((updateDeleteType extensionId newDeleteType s).extensionMetadata.getD []) k =
      if extensionId.getD "undefined" = k then
        (Dict.get? (s.extensionMetadata.getD []) k).map
          (fun m => { m with deleteType := newDeleteType })
      else Dict.get? (s.extensionMetadata.getD []) k := by
  simp only [updateDeleteType, Option.getD_some]
  exact Dict.get?_modify _ _ _ _

theorem onMessage_metadata (request : Request) (now : Nat) (st : BgState) (k : String) :
    Dict.get? ((onMessage request now st).1.storage.extensionMetadata.getD []) k =
        Dict.get? (st.storage.extensionMetadata.getD []) k ∨
    ∃ m : Metadata, Dict.get? (st.storage.extensionMetadata.getD []) k = some m ∧
      Dict.get? ((onMessage request now st).1.storage.extensionMetadata.getD []) k =
        some { m with deleteType := request.deleteType } := by
  unfold onMessage
  split_ifs with h1 h2 h3 h4
  · exact Or.inl rfl
  · exact Or.inl rfl
  · exact Or.inl rfl
  · simp only [updateDeleteType_metadata]
    split_ifs with hk
    · cases h : Dict.get? (st.storage.extensionMetadata.getD []) k with
      | none => exact Or.inl rfl
      | some m => exact Or.inr ⟨m, rfl, rfl⟩
    · exact Or.inl rfl
  · exact Or.inl rfl

/-- An entry of the metadata map is never removed by an event. -/
theorem handle_metadata_present (now : Nat) (e : Event) (st : BgState) (id : String)
    (h : Dict.has (st.storage.extensionMetadata.getD []) id = true) :
    Dict.has ((handle now e st).storage.extensionMetadata.getD []) id = true := by
  simp only [Dict.has, Option.isSome_iff_exists] at h ⊢
  obtain ⟨m, hm⟩ := h
  cases e with
  | installed info =>
    simp only [handle, onInstalled_metadata, fireTimers_storage, hm]
    simp
  | uninstalled i =>
    simp only [handle, onUninstalled_metadata, fireTimers_storage, hm]
    split_ifs <;> simp
  | message request =>
    simp only [handle]
    rcases onMessage_metadata request now (fireTimers now st) id with h | ⟨m', _, h⟩
    · rw [h, fireTimers_storage, hm]; exact ⟨m, rfl⟩
    · rw [h]; exact ⟨_, rfl⟩

/-- After an install event the metadata map holds the installed id. -/
theorem handle_installed_present (now : Nat) (info : ExtensionInfo) (st : BgState) :
    Dict.has ((handle now (Event.installed info) st).storage.extensionMetadata.getD [])
      info.id = true := by
  simp only [Dict.has, handle, onInstalled_metadata, fireTimers_storage]
  cases h : Dict.get? (st.storage.extensionMetadata.getD []) info.id <;> simp

/-- Only the uninstall event of `id` marks the entry of `id` as deleted. -/
theorem handle_notMarkedDeleted (now : Nat) (e : Event) (st : BgState) (id : String)
    (he : e ≠ Event.uninstalled id) (h : NotMarkedDeleted st.storage id) :
    NotMarkedDeleted (handle now e st).storage id := by
  intro m hm
  cases e with
  | installed info =>
    simp only [handle, onInstalled_metadata, fireTimers_storage] at hm
    split_ifs at hm with hc
    · cases hm
      simp
    · exact h m hm
  | uninstalled i =>
    have hi : ¬ i = id := fun hi => he (by rw [hi])
    simp only [handle, onUninstalled_metadata, fireTimers_storage, hi, if_false] at hm
    exact h m hm
  | message request =>
    simp only [handle] at hm
    rcases onMessage_metadata request now (fireTimers now st) id with h' | ⟨m', hm', h'⟩
    · rw [h', fireTimers_storage] at hm
      exact h m hm
    · rw [h'] at hm
      cases hm
      exact h m' hm'

theorem run_append_one (events : List (Nat × Event)) (te : Nat × Event) (st : BgState) :
    run (events ++ [te]) st = handle te.1 te.2 (run events st) := by
  simp [run, List.foldl_append]

theorem lastEventIsInstall_append_one (id : String) (events : List (Nat × Event))
    (te : Nat × Event) :
    lastEventIsInstall id (events ++ [te]) =
      (match te.2 with
       | Event.installed info => if info.id = id then true else lastEventIsInstall id events
       | Event.uninstalled i => if i = id then false else lastEventIsInstall id events
       | Event.message _ => lastEventIsInstall id events) := by
  simp [lastEventIsInstall, List.foldl_append]

theorem run_metadata_present (id : String) (events : List (Nat × Event)) (st : BgState)
    (hlast : lastEventIsInstall id events = true) :
    Dict.has ((run events st).storage.extensionMetadata.getD []) id = true := by
  induction events using List.reverseRecOn with
  | nil => simp [lastEventIsInstall] at hlast
  | append_singleton events te ih =>
    rw [run_append_one]
    rw [lastEventIsInstall_append_one] at hlast
    obtain ⟨t, e⟩ := te
    cases e with
    | installed info =>
      simp only at hlast
      by_cases hid : info.id = id
      · subst hid
        exact handle_installed_present _ _ _
      · simp only [hid, if_false] at hlast
        exact handle_metadata_present _ _ _ _ (ih hlast)
    | uninstalled i =>
      simp only at hlast
      by_cases hid : i = id
      · simp [hid] at hlast
      · simp only [hid, if_false] at hlast
        exact handle_metadata_present _ _ _ _ (ih hlast)
    | message request =>
      simp only at hlast
      exact handle_metadata_present _ _ _ _ (ih hlast)

theorem run_notMarkedDeleted (id : String) (events : List (Nat × Event)) (st : BgState)
    (hno : ∀ te ∈ events, te.2 ≠ Event.uninstalled id)
    (h0 : NotMarkedDeleted st.storage id) :
    NotMarkedDeleted (run events st).storage id := by
  induction events using List.reverseRecOn with
  | nil => exact h0
  | append_singleton events te ih =>
    rw [run_append_one]
    apply handle_notMarkedDeleted
    · exact hno te (by simp)
    · exact ih (fun te' hte' => hno te' (by simp [hte']))

/-- C8, amended: for every sequence of events handled by the v2 background service,
whenever the last install or uninstall event for an id is an install,
extensionMetadata has an entry for that id; the entry is not marked isDeleted = true
when, in addition, the sequence holds no uninstall event for that id and the entry
was not marked so at the start. -/
theorem C8_metadata_after_install (id : String) (events : List (Nat × Event)) (st : BgState)
    (hlast : lastEventIsInstall id events = true) :
    (∃ m : Metadata,
      Dict.get? ((run events st).storage.extensionMetadata.getD []) id = some m) ∧
    ((∀ te ∈ events, te.2 ≠ Event.uninstalled id) → NotMarkedDeleted st.storage id →
      NotMarkedDeleted (run events st).storage id) := by
  refine ⟨?_, fun hno h0 => run_notMarkedDeleted id events st hno h0⟩
  have h := run_metadata_present id events st hlast
  simpa [Dict.has, Option.isSome_iff_exists] using h

/-- C8 (amended) at the single install of "x" on a fresh storage. -/
theorem C8_metadata_after_install_witness :
    lastEventIsInstall "x" [(1, Event.installed xInfo)] = true ∧
    (∃ m : Metadata,
      Dict.get? ((run [(1, Event.installed xInfo)]
        (BgState.init Storage.empty)).storage.extensionMetadata.getD []) "x" = some m) ∧
    NotMarkedDeleted (run [(1, Event.installed xInfo)]
      (BgState.init Storage.empty)).storage "x" :=
  ⟨by decide,
   (C8_metadata_after_install "x" [(1, Event.installed xInfo)] (BgState.init Storage.empty)
      (by decide)).1,
   (C8_metadata_after_install "x" [(1, Event.installed xInfo)] (BgState.init Storage.empty)
      (by decide)).2 (by decide) (by intro m hm; simp [BgState.init, Storage.empty, Dict.get?] at hm)⟩

/-! ## The window when no earlier timer is pending -/

theorem foldl_delete_get? (ts : List (Nat × Option String))
    (m : Dict (Option String) UserAction) (k : Option String)
    (h : ∀ t ∈ ts, t.2 ≠ k) :
    Dict.get? (ts.foldl (fun m t => Dict.delete m t.2) m) k = Dict.get? m k := by
  induction ts generalizing m with
  | nil => rfl
  | cons t rest ih =>
    have ht : ¬ t.2 = k := h t (by simp)
    rw [List.foldl_cons, ih _ (fun t' ht' => h t' (by simp [ht'])), Dict.get?_delete]
    simp [ht]

theorem lastDeleteType_onUninstalled (id : String) (now : Nat) (st : BgState) :
    lastDeleteType (onUninstalled id now st).storage =
      some (classifyUninstall st.recentUserActions id) := by
  simp [lastDeleteType, onUninstalled_archive]

/-- With no timer of an earlier call pending for the id, an uninstall event handled
less than `USER_ACTION_TIMEOUT` ms after the recording message is classified
'manual'. -/
theorem window_without_pending_timer (id : String) (t t' : Nat) (st : BgState)
    (hfresh : ∀ tm ∈ st.timers, tm.2 ≠ some id) (hlt : t' < t + USER_ACTION_TIMEOUT) :
    lastDeleteType (handle t' (Event.uninstalled id)
      (handle t (Event.message (uninstallRequest id)) st)).storage = some "manual" := by
  simp only [handle, lastDeleteType_onUninstalled, classifyUninstall]
  have hget : Dict.get? (fireTimers t' (onMessage (uninstallRequest id) t
      (fireTimers t st)).1).recentUserActions (some id) =
      some { type := "uninstall", timestamp := t } := by
    simp only [fireTimers, onMessage, uninstallRequest, recordUserAction]
    simp only [show ("UNINSTALL_EXTENSION" = "GET_EXTENSIONS") = False from by decide,
      show ("UNINSTALL_EXTENSION" = "TOGGLE_EXTENSION") = False from by decide, if_false,
      if_true]
    rw [foldl_delete_get?]
    · simp [Dict.get?_set]
    · intro tm htm
      simp only [List.filter_append, List.mem_append, List.mem_filter, List.mem_singleton,
        decide_eq_true_eq] at htm
      rcases htm with ⟨⟨hmem, _⟩, _⟩ | ⟨hmem, hdue⟩
      · exact hfresh tm hmem
      · subst hmem
        simp only at hdue
        omega
  simp [Dict.has, hget]

/-! ## Frame of `logChange` -/

theorem logChangeV2_extensionGroups (a : String) (u : Option String) (t : Nat) (d : String)
    (s : Storage) : (OptionsV2.logChange a u t d s).extensionGroups = s.extensionGroups := by
  simp only [OptionsV2.logChange]; split_ifs <;> rfl

theorem logChangeV2_extensionDeviceGroups (a : String) (u : Option String) (t : Nat)
    (d : String) (s : Storage) :
    (OptionsV2.logChange a u t d s).extensionDeviceGroups = s.extensionDeviceGroups := by
  simp only [OptionsV2.logChange]; split_ifs <;> rfl

theorem logChangeV2_customGroupNames (a : String) (u : Option String) (t : Nat) (d : String)
    (s : Storage) : (OptionsV2.logChange a u t d s).customGroupNames = s.customGroupNames := by
  simp only [OptionsV2.logChange]; split_ifs <;> rfl

theorem logChangeV2_deviceGroupNames (a : String) (u : Option String) (t : Nat) (d : String)
    (s : Storage) : (OptionsV2.logChange a u t d s).deviceGroupNames = s.deviceGroupNames := by
  simp only [OptionsV2.logChange]; split_ifs <;> rfl

theorem logChangeV1_extensionGroups (a : String) (u : Option String) (t : Nat) (d : String)
    (s : Storage) : (OptionsV1.logChange a u t d s).extensionGroups = s.extensionGroups := by
  simp only [OptionsV1.logChange]; split_ifs <;> rfl

theorem logChangeV1_extensionDescriptions (a : String) (u : Option String) (t : Nat)
    (d : String) (s : Storage) :
    (OptionsV1.logChange a u t d s).extensionDescriptions = s.extensionDescriptions := by
  simp only [OptionsV1.logChange]; split_ifs <;> rfl

/-! ## Cleaning the archive -/

/-- C15: a confirmed `cleanOldRecords` keeps exactly the records of the page's archive
whose deleteTime is greater than now − 90·24·60·60·1000 ms, in their previous order,
stores that list, and reports the difference of the lengths as the number removed. -/
theorem C15_clean_old_records (now : Nat) (p : OptionsV2.Page) (s : Storage) :
    (OptionsV2.cleanOldRecords true now p s).1.deletedExtensions =
      p.deletedExtensions.filter
        (fun d => decide ((now : Int) - 90 * 24 * 60 * 60 * 1000 < (d.deleteTime : Int))) ∧
    (OptionsV2.cleanOldRecords true now p s).2.1.deletedExtensions =
      some (OptionsV2.cleanOldRecords true now p s).1.deletedExtensions ∧
    (∀ d : DeletedRecord, d ∈ (OptionsV2.cleanOldRecords true now p s).1.deletedExtensions ↔
      d ∈ p.deletedExtensions ∧ (now : Int) - 90 * 24 * 60 * 60 * 1000 < (d.deleteTime : Int)) ∧
    List.Sublist (OptionsV2.cleanOldRecords true now p s).1.deletedExtensions
      p.deletedExtensions ∧
    (OptionsV2.cleanOldRecords true now p s).2.2 =
      some (p.deletedExtensions.length -
        (OptionsV2.cleanOldRecords true now p s).1.deletedExtensions.length) := by
  have hf : (OptionsV2.cleanOldRecords true now p s).1.deletedExtensions =
      p.deletedExtensions.filter
        (fun d => decide ((now : Int) - 90 * 24 * 60 * 60 * 1000 < (d.deleteTime : Int))) := by
    simp [OptionsV2.cleanOldRecords, OptionsV2.ninetyDays]
  refine ⟨hf, ?_, ?_, ?_, ?_⟩
  · simp [OptionsV2.cleanOldRecords]
  · intro d
    rw [hf]
    simp [List.mem_filter]
  · rw [hf]
    exact List.filter_sublist _
  · simp [OptionsV2.cleanOldRecords]

/-! ## Description length (v1 options page) -/

theorem length_shortened (t : JsText) (h : 50 < t.length) :
    (t.take 47 ++ utf16 "...").length = 50 := by
  have h3 : (utf16 "...").length = 3 := by decide
  rw [List.length_append, List.length_take, h3]
  omega

/-- The cut counts UTF-16 code units: 26 characters outside the Basic Multilingual
Plane are 52 code units, so they are cut to 47 units, the last one half of a pair,
followed by '...'. -/
theorem saveDescription_astral :
    (utf16 (String.mk (List.replicate 26 (Char.ofNat 0x1F6E1)))).length = 52 ∧
    (Dict.get? (OptionsV1.saveDescription [yInfo] [] "y"
        (utf16 (String.mk (List.replicate 26 (Char.ofNat 0x1F6E1))))).extensionDescriptions
      "y").map (fun t => (t.length, t.drop 46)) = some (50, [0xD83D, 46, 46, 46]) := by
  refine ⟨?_, ?_⟩ <;> decide

/-- C16: `saveDescription` of the v1 options page leaves extensionDescriptions
unchanged and writes nothing when the trimmed text is empty or the placeholder;
otherwise, for an extension of `allExtensions`, it stores the trimmed text when that
has at most 50 characters (UTF-16 code units, what `length` counts) and its first 47
characters followed by '...' when it has more, so the stored description has at most
50 characters. -/
theorem C16_description_limit (allExtensions : List ExtensionInfo)
    (extensionDescriptions : Dict String JsText) (id : String) (text : JsText) :
    ((trimUnits text = [] ∨ trimUnits text = utf16 "點擊添加描述...") →
      (OptionsV1.saveDescription allExtensions extensionDescriptions id
        text).extensionDescriptions = extensionDescriptions ∧
      (OptionsV1.saveDescription allExtensions extensionDescriptions id text).stored =
        none) ∧
    ((allExtensions.find? (fun e => decide (e.id = id))).isSome = true →
      trimUnits text ≠ [] → trimUnits text ≠ utf16 "點擊添加描述..." →
      Dict.get? (OptionsV1.saveDescription allExtensions extensionDescriptions id
          text).extensionDescriptions id =
        some (if 50 < (trimUnits text).length then (trimUnits text).take 47 ++ utf16 "..."
              else trimUnits text) ∧
      (OptionsV1.saveDescription allExtensions extensionDescriptions id text).stored =
        some (OptionsV1.saveDescription allExtensions extensionDescriptions id
          text).extensionDescriptions ∧
      (if 50 < (trimUnits text).length then (trimUnits text).take 47 ++ utf16 "..."
       else trimUnits text).length ≤ 50) := by
  refine ⟨?_, ?_⟩
  · intro h
    simp only [OptionsV1.saveDescription, OptionsV1.descriptionPlaceholder]
    cases allExtensions.find? (fun e => decide (e.id = id)) with
    | none => exact ⟨rfl, rfl⟩
    | some ext =>
      simp only [h, if_true]
      exact ⟨trivial, trivial⟩
  · intro hfound h1 h2
    obtain ⟨ext, hext⟩ := Option.isSome_iff_exists.1 hfound
    have hcond : ¬ (trimUnits text = [] ∨ trimUnits text = utf16 "點擊添加描述...") := by
      rintro (h | h)
      · exact h1 h
      · exact h2 h
    simp only [OptionsV1.saveDescription, OptionsV1.descriptionPlaceholder, hext, hcond,
      if_false, Dict.get?_set, if_true, gt_iff_lt]
    refine ⟨trivial, trivial, ?_⟩
    split_ifs with hlen
    · exact le_of_eq (length_shortened _ hlen)
    · exact Nat.le_of_not_lt hlen

/-- C16 at a text of 60 characters between blanks, for the extension "y". -/
theorem C16_description_limit_witness :
    Dict.get? (OptionsV1.saveDescription [yInfo] [] "y"
        (utf16 "  123456789012345678901234567890123456789012345678901234567890 ")
      ).extensionDescriptions "y" =
      some (utf16 "12345678901234567890123456789012345678901234567...") :=
  ((C16_description_limit [yInfo] [] "y"
      (utf16 "  123456789012345678901234567890123456789012345678901234567890 ")).2
      (by decide) (by decide) (by decide)).1.trans (by decide)

/-! ## Deleting groups -/

theorem get?_assignAll (d : Dict String String) (exts : List ExtensionInfo) (v k : String) :
    Dict.get? (assignAll d exts v) k =
      if k ∈ exts.map (fun ext => ext.id) then some v else Dict.get? d k := by
  unfold assignAll
  induction exts generalizing d with
  | nil => simp
  | cons e rest ih =>
    rw [List.foldl_cons, ih, Dict.get?_set]
    by_cases h1 : k ∈ rest.map (fun ext => ext.id)
    · simp [h1]
    · by_cases h2 : e.id = k
      · simp [h2]
      · have h3 : ¬ k = e.id := fun h => h2 h.symm
        simp [h1, h2, h3]

theorem map_eq_self_of_filter_nil {α : Type} (l : List α) (c : α → Bool) (f : α → α)
    (h : l.filter c = []) : l.map (fun a => if c a = true then f a else a) = l := by
  induction l with
  | nil => rfl
  | cons a rest ih =>
    by_cases hc : c a = true
    · simp [List.filter, hc] at h
    · have hr : rest.filter c = [] := by simpa [List.filter, hc] using h
      simp [hc, ih hr]

theorem deleteGroupV2_post (groupId : String) (tLog : Nat) (dLog : String)
    (p : OptionsV2.Page) (s : Storage) (h1 : groupId ≠ "all")
    (h2 : startsWith groupId "custom_" = true) :
    GroupDeleted groupId p.allExtensions
      (OptionsV2.deleteGroup groupId true tLog dLog p s).1.allExtensions
      (OptionsV2.deleteGroup groupId true tLog dLog p s).1.groupNames
      p.extensionGroups
      (OptionsV2.deleteGroup groupId true tLog dLog p s).1.extensionGroups := by
  have hg : ¬ (groupId = "all" ∨ startsWith groupId "custom_" = false) := by
    rintro (h | h)
    · exact h1 h
    · rw [h2] at h; exact Bool.noConfusion h
  simp only [OptionsV2.deleteGroup, hg, if_false, Bool.true_eq_false, and_false, GroupDeleted]
  by_cases hlen : (p.allExtensions.filter
      (fun ext => decide (ext.group = some groupId))).length > 0
  · simp only [hlen, if_true]
    refine ⟨Dict.has_delete_self _ _, trivial, fun k => get?_assignAll _ _ _ _⟩
  · simp only [hlen, if_false]
    have hnil : p.allExtensions.filter (fun ext => decide (ext.group = some groupId)) = [] :=
      List.length_eq_zero.1 (Nat.eq_zero_of_not_pos hlen)
    refine ⟨Dict.has_delete_self _ _, ?_, fun k => ?_⟩
    · have := map_eq_self_of_filter_nil p.allExtensions
        (fun ext => decide (ext.group = some groupId))
        (fun ext => { ext with group := some "other" }) hnil
      simpa using this.symm
    · simp [hnil]

theorem deleteGroupV1_post (groupId : String) (tLog : Nat) (dLog : String)
    (p : OptionsV1.Page) (s : Storage) (h1 : groupId ≠ "all")
    (h2 : startsWith groupId "custom_" = true) :
    GroupDeleted groupId p.allExtensions
      (OptionsV1.deleteGroup groupId true tLog dLog p s).1.allExtensions
      (OptionsV1.deleteGroup groupId true tLog dLog p s).1.groupNames
      p.extensionGroups
      (OptionsV1.deleteGroup groupId true tLog dLog p s).1.extensionGroups := by
  have hg : ¬ (groupId = "all" ∨ startsWith groupId "custom_" = false) := by
    rintro (h | h)
    · exact h1 h
    · rw [h2] at h; exact Bool.noConfusion h
  simp only [OptionsV1.deleteGroup, hg, if_false, Bool.true_eq_false, and_false, GroupDeleted]
  by_cases hlen : (p.allExtensions.filter
      (fun ext => decide (ext.group = some groupId))).length > 0
  · simp only [hlen, if_true]
    refine ⟨Dict.has_delete_self _ _, trivial, fun k => get?_assignAll _ _ _ _⟩
  · simp only [hlen, if_false]
    have hnil : p.allExtensions.filter (fun ext => decide (ext.group = some groupId)) = [] :=
      List.length_eq_zero.1 (Nat.eq_zero_of_not_pos hlen)
    refine ⟨Dict.has_delete_self _ _, ?_, fun k => ?_⟩
    · have := map_eq_self_of_filter_nil p.allExtensions
        (fun ext => decide (ext.group = some groupId))
        (fun ext => { ext with group := some "other" }) hnil
      simpa using this.symm
    · simp [hnil]

/-- C17: for a group id that is 'all' or does not start with 'custom_', `deleteGroup`
(v1 and v2) leaves the page variables and storage as they are; for a custom group id
a confirmed `deleteGroup` removes the id from groupNames, puts every extension of
allExtensions that was in the group into 'other', in allExtensions and in
extensionGroups, and changes the group of no other extension. -/
theorem C17_delete_group (groupId : String) (tLog : Nat) (dLog : String)
    (p2 : OptionsV2.Page) (p1 : OptionsV1.Page) (s : Storage) :
    ((groupId = "all" ∨ startsWith groupId "custom_" = false) →
      ∀ answer : Bool,
        OptionsV2.deleteGroup groupId answer tLog dLog p2 s = (p2, s) ∧
        OptionsV1.deleteGroup groupId answer tLog dLog p1 s = (p1, s)) ∧
    (groupId ≠ "all" → startsWith groupId "custom_" = true →
      GroupDeleted groupId p2.allExtensions
        (OptionsV2.deleteGroup groupId true tLog dLog p2 s).1.allExtensions
        (OptionsV2.deleteGroup groupId true tLog dLog p2 s).1.groupNames
        p2.extensionGroups
        (OptionsV2.deleteGroup groupId true tLog dLog p2 s).1.extensionGroups ∧
      GroupDeleted groupId p1.allExtensions
        (OptionsV1.deleteGroup groupId true tLog dLog p1 s).1.allExtensions
        (OptionsV1.deleteGroup groupId true tLog dLog p1 s).1.groupNames
        p1.extensionGroups
        (OptionsV1.deleteGroup groupId true tLog dLog p1 s).1.extensionGroups) := by
  refine ⟨?_, ?_⟩
  · intro h answer
    simp only [OptionsV2.deleteGroup, OptionsV1.deleteGroup, h, if_true, and_self]
  · intro h1 h2
    exact ⟨deleteGroupV2_post groupId tLog dLog p2 s h1 h2,
      deleteGroupV1_post groupId tLog dLog p1 s h1 h2⟩

/-- C17 at the group 'custom_1' holding "y": afterwards "y" is in 'other'. -/
theorem C17_delete_group_witness :
    Dict.get? (OptionsV2.deleteGroup "custom_1" true 1 "d" customPage
      Storage.empty).1.extensionGroups "y" = some "other" ∧
    Dict.get? (OptionsV1.deleteGroup "custom_1" true 1 "d" customPageV1
      Storage.empty).1.extensionGroups "y" = some "other" :=
  ⟨(((C17_delete_group "custom_1" 1 "d" customPage customPageV1 Storage.empty).2
      (by decide) (by decide)).1.2.2 "y").trans (by decide),
   (((C17_delete_group "custom_1" 1 "d" customPage customPageV1 Storage.empty).2
      (by decide) (by decide)).2.2.2 "y").trans (by decide)⟩

theorem deleteDeviceGroup_post (groupId : String) (tLog : Nat) (dLog : String)
    (p : OptionsV2.Page) (s : Storage) (h1 : groupId ≠ "all_devices") :
    DeviceGroupDeleted groupId p.allExtensions
      (OptionsV2.deleteDeviceGroup groupId true true tLog dLog p s).1.allExtensions
      (OptionsV2.deleteDeviceGroup groupId true true tLog dLog p s).1.deviceGroupNames
      p.extensionDeviceGroups
      (OptionsV2.deleteDeviceGroup groupId true true tLog dLog p s).1.extensionDeviceGroups := by
  simp only [OptionsV2.deleteDeviceGroup, h1, if_false, Bool.true_eq_false, and_false,
    DeviceGroupDeleted]
  by_cases hlen : (p.allExtensions.filter
      (fun ext => decide (ext.deviceGroup = some groupId))).length > 0
  · simp only [hlen, if_true]
    refine ⟨Dict.has_delete_self _ _, trivial, fun k => get?_assignAll _ _ _ _⟩
  · simp only [hlen, if_false]
    have hnil : p.allExtensions.filter
        (fun ext => decide (ext.deviceGroup = some groupId)) = [] :=
      List.length_eq_zero.1 (Nat.eq_zero_of_not_pos hlen)
    refine ⟨Dict.has_delete_self _ _, ?_, fun k => ?_⟩
    · have := map_eq_self_of_filter_nil p.allExtensions
        (fun ext => decide (ext.deviceGroup = some groupId))
        (fun ext => { ext with deviceGroup := some "all_devices" }) hnil
      simpa using this.symm
    · simp [hnil]

theorem deleteDeviceGroup_names (groupId : String) (tLog : Nat) (dLog : String)
    (p : OptionsV2.Page) (s : Storage) (h1 : groupId ≠ "all_devices") :
    (OptionsV2.deleteDeviceGroup groupId true true tLog dLog p s).1.deviceGroupNames =
      Dict.delete p.deviceGroupNames groupId ∧
    (OptionsV2.deleteDeviceGroup groupId true true tLog dLog p s).2.deviceGroupNames =
      some (Dict.delete p.deviceGroupNames groupId) ∧
    (OptionsV2.deleteDeviceGroup groupId true true tLog dLog p s).1.currentFilters.deviceGroup =
      if p.currentFilters.deviceGroup = groupId then "all_devices"
      else p.currentFilters.deviceGroup := by
  simp only [OptionsV2.deleteDeviceGroup, h1, if_false, Bool.true_eq_false, and_false,
    logChangeV2_deviceGroupNames]
  by_cases hlen : (p.allExtensions.filter
      (fun ext => decide (ext.deviceGroup = some groupId))).length > 0
  · simp only [hlen, if_true]
    refine ⟨trivial, trivial, ?_⟩
    split_ifs <;> rfl
  · simp only [hlen, if_false]
    refine ⟨trivial, trivial, ?_⟩
    split_ifs <;> rfl

/-- C18: `deleteDeviceGroup('all_devices')` changes nothing; for every other group id
a doubly confirmed `deleteDeviceGroup` removes the id from deviceGroupNames (page and
storage), puts every extension of allExtensions that was in the group into
'all_devices', in allExtensions and in extensionDeviceGroups, changes no other
extension, resets the device filter to 'all_devices' when it was the deleted group,
and keeps 'all_devices' a key of deviceGroupNames. -/
theorem C18_delete_device_group (groupId : String) (tLog : Nat) (dLog : String)
    (p : OptionsV2.Page) (s : Storage) :
    (∀ a b : Bool, OptionsV2.deleteDeviceGroup "all_devices" a b tLog dLog p s = (p, s)) ∧
    (groupId ≠ "all_devices" →
      DeviceGroupDeleted groupId p.allExtensions
        (OptionsV2.deleteDeviceGroup groupId true true tLog dLog p s).1.allExtensions
        (OptionsV2.deleteDeviceGroup groupId true true tLog dLog p s).1.deviceGroupNames
        p.extensionDeviceGroups
        (OptionsV2.deleteDeviceGroup groupId true true tLog dLog p s).1.extensionDeviceGroups ∧
      (OptionsV2.deleteDeviceGroup groupId true true tLog dLog p s).2.deviceGroupNames =
        some (OptionsV2.deleteDeviceGroup groupId true true tLog dLog p s).1.deviceGroupNames ∧
      (p.currentFilters.deviceGroup = groupId →
        (OptionsV2.deleteDeviceGroup groupId true true tLog dLog p
          s).1.currentFilters.deviceGroup = "all_devices") ∧
      (p.currentFilters.deviceGroup ≠ groupId →
        (OptionsV2.deleteDeviceGroup groupId true true tLog dLog p
          s).1.currentFilters.deviceGroup = p.currentFilters.deviceGroup) ∧
      (Dict.has p.deviceGroupNames "all_devices" = true →
        Dict.has (OptionsV2.deleteDeviceGroup groupId true true tLog dLog p
          s).1.deviceGroupNames "all_devices" = true)) := by
  refine ⟨?_, ?_⟩
  · intro a b
    simp only [OptionsV2.deleteDeviceGroup, if_true]
  · intro h1
    obtain ⟨hn, hs, hf⟩ := deleteDeviceGroup_names groupId tLog dLog p s h1
    refine ⟨deleteDeviceGroup_post groupId tLog dLog p s h1, ?_, ?_, ?_, ?_⟩
    · rw [hs, hn]
    · intro hc
      rw [hf, if_pos hc]
    · intro hc
      rw [hf, if_neg hc]
    · intro hk
      rw [hn]
      simp only [Dict.has, Dict.get?_delete, h1, if_false] at hk ⊢
      exact hk

/-- C18 at the device group 'device_1' holding "y", the current device filter. -/
theorem C18_delete_device_group_witness :
    Dict.get? (OptionsV2.deleteDeviceGroup "device_1" true true 1 "d" customPage
      Storage.empty).1.extensionDeviceGroups "y" = some "all_devices" ∧
    (OptionsV2.deleteDeviceGroup "device_1" true true 1 "d" customPage
      Storage.empty).1.currentFilters.deviceGroup = "all_devices" ∧
    Dict.has (OptionsV2.deleteDeviceGroup "device_1" true true 1 "d" customPage
      Storage.empty).1.deviceGroupNames "all_devices" = true :=
  ⟨(((C18_delete_device_group "device_1" 1 "d" customPage Storage.empty).2
      (by decide)).1.2.2 "y").trans (by decide),
   ((C18_delete_device_group "device_1" 1 "d" customPage Storage.empty).2
      (by decide)).2.2.1 (by decide),
   ((C18_delete_device_group "device_1" 1 "d" customPage Storage.empty).2
      (by decide)).2.2.2.2 (by decide)⟩

/-! ## Renaming groups -/

/-- The declared `editDeviceGroupName` changes nothing for an id without the prefix
'device_'. -/
theorem editDeviceGroupName_guard (groupId : String) (answer : Option String) (tLog : Nat)
    (dLog : String) (p : OptionsV2.Page) (s : Storage)
    (h : startsWith groupId "device_" = false) :
    OptionsV2.editDeviceGroupName groupId answer tLog dLog p s = (p, s) := by
  simp only [OptionsV2.editDeviceGroupName, h, if_true]

/-- C19, evaluated: 'desktop_main' does not start with 'device_', the declared
function leaves it alone, and the function assigned to `window.editDeviceGroupName`
renames it to 'Work PC' in deviceGroupNames and in storage. -/
theorem C19_builtin_device_group_renamed :
    startsWith "desktop_main" "device_" = false ∧
    OptionsV2.editDeviceGroupName "desktop_main" (some "Work PC") 1 "d" loadedPage
      Storage.empty = (loadedPage, Storage.empty) ∧
    Dict.get? loadedPage.deviceGroupNames "desktop_main" = some "🖥️ 主力機" ∧
    Dict.get? (OptionsV2.windowEditDeviceGroupName "desktop_main" (some "Work PC") 1 "d"
      loadedPage Storage.empty).1.deviceGroupNames "desktop_main" = some "Work PC" ∧
    (OptionsV2.windowEditDeviceGroupName "desktop_main" (some "Work PC") 1 "d"
      loadedPage Storage.empty).2.deviceGroupNames =
      some [("all_devices", "🌐 所有設備"), ("desktop_main", "Work PC"),
            ("laptop_portable", "💻 外出筆電")] := by
  refine ⟨?_, ?_, ?_, ?_, ?_⟩ <;> decide

/-- The v1 `editGroupName` stores the new name of a built-in group, and the v1
`loadStorageData` reads it back. -/
theorem editGroupNameV1_builtin_stored :
    (OptionsV1.editGroupName "adblocker" (some " Ads ") 1 "d" OptionsV1.Page.initial
      Storage.empty).2.customGroupNames = some [("adblocker", "Ads")] ∧
    Dict.get? (OptionsV1.loadStorageData OptionsV1.Page.initial
      (OptionsV1.editGroupName "adblocker" (some " Ads ") 1 "d" OptionsV1.Page.initial
        Storage.empty).2).groupNames "adblocker" = some "Ads" := by
  refine ⟨?_, ?_⟩ <;> decide

/-- C20, evaluated: renaming the built-in group 'adblocker' to 'Ads' changes
groupNames on the page but stores an empty customGroupNames, so `loadStorageData`
from the default groupNames yields the default name again. -/
theorem C20_builtin_rename_not_stored :
    Dict.get? (OptionsV2.editGroupName "adblocker" (some " Ads ") 1 "d" loadedPage
      Storage.empty).1.groupNames "adblocker" = some "Ads" ∧
    (OptionsV2.editGroupName "adblocker" (some " Ads ") 1 "d" loadedPage
      Storage.empty).2.customGroupNames = some [] ∧
    Dict.get? (OptionsV2.loadStorageData OptionsV2.Page.initial
      (OptionsV2.editGroupName "adblocker" (some " Ads ") 1 "d" loadedPage
        Storage.empty).2).groupNames "adblocker" = some "🛡️ 廣告封鎖與隱私" := by
  refine ⟨?_, ?_, ?_⟩ <;> decide

/-! ## Export and import of settings -/

theorem logChangeV2_frame (a : String) (u : Option String) (t : Nat) (d : String)
    (s : Storage) :
    OptionsV2.logChange a u t d s =
      { s with changeHistory := (OptionsV2.logChange a u t d s).changeHistory } := by
  simp only [OptionsV2.logChange]
  split_ifs <;> rfl

/-- C13 fails as stated: the theme '' of the exporting storage is not missing, yet
the import of the exported file stores 'dark'. -/
theorem C13_empty_theme_exported_dark :
    emptyThemeStorage.theme = some "" ∧
    (OptionsV2.importData (OptionsV2.exportFile emptyThemeStorage "2024-01-01") true 1 "d"
      Storage.empty).theme = some "dark" := by
  refine ⟨?_, ?_⟩ <;> decide

/-- C13, amended: a confirmed `importData` into `t` of the file `exportData` produces
from `s` yields a storage whose extensionGroups, extensionDeviceGroups,
extensionDescriptions, extensionMetadata, deviceGroupNames, customGroupNames, theme
and autoSnapshot equal the exported values: the values of `s`, with {} for a missing
map, 'dark' for a missing or empty theme and true for an autoSnapshot that is not
false. -/
theorem C13_export_import_round_trip (s t : Storage) (exportDate : String)
    (tLog tLog' : Nat) (dLog dLog' : String) :
    (OptionsV2.exportData exportDate tLog' dLog' s).1 = OptionsV2.exportFile s exportDate ∧
    (OptionsV2.importData (OptionsV2.exportFile s exportDate) true tLog dLog
      t).extensionGroups = some (s.extensionGroups.getD []) ∧
    (OptionsV2.importData (OptionsV2.exportFile s exportDate) true tLog dLog
      t).extensionDeviceGroups = some (s.extensionDeviceGroups.getD []) ∧
    (OptionsV2.importData (OptionsV2.exportFile s exportDate) true tLog dLog
      t).extensionDescriptions = some (s.extensionDescriptions.getD []) ∧
    (OptionsV2.importData (OptionsV2.exportFile s exportDate) true tLog dLog
      t).extensionMetadata = some (s.extensionMetadata.getD []) ∧
    (OptionsV2.importData (OptionsV2.exportFile s exportDate) true tLog dLog
      t).deviceGroupNames = some (s.deviceGroupNames.getD []) ∧
    (OptionsV2.importData (OptionsV2.exportFile s exportDate) true tLog dLog
      t).customGroupNames = some (s.customGroupNames.getD []) ∧
    (OptionsV2.importData (OptionsV2.exportFile s exportDate) true tLog dLog t).theme =
      some (match s.theme with
            | some v => if v = "" then "dark" else v
            | none => "dark") ∧
    (OptionsV2.importData (OptionsV2.exportFile s exportDate) true tLog dLog t).autoSnapshot =
      some (decide (s.autoSnapshot ≠ some false)) := by
  have himp : OptionsV2.importData (OptionsV2.exportFile s exportDate) true tLog dLog t =
      OptionsV2.logChange "匯入設定資料（2.0）" none tLog dLog
        (storageSet t (OptionsV2.exportFile s exportDate)) := by
    have hv : strOr (OptionsV2.exportFile s exportDate).version "1.0" = "2.0" := by
      simp [OptionsV2.exportFile, strOr]
    simp only [OptionsV2.importData, hv, if_true, Bool.true_eq_false, if_false]
    rfl
  rw [himp, logChangeV2_frame]
  refine ⟨rfl, rfl, rfl, rfl, rfl, rfl, rfl, rfl, rfl⟩

/-- C14: for a parsed file whose version is absent or differs from '2.0', a confirmed
`importData` sets extensionGroups, extensionDescriptions, customGroupNames, theme and
autoSnapshot from the file, with the defaults {}, {}, {}, 'dark' and true, and leaves
every other storage key except the change history it logs to unchanged. -/
theorem C14_import_v1_frame (data t : Storage) (tLog : Nat) (dLog : String)
    (hv : data.version ≠ some "2.0") :
    (OptionsV2.importData data true tLog dLog t).extensionGroups =
      some (data.extensionGroups.getD []) ∧
    (OptionsV2.importData data true tLog dLog t).extensionDescriptions =
      some (data.extensionDescriptions.getD []) ∧
    (OptionsV2.importData data true tLog dLog t).customGroupNames =
      some (data.customGroupNames.getD []) ∧
    (OptionsV2.importData data true tLog dLog t).theme = some (strOr data.theme "dark") ∧
    (OptionsV2.importData data true tLog dLog t).autoSnapshot =
      some (decide (data.autoSnapshot ≠ some false)) ∧
    (OptionsV2.importData data true tLog dLog t).extensionDeviceGroups =
      t.extensionDeviceGroups ∧
    (OptionsV2.importData data true tLog dLog t).extensionMetadata = t.extensionMetadata ∧
    (OptionsV2.importData data true tLog dLog t).deviceGroupNames = t.deviceGroupNames ∧
    (OptionsV2.importData data true tLog dLog t).deletedExtensions = t.deletedExtensions ∧
    (OptionsV2.importData data true tLog dLog t).snapshots = t.snapshots ∧
    (OptionsV2.importData data true tLog dLog t).archiveNeedsCleanup =
      t.archiveNeedsCleanup ∧
    (OptionsV2.importData data true tLog dLog t).archiveWarningDismissed =
      t.archiveWarningDismissed ∧
    (OptionsV2.importData data true tLog dLog t).currentFilters = t.currentFilters ∧
    (OptionsV2.importData data true tLog dLog t).version = t.version ∧
    (OptionsV2.importData data true tLog dLog t).exportDate = t.exportDate := by
  have hne : ¬ strOr data.version "1.0" = "2.0" := by
    cases hd : data.version with
    | none => simp only [strOr]; decide
    | some v =>
      simp only [strOr]
      split_ifs with h0
      · decide
      · intro h2
        exact hv (by rw [hd, h2])
  have himp : OptionsV2.importData data true tLog dLog t =
      OptionsV2.logChange ("匯入設定資料（" ++ strOr data.version "1.0" ++ "）") none tLog dLog
        (storageSet t (OptionsV2.convertV1 data)) := by
    simp only [OptionsV2.importData, hne, if_false, Bool.true_eq_false]
  rw [himp, logChangeV2_frame]
  refine ⟨rfl, rfl, rfl, rfl, rfl, rfl, rfl, rfl, rfl, rfl, rfl, rfl, rfl, rfl, rfl⟩

/-- C14 at a file of the v1.0 format imported into the storage of the page with a
custom device group. -/
theorem C14_import_v1_frame_witness :
    (OptionsV2.importData v1File true 1 "d"
      { Storage.empty with deviceGroupNames := some [("device_1", "Phone")] }).extensionGroups =
      some [("y", "dev")] ∧
    (OptionsV2.importData v1File true 1 "d"
      { Storage.empty with deviceGroupNames := some [("device_1", "Phone")] }).deviceGroupNames =
      some [("device_1", "Phone")] :=
  ⟨(C14_import_v1_frame v1File
      { Storage.empty with deviceGroupNames := some [("device_1", "Phone")] } 1 "d"
      (by decide)).1,
   (C14_import_v1_frame v1File
      { Storage.empty with deviceGroupNames := some [("device_1", "Phone")] } 1 "d"
      (by decide)).2.2.2.2.2.2.2.1⟩

/-! ## The restore loop -/

theorem restoreLoop_cons_ok (eligible : ExtensionInfo → Bool) (ok : String → Bool → Bool)
    (ids : List String) (e : ExtensionInfo) (rest : List ExtensionInfo) (b : Browser)
    (hc : (eligible e && (e.enabled != ids.contains e.id)) = true)
    (hk : ok e.id (ids.contains e.id) = true) :
    restoreLoop eligible ok ids (e :: rest) b =
      ({ e with enabled := ids.contains e.id } ::
          (restoreLoop eligible ok ids rest (b.setEnabled e.id (ids.contains e.id))).1,
        (restoreLoop eligible ok ids rest (b.setEnabled e.id (ids.contains e.id))).2.1,
        (e.id, ids.contains e.id) ::
          (restoreLoop eligible ok ids rest (b.setEnabled e.id (ids.contains e.id))).2.2) := by
  rw [restoreLoop]
  simp only []
  rw [if_pos hc, if_pos hk]

theorem restoreLoop_cons_fail (eligible : ExtensionInfo → Bool) (ok : String → Bool → Bool)
    (ids : List String) (e : ExtensionInfo) (rest : List ExtensionInfo) (b : Browser)
    (hc : (eligible e && (e.enabled != ids.contains e.id)) = true)
    (hk : ¬ ok e.id (ids.contains e.id) = true) :
    restoreLoop eligible ok ids (e :: rest) b =
      (e :: (restoreLoop eligible ok ids rest b).1, (restoreLoop eligible ok ids rest b).2.1,
        (e.id, ids.contains e.id) :: (restoreLoop eligible ok ids rest b).2.2) := by
  rw [restoreLoop]
  simp only []
  rw [if_pos hc, if_neg hk]

theorem restoreLoop_cons_skip (eligible : ExtensionInfo → Bool) (ok : String → Bool → Bool)
    (ids : List String) (e : ExtensionInfo) (rest : List ExtensionInfo) (b : Browser)
    (hc : ¬ (eligible e && (e.enabled != ids.contains e.id)) = true) :
    restoreLoop eligible ok ids (e :: rest) b =
      (e :: (restoreLoop eligible ok ids rest b).1, (restoreLoop eligible ok ids rest b).2.1,
        (restoreLoop eligible ok ids rest b).2.2) := by
  rw [restoreLoop]
  simp only []
  rw [if_neg hc]

theorem needsCall_filter_pos (eligible : ExtensionInfo → Bool) (ids : List String)
    (e : ExtensionInfo) (rest : List ExtensionInfo)
    (hc : (eligible e && (e.enabled != ids.contains e.id)) = true) :
    (e :: rest).filter (fun e => eligible e && (e.enabled != ids.contains e.id)) =
      e :: rest.filter (fun e => eligible e && (e.enabled != ids.contains e.id)) :=
  List.filter_cons_of_pos hc

theorem needsCall_filter_neg (eligible : ExtensionInfo → Bool) (ids : List String)
    (e : ExtensionInfo) (rest : List ExtensionInfo)
    (hc : ¬ (eligible e && (e.enabled != ids.contains e.id)) = true) :
    (e :: rest).filter (fun e => eligible e && (e.enabled != ids.contains e.id)) =
      rest.filter (fun e => eligible e && (e.enabled != ids.contains e.id)) :=
  List.filter_cons_of_neg hc

theorem restoreLoop_calls (eligible : ExtensionInfo → Bool) (ok : String → Bool → Bool)
    (ids : List String) (l : List ExtensionInfo) (b : Browser) :
    (restoreLoop eligible ok ids l b).2.2 =
      (l.filter (fun e => eligible e && (e.enabled != ids.contains e.id))).map
        (fun e => (e.id, ids.contains e.id)) := by
  induction l generalizing b with
  | nil => rfl
  | cons e rest ih =>
    by_cases hc : (eligible e && (e.enabled != ids.contains e.id)) = true
    · rw [needsCall_filter_pos _ _ _ _ hc, List.map_cons]
      by_cases hk : ok e.id (ids.contains e.id) = true
      · rw [restoreLoop_cons_ok _ _ _ _ _ _ hc hk, ih]
      · rw [restoreLoop_cons_fail _ _ _ _ _ _ hc hk, ih]
    · rw [needsCall_filter_neg _ _ _ _ hc, restoreLoop_cons_skip _ _ _ _ _ _ hc, ih]

theorem withEnabled_self (e : ExtensionInfo) (v : Bool) (h : e.enabled = v) :
    { e with enabled := v } = e := by
  cases e
  simp only at h
  subst h
  rfl

theorem restoreLoop_list (eligible : ExtensionInfo → Bool) (ok : String → Bool → Bool)
    (ids : List String) (l : List ExtensionInfo) (b : Browser)
    (hok : ∀ c ∈ (restoreLoop eligible ok ids l b).2.2, ok c.1 c.2 = true) :
    (restoreLoop eligible ok ids l b).1 =
      l.map (fun e => if eligible e = true then { e with enabled := ids.contains e.id }
                      else e) := by
  induction l generalizing b with
  | nil => rfl
  | cons e rest ih =>
    rw [List.map_cons]
    by_cases hc : (eligible e && (e.enabled != ids.contains e.id)) = true
    · have hel : eligible e = true := by
        rw [Bool.and_eq_true] at hc
        exact hc.1
      by_cases hk : ok e.id (ids.contains e.id) = true
      · rw [restoreLoop_cons_ok _ _ _ _ _ _ hc hk] at hok ⊢
        rw [if_pos hel]
        exact congrArg _ (ih _ (fun c hcm => hok c (List.mem_cons_of_mem _ hcm)))
      · rw [restoreLoop_cons_fail _ _ _ _ _ _ hc hk] at hok
        exact absurd (hok (e.id, ids.contains e.id) (List.mem_cons_self _ _)) hk
    · rw [restoreLoop_cons_skip _ _ _ _ _ _ hc] at hok ⊢
      have htail := ih _ hok
      by_cases hel : eligible e = true
      · have hen : e.enabled = ids.contains e.id := by
          by_contra hne
          apply hc
          rw [Bool.and_eq_true]
          exact ⟨hel, bne_iff_ne.2 hne⟩
        rw [if_pos hel, withEnabled_self e _ hen]
        exact congrArg _ htail
      · rw [if_neg hel]
        exact congrArg _ htail

theorem restoreLoop_browser (eligible : ExtensionInfo → Bool) (ok : String → Bool → Bool)
    (ids : List String) (l : List ExtensionInfo) (b : Browser)
    (hok : ∀ c ∈ (restoreLoop eligible ok ids l b).2.2, ok c.1 c.2 = true) :
    (restoreLoop eligible ok ids l b).2.1 =
      { b with items := b.items.map (fun x =>
          if x.id ∈ (l.filter (fun e => eligible e && (e.enabled != ids.contains e.id))).map
              (fun e => e.id)
          then { x with enabled := ids.contains x.id } else x) } := by
  induction l generalizing b with
  | nil => simp [restoreLoop]
  | cons e rest ih =>
    by_cases hc : (eligible e && (e.enabled != ids.contains e.id)) = true
    · by_cases hk : ok e.id (ids.contains e.id) = true
      · rw [restoreLoop_cons_ok _ _ _ _ _ _ hc hk] at hok ⊢
        have htail := ih (b.setEnabled e.id (ids.contains e.id))
          (fun c hcm => hok c (List.mem_cons_of_mem _ hcm))
        show (restoreLoop eligible ok ids rest (b.setEnabled e.id (ids.contains e.id))).2.1 = _
        rw [htail, needsCall_filter_pos _ _ _ _ hc]
        simp only [Browser.setEnabled, List.map_map, List.map_cons, List.mem_cons]
        congr 1
        apply List.map_congr_left
        intro x _
        simp only [Function.comp]
        by_cases hx : x.id = e.id
        · simp only [hx, true_or, if_true]
          split_ifs <;> rfl
        · simp only [hx, false_or, if_false]
      · rw [restoreLoop_cons_fail _ _ _ _ _ _ hc hk] at hok
        exact absurd (hok (e.id, ids.contains e.id) (List.mem_cons_self _ _)) hk
    · rw [restoreLoop_cons_skip _ _ _ _ _ _ hc] at hok ⊢
      rw [needsCall_filter_neg _ _ _ _ hc]
      exact ih b hok

theorem restoreLoop_visible_enabled (ok : String → Bool → Bool) (ids : List String)
    (l : List ExtensionInfo) (b : Browser) (hsync : InSync l b)
    (hok : ∀ c ∈ (restoreLoop (fun _ => true) ok ids l b).2.2, ok c.1 c.2 = true) :
    ∀ x ∈ (restoreLoop (fun _ => true) ok ids l b).2.1.visible,
      x.enabled = ids.contains x.id := by
  intro x hx
  rw [restoreLoop_browser _ _ _ _ _ hok] at hx
  simp only [Browser.visible, List.mem_filter, List.mem_map, Bool.and_eq_true,
    decide_eq_true_eq] at hx
  obtain ⟨⟨y, hy, hxy⟩, hty, hid⟩ := hx
  by_cases hch : y.id ∈ (l.filter
      (fun e => true && (e.enabled != ids.contains e.id))).map (fun e => e.id)
  · rw [if_pos hch] at hxy
    rw [← hxy]
  · rw [if_neg hch] at hxy
    subst hxy
    have hvis : y ∈ b.visible := by
      simp only [Browser.visible, List.mem_filter, Bool.and_eq_true, decide_eq_true_eq]
      exact ⟨hy, hty, hid⟩
    have hpair : (y.id, y.enabled) ∈ l.map (fun e => (e.id, e.enabled)) := by
      rw [hsync]
      exact List.mem_map.2 ⟨y, hvis, rfl⟩
    obtain ⟨e, he, hpe⟩ := List.mem_map.1 hpair
    have h1 : e.id = y.id := congrArg Prod.fst hpe
    have h2 : e.enabled = y.enabled := congrArg Prod.snd hpe
    by_contra hne
    apply hch
    refine List.mem_map.2 ⟨e, ?_, h1⟩
    rw [List.mem_filter]
    refine ⟨he, ?_⟩
    rw [Bool.true_and, bne_iff_ne, h1, h2]
    exact hne

theorem contains_eq_decide_mem (ids : List String) (x : String) :
    ids.contains x = decide (x ∈ ids) := by
  simp

theorem restoreSnapshotV2_found (snapshotId : Nat) (ok : String → Bool → Bool) (tLog : Nat)
    (dLog : String) (w : OptionsV2.Page × Browser × Storage) (snapshot : Snapshot)
    (hfind : (w.2.2.snapshots.getD []).find? (fun sn => decide (snapKey sn = snapshotId)) =
      some snapshot) :
    OptionsV2.restoreSnapshot snapshotId true ok tLog dLog w =
      ((OptionsV2.loadExtensions
          (restoreLoop (fun _ => true) ok (snapshot.extensions.map (fun e => e.id))
            w.1.allExtensions w.2.1).2.1
          { w.1 with allExtensions :=
              (restoreLoop (fun _ => true) ok (snapshot.extensions.map (fun e => e.id))
                w.1.allExtensions w.2.1).1 },
        (restoreLoop (fun _ => true) ok (snapshot.extensions.map (fun e => e.id))
          w.1.allExtensions w.2.1).2.1,
        OptionsV2.logChange ("恢復快照 - " ++ snapshot.date) none tLog dLog w.2.2),
       (restoreLoop (fun _ => true) ok (snapshot.extensions.map (fun e => e.id))
          w.1.allExtensions w.2.1).2.2) := by
  simp only [OptionsV2.restoreSnapshot, hfind, Bool.true_eq_false, if_false]

theorem restoreSnapshotV1_found (snapshotId : Nat) (ok : String → Bool → Bool) (tLog : Nat)
    (dLog : String) (w : OptionsV1.Page × Browser × Storage) (snapshot : Snapshot)
    (hfind : (w.2.2.snapshots.getD []).find? (fun sn => decide (sn.id = some snapshotId)) =
      some snapshot) :
    OptionsV1.restoreSnapshot snapshotId true ok tLog dLog w =
      (({ w.1 with allExtensions :=
            (restoreLoop OptionsV1.mayBeRestored ok (snapshot.extensions.map (fun e => e.id))
              w.1.allExtensions w.2.1).1 },
        (restoreLoop OptionsV1.mayBeRestored ok (snapshot.extensions.map (fun e => e.id))
          w.1.allExtensions w.2.1).2.1,
        OptionsV1.logChange
          ("還原快照 - 影響" ++ toString (OptionsV1.successCount ok
            (restoreLoop OptionsV1.mayBeRestored ok (snapshot.extensions.map (fun e => e.id))
              w.1.allExtensions w.2.1).2.2) ++ "個擴充功能") none tLog dLog w.2.2),
       (restoreLoop OptionsV1.mayBeRestored ok (snapshot.extensions.map (fun e => e.id))
          w.1.allExtensions w.2.1).2.2) := by
  simp only [OptionsV1.restoreSnapshot, hfind, Bool.true_eq_false, if_false]

/-! ## Snapshot round trip -/

theorem setEnabledFirst_idMay (id : String) (v : Bool) (l : List ExtensionInfo) :
    (setEnabledFirst id v l).map (fun e => (e.id, e.mayDisable)) =
      l.map (fun e => (e.id, e.mayDisable)) := by
  induction l with
  | nil => rfl
  | cons e rest ih =>
    simp only [setEnabledFirst]
    split_ifs with h
    · rfl
    · simp only [List.map_cons, ih]

theorem setEnabledFirst_idem (id : String) (v : Bool) (l : List ExtensionInfo) :
    setEnabledFirst id v (setEnabledFirst id v l) = setEnabledFirst id v l := by
  induction l with
  | nil => rfl
  | cons e rest ih =>
    by_cases h : e.id = id
    · simp only [setEnabledFirst, h, if_true]
    · simp only [setEnabledFirst, h, if_false, ih]

theorem setEnabledFirst_pairs (id : String) (v : Bool) (l : List ExtensionInfo)
    (hnd : (l.map (fun e => e.id)).Nodup) :
    (setEnabledFirst id v l).map (fun e => (e.id, e.enabled)) =
      (l.map (fun e => (e.id, e.enabled))).map (fun q => if q.1 = id then (q.1, v) else q) := by
  induction l with
  | nil => rfl
  | cons e rest ih =>
    rw [List.map_cons, List.nodup_cons] at hnd
    by_cases h : e.id = id
    · have hrest : (rest.map (fun e => (e.id, e.enabled))).map
          (fun q => if q.1 = id then (q.1, v) else q) = rest.map (fun e => (e.id, e.enabled)) := by
        rw [List.map_map]
        apply List.map_congr_left
        intro e' he'
        have hne : ¬ e'.id = id := by
          intro h'
          apply hnd.1
          rw [h, ← h']
          exact List.mem_map.2 ⟨e', he', rfl⟩
        simp only [Function.comp, hne, if_false]
      simp only [setEnabledFirst, h, if_true, List.map_cons, hrest]
    · simp only [setEnabledFirst, h, if_false, List.map_cons, ih hnd.2]

theorem visible_map (b : Browser) (f : BrowserExt → BrowserExt)
    (hid : ∀ x, (f x).id = x.id) (hty : ∀ x, (f x).type = x.type) :
    Browser.visible { b with items := b.items.map f } = b.visible.map f := by
  simp only [Browser.visible, List.filter_map]
  congr 1
  apply List.filter_congr
  intro x _
  simp only [Function.comp, hid, hty]

theorem setEnabled_visible_pairs (b : Browser) (id : String) (v : Bool) :
    (b.setEnabled id v).visible.map (fun e => (e.id, e.enabled)) =
      (b.visible.map (fun e => (e.id, e.enabled))).map
        (fun q => if q.1 = id then (q.1, v) else q) := by
  have h := visible_map b (fun e => if e.id = id then { e with enabled := v } else e)
    (fun x => by dsimp only; split_ifs <;> rfl) (fun x => by dsimp only; split_ifs <;> rfl)
  simp only [Browser.setEnabled]
  rw [h, List.map_map, List.map_map]
  apply List.map_congr_left
  intro x _
  simp only [Function.comp]
  split_ifs <;> rfl

theorem setEnabled_find (b : Browser) (id : String) (v : Bool) (u : BrowserExt)
    (h : (b.setEnabled id v).items.find? (fun e => decide (e.id = id)) = some u) :
    u.enabled = v := by
  have hid : u.id = id := by
    have := List.find?_some h
    simpa using this
  have hmem := List.mem_of_find?_eq_some h
  simp only [Browser.setEnabled, List.mem_map] at hmem
  obtain ⟨y, _, hy⟩ := hmem
  by_cases hyid : y.id = id
  · rw [if_pos hyid] at hy
    rw [← hy]
  · rw [if_neg hyid] at hy
    rw [hy] at hyid
    exact absurd hid hyid

theorem toggleV2_cases (id : String) (ok : String → Bool → Bool) (tLog : Nat) (dLog : String)
    (w : OptionsV2.Page × Browser × Storage) :
    OptionsV2.toggleExtension id ok tLog dLog w = w ∨
    ∃ (v : Bool) (a : String),
      OptionsV2.toggleExtension id ok tLog dLog w =
        ({ w.1 with allExtensions := setEnabledFirst id v w.1.allExtensions },
          w.2.1.setEnabled id v, OptionsV2.logChange a none tLog dLog w.2.2) := by
  unfold OptionsV2.toggleExtension
  cases hf : w.1.allExtensions.find? (fun e => decide (e.id = id)) with
  | none => exact Or.inl rfl
  | some ext =>
    simp only []
    by_cases hk : ok id (!ext.enabled) = true
    · refine Or.inr ⟨!ext.enabled,
        (if (!ext.enabled) = true then "啟用" else "停用") ++ " " ++ ext.name, ?_⟩
      rw [if_pos hk]
      cases hu : (w.2.1.setEnabled id (!ext.enabled)).items.find?
          (fun e => decide (e.id = id)) with
      | none => rfl
      | some u =>
        simp only [setEnabled_find _ _ _ _ hu, setEnabledFirst_idem]
    · rw [if_neg hk]
      exact Or.inl rfl

theorem toggleV1_cases (id : String) (ok : String → Bool → Bool) (tLog : Nat) (dLog : String)
    (w : OptionsV1.Page × Browser × Storage) :
    OptionsV1.toggleExtension id ok tLog dLog w = w ∨
    ∃ (v : Bool) (a : String) (u : Option String),
      ok id v = true ∧
      OptionsV1.toggleExtension id ok tLog dLog w =
        ({ w.1 with allExtensions := setEnabledFirst id v w.1.allExtensions },
          w.2.1.setEnabled id v, OptionsV1.logChange a u tLog dLog w.2.2) := by
  unfold OptionsV1.toggleExtension
  cases hf : w.1.allExtensions.find? (fun e => decide (e.id = id)) with
  | none => exact Or.inl rfl
  | some ext =>
    simp only []
    by_cases hk : ok id (!ext.enabled) = true
    · refine Or.inr ⟨!ext.enabled,
        (if (!ext.enabled) = true then "啟用" else "停用") ++ " " ++ ext.name,
        some ("toggleExtension " ++ id), hk, ?_⟩
      rw [if_pos hk]
      cases hu : (w.2.1.setEnabled id (!ext.enabled)).items.find?
          (fun e => decide (e.id = id)) with
      | none => simp only [setEnabledFirst_idem]
      | some u =>
        simp only [setEnabled_find _ _ _ _ hu, setEnabledFirst_idem]
    · rw [if_neg hk]
      exact Or.inl rfl

theorem map_id_of_idMay (l l0 : List ExtensionInfo)
    (h : l.map (fun e => (e.id, e.mayDisable)) = l0.map (fun e => (e.id, e.mayDisable))) :
    l.map (fun e => e.id) = l0.map (fun e => e.id) := by
  have := congrArg (List.map Prod.fst) h
  simpa [List.map_map, Function.comp_def] using this

theorem contains_enabled_ids (l : List ExtensionInfo) (e0 : ExtensionInfo)
    (hnd : (l.map (fun e => e.id)).Nodup) (he0 : e0 ∈ l) :
    ((l.filter (fun ext => ext.enabled)).map (fun ext => ext.id)).contains e0.id =
      e0.enabled := by
  rw [contains_eq_decide_mem]
  cases hen : e0.enabled with
  | true =>
    rw [decide_eq_true_eq]
    exact List.mem_map.2 ⟨e0, List.mem_filter.2 ⟨he0, hen⟩, rfl⟩
  | false =>
    rw [decide_eq_false_iff_not]
    intro hmem
    obtain ⟨e, he, hid⟩ := List.mem_map.1 hmem
    rw [List.mem_filter] at he
    have heq : e = e0 := List.inj_on_of_nodup_map hnd he.1 he0 hid
    rw [heq, hen] at he
    exact Bool.noConfusion he.2

theorem toggleV2_inv (id : String) (ok : String → Bool → Bool) (tLog : Nat) (dLog : String)
    (w : OptionsV2.Page × Browser × Storage) (l0 : List ExtensionInfo)
    (hid : w.1.allExtensions.map (fun e => (e.id, e.mayDisable)) =
      l0.map (fun e => (e.id, e.mayDisable)))
    (hnd : (l0.map (fun e => e.id)).Nodup) (hsync : InSync w.1.allExtensions w.2.1) :
    (OptionsV2.toggleExtension id ok tLog dLog w).1.allExtensions.map
        (fun e => (e.id, e.mayDisable)) = l0.map (fun e => (e.id, e.mayDisable)) ∧
    InSync (OptionsV2.toggleExtension id ok tLog dLog w).1.allExtensions
      (OptionsV2.toggleExtension id ok tLog dLog w).2.1 ∧
    (OptionsV2.toggleExtension id ok tLog dLog w).2.2.snapshots = w.2.2.snapshots := by
  rcases toggleV2_cases id ok tLog dLog w with h | ⟨v, a, h⟩
  · rw [h]
    exact ⟨hid, hsync, rfl⟩
  · rw [h]
    refine ⟨?_, ?_, logChangeV2_snapshots _ _ _ _ _⟩
    · show (setEnabledFirst id v w.1.allExtensions).map _ = _
      rw [setEnabledFirst_idMay, hid]
    · show InSync (setEnabledFirst id v w.1.allExtensions) (w.2.1.setEnabled id v)
      have hnd' : (w.1.allExtensions.map (fun e => e.id)).Nodup := by
        rw [map_id_of_idMay _ _ hid]
        exact hnd
      unfold InSync at hsync ⊢
      rw [setEnabledFirst_pairs id v _ hnd', setEnabled_visible_pairs, hsync]

theorem togglesV2_inv (toggles : List String) (ok : String → Bool → Bool) (tLog : Nat)
    (dLog : String) (w : OptionsV2.Page × Browser × Storage) (l0 : List ExtensionInfo)
    (hid : w.1.allExtensions.map (fun e => (e.id, e.mayDisable)) =
      l0.map (fun e => (e.id, e.mayDisable)))
    (hnd : (l0.map (fun e => e.id)).Nodup) (hsync : InSync w.1.allExtensions w.2.1) :
    (toggles.foldl (fun w id => OptionsV2.toggleExtension id ok tLog dLog w)
        w).1.allExtensions.map (fun e => (e.id, e.mayDisable)) =
      l0.map (fun e => (e.id, e.mayDisable)) ∧
    InSync (toggles.foldl (fun w id => OptionsV2.toggleExtension id ok tLog dLog w)
        w).1.allExtensions
      (toggles.foldl (fun w id => OptionsV2.toggleExtension id ok tLog dLog w) w).2.1 ∧
    (toggles.foldl (fun w id => OptionsV2.toggleExtension id ok tLog dLog w)
        w).2.2.snapshots = w.2.2.snapshots := by
  induction toggles generalizing w with
  | nil => exact ⟨hid, hsync, rfl⟩
  | cons id rest ih =>
    obtain ⟨h1, h2, h3⟩ := toggleV2_inv id ok tLog dLog w l0 hid hnd hsync
    obtain ⟨k1, k2, k3⟩ := ih (OptionsV2.toggleExtension id ok tLog dLog w) h1 h2
    rw [List.foldl_cons]
    exact ⟨k1, k2, k3.trans h3⟩

theorem togglesV1_inv (toggles : List String) (ok : String → Bool → Bool) (tLog : Nat)
    (dLog : String) (w : OptionsV1.Page × Browser × Storage) (l0 : List ExtensionInfo)
    (hid : w.1.allExtensions.map (fun e => (e.id, e.mayDisable)) =
      l0.map (fun e => (e.id, e.mayDisable))) :
    (toggles.foldl (fun w id => OptionsV1.toggleExtension id ok tLog dLog w)
        w).1.allExtensions.map (fun e => (e.id, e.mayDisable)) =
      l0.map (fun e => (e.id, e.mayDisable)) ∧
    (toggles.foldl (fun w id => OptionsV1.toggleExtension id ok tLog dLog w)
        w).2.2.snapshots = w.2.2.snapshots := by
  induction toggles generalizing w with
  | nil => exact ⟨hid, rfl⟩
  | cons id rest ih =>
    rw [List.foldl_cons]
    rcases toggleV1_cases id ok tLog dLog w with h | ⟨v, a, u, _, h⟩
    · rw [h]
      exact ih w hid
    · rw [h]
      have h1 : (setEnabledFirst id v w.1.allExtensions).map (fun e => (e.id, e.mayDisable)) =
          l0.map (fun e => (e.id, e.mayDisable)) := by
        rw [setEnabledFirst_idMay, hid]
      obtain ⟨k1, k2⟩ := ih ({ w.1 with allExtensions := setEnabledFirst id v w.1.allExtensions },
        w.2.1.setEnabled id v, OptionsV1.logChange a u tLog dLog w.2.2) h1
      exact ⟨k1, k2.trans (logChangeV1_snapshots _ _ _ _ _)⟩

theorem find_head_take {α : Type} (a : α) (l : List α) (q : α → Bool) (h : q a = true) :
    ((a :: l).take 50).find? q = some a := by
  rw [show (a :: l).take 50 = a :: l.take 49 from rfl]
  exact List.find?_cons_of_pos _ h

theorem togglesV2_snapshots (toggles : List String) (ok : String → Bool → Bool) (tLog : Nat)
    (dLog : String) (w : OptionsV2.Page × Browser × Storage) :
    (toggles.foldl (fun w id => OptionsV2.toggleExtension id ok tLog dLog w)
        w).2.2.snapshots = w.2.2.snapshots := by
  induction toggles generalizing w with
  | nil => rfl
  | cons id rest ih =>
    rw [List.foldl_cons, ih]
    rcases toggleV2_cases id ok tLog dLog w with h | ⟨v, a, h⟩
    · rw [h]
    · rw [h]
      exact logChangeV2_snapshots _ _ _ _ _

theorem createSnapshotV2_snapshots (allExtensions : List ExtensionInfo)
    (deviceFilter : Option String) (tId tStamp : Nat) (date : String) (tLog : Nat)
    (dLog : String) (s : Storage) :
    (OptionsV2.createSnapshot allExtensions deviceFilter tId tStamp date tLog dLog s).snapshots =
      some ((OptionsV2.makeSnapshot allExtensions deviceFilter tId tStamp date ::
        s.snapshots.getD []).take 50) := by
  simp only [OptionsV2.createSnapshot, logChangeV2_snapshots, pushSnapshot_snapshots]

theorem createSnapshotV1_snapshots (allExtensions : List ExtensionInfo) (tId tStamp : Nat)
    (date : String) (tLog : Nat) (dLog : String) (s : Storage) :
    (OptionsV1.createSnapshot allExtensions tId tStamp date tLog dLog s).snapshots =
      some ((OptionsV1.makeSnapshot allExtensions tId tStamp date ::
        s.snapshots.getD []).take 50) := by
  simp only [OptionsV1.createSnapshot, logChangeV1_snapshots, pushSnapshot_snapshots]

theorem makeSnapshotV2_ids (allExtensions : List ExtensionInfo) (deviceFilter : Option String)
    (tId tStamp : Nat) (date : String) :
    (OptionsV2.makeSnapshot allExtensions deviceFilter tId tStamp date).extensions.map
        (fun e => e.id) =
      (allExtensions.filter (fun ext => ext.enabled)).map (fun ext => ext.id) := by
  simp [OptionsV2.makeSnapshot, List.map_map, Function.comp_def]

theorem makeSnapshotV1_ids (allExtensions : List ExtensionInfo) (tId tStamp : Nat)
    (date : String) :
    (OptionsV1.makeSnapshot allExtensions tId tStamp date).extensions.map (fun e => e.id) =
      (allExtensions.filter (fun ext => ext.enabled)).map (fun ext => ext.id) := by
  simp [OptionsV1.makeSnapshot, List.map_map, Function.comp_def]

theorem roundTripV2_eq (toggles : List String) (ok : String → Bool → Bool) (tId tStamp : Nat)
    (date : String) (tLog : Nat) (dLog : String) (w : OptionsV2.Page × Browser × Storage) :
    OptionsV2.roundTrip toggles ok tId tStamp date tLog dLog w =
      ((OptionsV2.loadExtensions
          (restoreLoop (fun _ => true) ok
            ((w.1.allExtensions.filter (fun ext => ext.enabled)).map (fun ext => ext.id))
            (OptionsV2.snapshotThenToggle toggles ok tId tStamp date tLog dLog
              w).1.allExtensions
            (OptionsV2.snapshotThenToggle toggles ok tId tStamp date tLog dLog w).2.1).2.1
          { (OptionsV2.snapshotThenToggle toggles ok tId tStamp date tLog dLog w).1 with
            allExtensions :=
              (restoreLoop (fun _ => true) ok
                ((w.1.allExtensions.filter (fun ext => ext.enabled)).map (fun ext => ext.id))
                (OptionsV2.snapshotThenToggle toggles ok tId tStamp date tLog dLog
                  w).1.allExtensions
                (OptionsV2.snapshotThenToggle toggles ok tId tStamp date tLog dLog w).2.1).1 },
        (restoreLoop (fun _ => true) ok
          ((w.1.allExtensions.filter (fun ext => ext.enabled)).map (fun ext => ext.id))
          (OptionsV2.snapshotThenToggle toggles ok tId tStamp date tLog dLog
            w).1.allExtensions
          (OptionsV2.snapshotThenToggle toggles ok tId tStamp date tLog dLog w).2.1).2.1,
        OptionsV2.logChange ("恢復快照 - " ++ date) none tLog dLog
          (OptionsV2.snapshotThenToggle toggles ok tId tStamp date tLog dLog w).2.2),
       (restoreLoop (fun _ => true) ok
          ((w.1.allExtensions.filter (fun ext => ext.enabled)).map (fun ext => ext.id))
          (OptionsV2.snapshotThenToggle toggles ok tId tStamp date tLog dLog
            w).1.allExtensions
          (OptionsV2.snapshotThenToggle toggles ok tId tStamp date tLog dLog w).2.1).2.2) := by
  have hfind : (((OptionsV2.snapshotThenToggle toggles ok tId tStamp date tLog dLog
      w).2.2.snapshots.getD []).find?
      (fun sn => decide (snapKey sn = snapKey (OptionsV2.makeSnapshot w.1.allExtensions
        (some w.1.currentFilters.deviceGroup) tId tStamp date)))) =
      some (OptionsV2.makeSnapshot w.1.allExtensions
        (some w.1.currentFilters.deviceGroup) tId tStamp date) := by
    unfold OptionsV2.snapshotThenToggle
    rw [togglesV2_snapshots, createSnapshotV2_snapshots, Option.getD_some]
    exact find_head_take _ _ _ (decide_eq_true rfl)
  unfold OptionsV2.roundTrip
  rw [restoreSnapshotV2_found _ _ _ _ _ _ hfind, makeSnapshotV2_ids]
  rfl

theorem togglesV1_snapshots (toggles : List String) (ok : String → Bool → Bool) (tLog : Nat)
    (dLog : String) (w : OptionsV1.Page × Browser × Storage) :
    (toggles.foldl (fun w id => OptionsV1.toggleExtension id ok tLog dLog w)
        w).2.2.snapshots = w.2.2.snapshots := by
  induction toggles generalizing w with
  | nil => rfl
  | cons id rest ih =>
    rw [List.foldl_cons, ih]
    rcases toggleV1_cases id ok tLog dLog w with h | ⟨v, a, u, _, h⟩
    · rw [h]
    · rw [h]
      exact logChangeV1_snapshots _ _ _ _ _

theorem roundTripV1_eq (toggles : List String) (ok : String → Bool → Bool) (tId tStamp : Nat)
    (date : String) (tLog : Nat) (dLog : String) (w : OptionsV1.Page × Browser × Storage) :
    (OptionsV1.roundTrip toggles ok tId tStamp date tLog dLog w).1.1.allExtensions =
      (restoreLoop OptionsV1.mayBeRestored ok
        ((w.1.allExtensions.filter (fun ext => ext.enabled)).map (fun ext => ext.id))
        (OptionsV1.snapshotThenToggle toggles ok tId tStamp date tLog dLog w).1.allExtensions
        (OptionsV1.snapshotThenToggle toggles ok tId tStamp date tLog dLog w).2.1).1 ∧
    (OptionsV1.roundTrip toggles ok tId tStamp date tLog dLog w).2 =
      (restoreLoop OptionsV1.mayBeRestored ok
        ((w.1.allExtensions.filter (fun ext => ext.enabled)).map (fun ext => ext.id))
        (OptionsV1.snapshotThenToggle toggles ok tId tStamp date tLog dLog w).1.allExtensions
        (OptionsV1.snapshotThenToggle toggles ok tId tStamp date tLog dLog w).2.1).2.2 := by
  have hfind : (((OptionsV1.snapshotThenToggle toggles ok tId tStamp date tLog dLog
      w).2.2.snapshots.getD []).find? (fun sn => decide (sn.id = some tId))) =
      some (OptionsV1.makeSnapshot w.1.allExtensions tId tStamp date) := by
    unfold OptionsV1.snapshotThenToggle
    rw [togglesV1_snapshots, createSnapshotV1_snapshots, Option.getD_some]
    exact find_head_take _ _ _ (decide_eq_true rfl)
  unfold OptionsV1.roundTrip
  rw [restoreSnapshotV1_found _ _ _ _ _ _ hfind, makeSnapshotV1_ids]
  exact ⟨rfl, rfl⟩

theorem restoreLoop_no_calls (eligible : ExtensionInfo → Bool) (ok : String → Bool → Bool)
    (l : List ExtensionInfo) (b : Browser) (hnd : (l.map (fun e => e.id)).Nodup) :
    (restoreLoop eligible ok
      ((l.filter (fun ext => ext.enabled)).map (fun ext => ext.id)) l b).2.2 = [] := by
  rw [restoreLoop_calls]
  have hnil : l.filter (fun e => eligible e &&
      (e.enabled != ((l.filter (fun ext => ext.enabled)).map
        (fun ext => ext.id)).contains e.id)) = [] := by
    rw [List.filter_eq_nil_iff]
    intro e he
    rw [contains_enabled_ids l e hnd he]
    simp
  rw [hnil]
  rfl

/-! ## The page and the browser after toggles and a restore -/

theorem mem_of_sync (l : List ExtensionInfo) (b : Browser) (hsync : InSync l b)
    (x : BrowserExt) (hx : x ∈ b.visible) :
    ∃ e ∈ l, e.id = x.id ∧ e.enabled = x.enabled := by
  have hpair : (x.id, x.enabled) ∈ l.map (fun e => (e.id, e.enabled)) := by
    rw [hsync]
    exact List.mem_map.2 ⟨x, hx, rfl⟩
  obtain ⟨e, he, hpe⟩ := List.mem_map.1 hpair
  exact ⟨e, he, congrArg Prod.fst hpe, congrArg Prod.snd hpe⟩

theorem loadExtensions_sync (b : Browser) (p : OptionsV2.Page) :
    InSync (OptionsV2.loadExtensions b p).allExtensions b := by
  simp only [InSync, OptionsV2.loadExtensions, List.map_map]
  rfl

theorem restoreLoop_sync (eligible : ExtensionInfo → Bool) (ok : String → Bool → Bool)
    (ids : List String) (l : List ExtensionInfo) (b : Browser) (hsync : InSync l b)
    (hnd : (l.map (fun e => e.id)).Nodup)
    (hok : ∀ c ∈ (restoreLoop eligible ok ids l b).2.2, ok c.1 c.2 = true) :
    InSync (restoreLoop eligible ok ids l b).1 (restoreLoop eligible ok ids l b).2.1 := by
  rw [restoreLoop_list _ _ _ _ _ hok, restoreLoop_browser _ _ _ _ _ hok]
  have hv := visible_map b
    (fun x => if x.id ∈ (l.filter
        (fun e => eligible e && (e.enabled != ids.contains e.id))).map (fun e => e.id)
      then { x with enabled := ids.contains x.id } else x)
    (fun x => by dsimp only; split_ifs <;> rfl)
    (fun x => by dsimp only; split_ifs <;> rfl)
  unfold InSync at hsync ⊢
  rw [hv, List.map_map, List.map_map]
  have hright : b.visible.map ((fun e => (e.id, e.enabled)) ∘
      (fun x => if x.id ∈ (l.filter
          (fun e => eligible e && (e.enabled != ids.contains e.id))).map (fun e => e.id)
        then { x with enabled := ids.contains x.id } else x)) =
      (b.visible.map (fun e => (e.id, e.enabled))).map
        (fun q => if q.1 ∈ (l.filter
            (fun e => eligible e && (e.enabled != ids.contains e.id))).map (fun e => e.id)
          then (q.1, ids.contains q.1) else q) := by
    rw [List.map_map]
    apply List.map_congr_left
    intro x _
    simp only [Function.comp]
    split_ifs <;> rfl
  rw [hright, ← hsync, List.map_map]
  apply List.map_congr_left
  intro e he
  simp only [Function.comp]
  by_cases hel : eligible e = true
  · rw [if_pos hel]
    by_cases hch : e.id ∈ (l.filter
        (fun e => eligible e && (e.enabled != ids.contains e.id))).map (fun e => e.id)
    · rw [if_pos hch]
    · rw [if_neg hch]
      have hen : e.enabled = ids.contains e.id := by
        by_contra hne
        apply hch
        refine List.mem_map.2 ⟨e, List.mem_filter.2 ⟨he, ?_⟩, rfl⟩
        rw [Bool.and_eq_true]
        exact ⟨hel, bne_iff_ne.2 hne⟩
      rw [hen]
  · rw [if_neg hel]
    have hch : ¬ e.id ∈ (l.filter
        (fun e => eligible e && (e.enabled != ids.contains e.id))).map (fun e => e.id) := by
      intro hmem
      obtain ⟨e', he', hid'⟩ := List.mem_map.1 hmem
      rw [List.mem_filter, Bool.and_eq_true] at he'
      have heq : e' = e := List.inj_on_of_nodup_map hnd he'.1 he hid'
      rw [heq] at he'
      exact hel he'.2.1
    rw [if_neg hch]

theorem togglesV1_sync (toggles : List String) (ok : String → Bool → Bool) (tLog : Nat)
    (dLog : String) (w : OptionsV1.Page × Browser × Storage)
    (hnd : (w.1.allExtensions.map (fun e => e.id)).Nodup)
    (hsync : InSync w.1.allExtensions w.2.1) :
    InSync (toggles.foldl (fun w id => OptionsV1.toggleExtension id ok tLog dLog w)
        w).1.allExtensions
      (toggles.foldl (fun w id => OptionsV1.toggleExtension id ok tLog dLog w) w).2.1 := by
  induction toggles generalizing w with
  | nil => exact hsync
  | cons id rest ih =>
    rw [List.foldl_cons]
    rcases toggleV1_cases id ok tLog dLog w with h | ⟨v, a, u, _, h⟩
    · rw [h]
      exact ih w hnd hsync
    · rw [h]
      apply ih
      · show ((setEnabledFirst id v w.1.allExtensions).map (fun e => e.id)).Nodup
        rw [map_id_of_idMay _ _ (setEnabledFirst_idMay id v w.1.allExtensions)]
        exact hnd
      · show InSync (setEnabledFirst id v w.1.allExtensions) (w.2.1.setEnabled id v)
        unfold InSync at hsync ⊢
        rw [setEnabledFirst_pairs id v _ hnd, setEnabled_visible_pairs, hsync]

theorem setEnabledFirst_filter_ne (id id0 : String) (v : Bool) (l : List ExtensionInfo)
    (hne : id ≠ id0) :
    (setEnabledFirst id v l).filter (fun e => decide (e.id = id0)) =
      l.filter (fun e => decide (e.id = id0)) := by
  induction l with
  | nil => rfl
  | cons e rest ih =>
    by_cases h : e.id = id
    · have h0 : ¬ e.id = id0 := fun h' => hne (h.symm.trans h')
      simp only [setEnabledFirst, h, if_true]
      rw [List.filter_cons_of_neg (by simpa using fun h' => hne h'),
        List.filter_cons_of_neg (by simpa using h0)]
    · simp only [setEnabledFirst, h, if_false, List.filter_cons, ih]

theorem togglesV1_untouched (toggles : List String) (ok : String → Bool → Bool) (tLog : Nat)
    (dLog : String) (w : OptionsV1.Page × Browser × Storage) (id0 : String)
    (hid0 : id0 ∉ toggles ∨ ∀ v, ok id0 v = false) :
    (toggles.foldl (fun w id => OptionsV1.toggleExtension id ok tLog dLog w)
        w).1.allExtensions.filter (fun e => decide (e.id = id0)) =
      w.1.allExtensions.filter (fun e => decide (e.id = id0)) := by
  induction toggles generalizing w with
  | nil => rfl
  | cons id rest ih =>
    have hrest : id0 ∉ rest ∨ ∀ v, ok id0 v = false := by
      rcases hid0 with h | h
      · exact Or.inl (fun hm => h (List.mem_cons_of_mem _ hm))
      · exact Or.inr h
    rw [List.foldl_cons, ih _ hrest]
    rcases toggleV1_cases id ok tLog dLog w with h | ⟨v, a, u, hk, h⟩
    · rw [h]
    · rw [h]
      have hne : id ≠ id0 := by
        intro heq
        rcases hid0 with h' | h'
        · exact h' (by rw [← heq]; exact List.mem_cons_self _ _)
        · rw [heq, h' v] at hk
          exact Bool.noConfusion hk
      exact setEnabledFirst_filter_ne id id0 v _ hne

theorem roundTripV1_browser (toggles : List String) (ok : String → Bool → Bool)
    (tId tStamp : Nat) (date : String) (tLog : Nat) (dLog : String)
    (w : OptionsV1.Page × Browser × Storage) :
    (OptionsV1.roundTrip toggles ok tId tStamp date tLog dLog w).1.2.1 =
      (restoreLoop OptionsV1.mayBeRestored ok
        ((w.1.allExtensions.filter (fun ext => ext.enabled)).map (fun ext => ext.id))
        (OptionsV1.snapshotThenToggle toggles ok tId tStamp date tLog dLog w).1.allExtensions
        (OptionsV1.snapshotThenToggle toggles ok tId tStamp date tLog dLog w).2.1).2.1 := by
  have hfind : (((OptionsV1.snapshotThenToggle toggles ok tId tStamp date tLog dLog
      w).2.2.snapshots.getD []).find? (fun sn => decide (sn.id = some tId))) =
      some (OptionsV1.makeSnapshot w.1.allExtensions tId tStamp date) := by
    unfold OptionsV1.snapshotThenToggle
    rw [togglesV1_snapshots, createSnapshotV1_snapshots, Option.getD_some]
    exact find_head_take _ _ _ (decide_eq_true rfl)
  unfold OptionsV1.roundTrip
  rw [restoreSnapshotV1_found _ _ _ _ _ _ hfind, makeSnapshotV1_ids]

/-! ## Restoring a snapshot -/

/-- C11 fails as stated. The page lists "x" as enabled while the browser has it
disabled; the snapshot lists "x"; `restoreSnapshot` makes no `setEnabled` call, so no
call fails, and "x" stays disabled: in the browser and the reloaded allExtensions of
the v2 page, and in the browser of the v1 page. -/
theorem C11_stale_page_not_restored :
    "x" ∈ xSnapshot.extensions.map (fun e => e.id) ∧
    demoPage.allExtensions.map (fun e => (e.id, e.enabled)) = [("x", true), ("y", false)] ∧
    (OptionsV2.restoreSnapshot 200 true (fun _ _ => true) 1 "d"
      (demoPage, staleBrowser, xStorage)).2 = [] ∧
    (OptionsV2.restoreSnapshot 200 true (fun _ _ => true) 1 "d"
      (demoPage, staleBrowser, xStorage)).1.1.allExtensions.map
        (fun e => (e.id, e.enabled)) = [("x", false), ("y", false)] ∧
    (OptionsV1.restoreSnapshot 200 true (fun _ _ => true) 1 "d"
      (demoPageV1, staleBrowserV1, xStorage)).2 = [] ∧
    (OptionsV1.restoreSnapshot 200 true (fun _ _ => true) 1 "d"
      (demoPageV1, staleBrowserV1, xStorage)).1.2.1.visible.map
        (fun e => (e.id, e.enabled)) = [("x", false), ("y", false), ("z", true)] := by
  refine ⟨?_, ?_, ?_, ?_, ?_, ?_⟩ <;> decide

/-- C11, amended: for a stored snapshot found by its id, a confirmed
`restoreSnapshot` whose `setEnabled` calls all succeed, started on a page whose
allExtensions shows the browser's state, leaves every extension enabled exactly when
its id is in the snapshot's extension list, in the browser and in allExtensions (v2:
every visible item and every extension of the reloaded list); in the v1 page this
holds for each extension with mayDisable !== false, and an extension with
mayDisable === false keeps its state (the v1 flags of allExtensions for every page,
the browser for a page with distinct ids that shows the browser's state). -/
theorem C11_restore_snapshot (snapshotId : Nat) (ok : String → Bool → Bool) (tLog : Nat)
    (dLog : String) (p2 : OptionsV2.Page) (p1 : OptionsV1.Page) (b : Browser) (s : Storage)
    (snapshot : Snapshot) :
    ((s.snapshots.getD []).find? (fun sn => decide (snapKey sn = snapshotId)) = some snapshot →
      InSync p2.allExtensions b →
      (∀ c ∈ (OptionsV2.restoreSnapshot snapshotId true ok tLog dLog (p2, b, s)).2,
        ok c.1 c.2 = true) →
      (∀ x ∈ (OptionsV2.restoreSnapshot snapshotId true ok tLog dLog (p2, b, s)).1.2.1.visible,
        (x.enabled = true ↔ x.id ∈ snapshot.extensions.map (fun e => e.id))) ∧
      (∀ ext ∈ (OptionsV2.restoreSnapshot snapshotId true ok tLog dLog
          (p2, b, s)).1.1.allExtensions,
        (ext.enabled = true ↔ ext.id ∈ snapshot.extensions.map (fun e => e.id))) ∧
      InSync (OptionsV2.restoreSnapshot snapshotId true ok tLog dLog
          (p2, b, s)).1.1.allExtensions
        (OptionsV2.restoreSnapshot snapshotId true ok tLog dLog (p2, b, s)).1.2.1) ∧
    ((s.snapshots.getD []).find? (fun sn => decide (sn.id = some snapshotId)) = some snapshot →
      (∀ c ∈ (OptionsV1.restoreSnapshot snapshotId true ok tLog dLog (p1, b, s)).2,
        ok c.1 c.2 = true) →
      (OptionsV1.restoreSnapshot snapshotId true ok tLog dLog (p1, b, s)).1.1.allExtensions =
        p1.allExtensions.map (fun e =>
          if e.mayDisable ≠ some false then
            { e with enabled := decide (e.id ∈ snapshot.extensions.map (fun e => e.id)) }
          else e) ∧
      (InSync p1.allExtensions b → (p1.allExtensions.map (fun e => e.id)).Nodup →
        InSync (OptionsV1.restoreSnapshot snapshotId true ok tLog dLog
            (p1, b, s)).1.1.allExtensions
          (OptionsV1.restoreSnapshot snapshotId true ok tLog dLog (p1, b, s)).1.2.1 ∧
        ∀ x ∈ (OptionsV1.restoreSnapshot snapshotId true ok tLog dLog
            (p1, b, s)).1.2.1.visible,
          ∀ ext ∈ p1.allExtensions, ext.id = x.id →
            (ext.mayDisable ≠ some false →
              (x.enabled = true ↔ x.id ∈ snapshot.extensions.map (fun e => e.id))) ∧
            (ext.mayDisable = some false → x.enabled = ext.enabled))) := by
  refine ⟨?_, ?_⟩
  · intro hfind hsync hok
    rw [restoreSnapshotV2_found snapshotId ok tLog dLog (p2, b, s) snapshot hfind] at hok ⊢
    have hvis := restoreLoop_visible_enabled ok (snapshot.extensions.map (fun e => e.id))
      p2.allExtensions b hsync hok
    refine ⟨?_, ?_, loadExtensions_sync _ _⟩
    · intro x hx
      rw [hvis x hx, contains_eq_decide_mem, decide_eq_true_eq]
    · intro ext hext
      simp only [OptionsV2.loadExtensions, List.mem_map] at hext
      obtain ⟨x, hx, hxe⟩ := hext
      rw [← hxe]
      show x.enabled = true ↔ x.id ∈ _
      rw [hvis x hx, contains_eq_decide_mem, decide_eq_true_eq]
  · intro hfind hok
    rw [restoreSnapshotV1_found snapshotId ok tLog dLog (p1, b, s) snapshot hfind] at hok ⊢
    have hlist := restoreLoop_list OptionsV1.mayBeRestored ok
      (snapshot.extensions.map (fun e => e.id)) p1.allExtensions b hok
    have hpage : (restoreLoop OptionsV1.mayBeRestored ok
        (snapshot.extensions.map (fun e => e.id)) p1.allExtensions b).1 =
        p1.allExtensions.map (fun e =>
          if e.mayDisable ≠ some false then
            { e with enabled := decide (e.id ∈ snapshot.extensions.map (fun e => e.id)) }
          else e) := by
      rw [hlist]
      apply List.map_congr_left
      intro e _
      by_cases hm : e.mayDisable = some false
      · simp [OptionsV1.mayBeRestored, hm]
      · simp [OptionsV1.mayBeRestored, hm]
    refine ⟨hpage, ?_⟩
    intro hsync hnd
    have hsyncF := restoreLoop_sync OptionsV1.mayBeRestored ok
      (snapshot.extensions.map (fun e => e.id)) p1.allExtensions b hsync hnd hok
    refine ⟨hsyncF, ?_⟩
    intro x hx ext hext hid
    obtain ⟨e', he', hid', hen'⟩ := mem_of_sync _ _ hsyncF x hx
    rw [hpage] at he'
    obtain ⟨e, he, hee⟩ := List.mem_map.1 he'
    have heid : e'.id = e.id := by
      rw [← hee]
      split_ifs <;> rfl
    have heq : e = ext := List.inj_on_of_nodup_map hnd he hext
      (by rw [← heid, hid', hid])
    rw [heq] at hee
    refine ⟨?_, ?_⟩
    · intro hmay
      rw [if_pos hmay] at hee
      rw [← hen', ← hee, ← hid]
      simp
    · intro hmay
      rw [if_neg (by rw [hmay]; exact fun h => h rfl)] at hee
      rw [← hen', ← hee]

/-- C11 (amended) at the snapshot 100, in which only "y" is enabled: afterwards the
extensions of the v2 page are enabled exactly when they are "y", and on the v1 page
"x" is disabled, "y" is enabled and "z" keeps its state, in the list and in the
browser. -/
theorem C11_restore_snapshot_witness :
    (∀ ext ∈ (OptionsV2.restoreSnapshot 100 true (fun _ _ => true) 1 "d"
        (demoPage, demoBrowser, demoStorage)).1.1.allExtensions,
      (ext.enabled = true ↔ ext.id ∈ demoSnapshot.extensions.map (fun e => e.id))) ∧
    ((OptionsV1.restoreSnapshot 100 true (fun _ _ => true) 1 "d"
        (demoPageV1, demoBrowserV1, demoStorage)).1.1.allExtensions.map
          (fun e => (e.id, e.enabled)) = [("x", false), ("y", true), ("z", true)]) ∧
    InSync (OptionsV1.restoreSnapshot 100 true (fun _ _ => true) 1 "d"
        (demoPageV1, demoBrowserV1, demoStorage)).1.1.allExtensions
      (OptionsV1.restoreSnapshot 100 true (fun _ _ => true) 1 "d"
        (demoPageV1, demoBrowserV1, demoStorage)).1.2.1 :=
  ⟨((C11_restore_snapshot 100 (fun _ _ => true) 1 "d" demoPage demoPageV1
      demoBrowser demoStorage demoSnapshot).1 (by decide) (by unfold InSync; decide)
      (fun _ _ => rfl)).2.1,
   by
    rw [((C11_restore_snapshot 100 (fun _ _ => true) 1 "d" demoPage demoPageV1
      demoBrowserV1 demoStorage demoSnapshot).2 (by decide) (fun _ _ => rfl)).1]
    decide,
   (((C11_restore_snapshot 100 (fun _ _ => true) 1 "d" demoPage demoPageV1
      demoBrowserV1 demoStorage demoSnapshot).2 (by decide) (fun _ _ => rfl)).2
      (by unfold InSync; decide) (by decide)).1⟩

/-! ## Snapshot round trip -/

/-- C12 fails as stated. On the v1 page, "z" (mayDisable === false) is enabled when
the snapshot is taken, a successful toggle disables it, and the restore skips it. On
the v2 page, "x" is enabled when the snapshot is taken, a successful toggle disables
it, and the restore's `setEnabled("x", true)` is rejected, so "x" stays disabled. -/
theorem C12_round_trip_not_restored :
    ((OptionsV1.roundTrip ["z"] (fun _ _ => true) 100 100 "d" 1 "d"
        (demoPageV1, demoBrowserV1, Storage.empty)).1.1.allExtensions.map
          (fun e => (e.id, e.enabled)) = [("x", true), ("y", false), ("z", false)]) ∧
    ((OptionsV1.roundTrip ["z"] (fun _ _ => true) 100 100 "d" 1 "d"
        (demoPageV1, demoBrowserV1, Storage.empty)).1.2.1.visible.map
          (fun e => (e.id, e.enabled)) = [("x", true), ("y", false), ("z", false)]) ∧
    demoPageV1.allExtensions.map (fun e => (e.id, e.enabled)) =
      [("x", true), ("y", false), ("z", true)] ∧
    ((OptionsV2.roundTrip ["x"] (fun _ v => !v) 100 100 "d" 1 "d"
        (demoPage, demoBrowser, Storage.empty)).1.1.allExtensions.map
          (fun e => (e.id, e.enabled)) = [("x", false), ("y", false)]) ∧
    (OptionsV2.roundTrip ["x"] (fun _ v => !v) 100 100 "d" 1 "d"
        (demoPage, demoBrowser, Storage.empty)).2 = [("x", true)] ∧
    demoPage.allExtensions.map (fun e => (e.id, e.enabled)) = [("x", true), ("y", false)] := by
  refine ⟨?_, ?_, ?_, ?_, ?_, ?_⟩ <;> decide

/-- C12, amended: for a list of installed extensions with distinct ids that shows
the browser's state, `createSnapshot`, any sequence of `toggleExtension` calls and a
confirmed `restoreSnapshot` of that snapshot, all of whose `setEnabled` calls succeed,
keep the ids of allExtensions and return every extension, in allExtensions and in
the browser, to the enabled state it had when the snapshot was taken: every
extension on the v2 page; on the v1 page every extension with mayDisable !== false
and every extension no toggle of which succeeded. When nothing was toggled in
between, `restoreSnapshot` calls `setEnabled` for no extension. -/
theorem C12_snapshot_round_trip (toggles : List String) (ok : String → Bool → Bool)
    (tId tStamp : Nat) (date : String) (tLog : Nat) (dLog : String) (p2 : OptionsV2.Page)
    (p1 : OptionsV1.Page) (b : Browser) (s : Storage) :
    ((p2.allExtensions.map (fun e => e.id)).Nodup → InSync p2.allExtensions b →
      ((∀ c ∈ (OptionsV2.roundTrip toggles ok tId tStamp date tLog dLog (p2, b, s)).2,
          ok c.1 c.2 = true) →
        (OptionsV2.roundTrip toggles ok tId tStamp date tLog dLog
          (p2, b, s)).1.1.allExtensions.map (fun e => e.id) =
            p2.allExtensions.map (fun e => e.id) ∧
        (∀ ext ∈ (OptionsV2.roundTrip toggles ok tId tStamp date tLog dLog
            (p2, b, s)).1.1.allExtensions,
          ∀ ext0 ∈ p2.allExtensions, ext0.id = ext.id → ext.enabled = ext0.enabled) ∧
        (∀ x ∈ (OptionsV2.roundTrip toggles ok tId tStamp date tLog dLog
            (p2, b, s)).1.2.1.visible,
          ∀ ext0 ∈ p2.allExtensions, ext0.id = x.id → x.enabled = ext0.enabled)) ∧
      (OptionsV2.roundTrip [] ok tId tStamp date tLog dLog (p2, b, s)).2 = []) ∧
    ((p1.allExtensions.map (fun e => e.id)).Nodup → InSync p1.allExtensions b →
      ((∀ c ∈ (OptionsV1.roundTrip toggles ok tId tStamp date tLog dLog (p1, b, s)).2,
          ok c.1 c.2 = true) →
        (OptionsV1.roundTrip toggles ok tId tStamp date tLog dLog
          (p1, b, s)).1.1.allExtensions.map (fun e => e.id) =
            p1.allExtensions.map (fun e => e.id) ∧
        (∀ ext ∈ (OptionsV1.roundTrip toggles ok tId tStamp date tLog dLog
            (p1, b, s)).1.1.allExtensions,
          ∀ ext0 ∈ p1.allExtensions, ext0.id = ext.id →
            (ext0.mayDisable ≠ some false ∨ ext0.id ∉ toggles ∨ ∀ v, ok ext0.id v = false) →
            ext.enabled = ext0.enabled) ∧
        (∀ x ∈ (OptionsV1.roundTrip toggles ok tId tStamp date tLog dLog
            (p1, b, s)).1.2.1.visible,
          ∀ ext0 ∈ p1.allExtensions, ext0.id = x.id →
            (ext0.mayDisable ≠ some false ∨ ext0.id ∉ toggles ∨ ∀ v, ok ext0.id v = false) →
            x.enabled = ext0.enabled)) ∧
      (OptionsV1.roundTrip [] ok tId tStamp date tLog dLog (p1, b, s)).2 = []) := by
  refine ⟨?_, ?_⟩
  · intro hnd hsync
    refine ⟨?_, ?_⟩
    · intro hok
      obtain ⟨h1, h2, _⟩ := togglesV2_inv toggles ok tLog dLog
        (p2, b, OptionsV2.createSnapshot p2.allExtensions (some p2.currentFilters.deviceGroup)
          tId tStamp date tLog dLog s) p2.allExtensions rfl hnd hsync
      have hcalls : ∀ c ∈ (restoreLoop (fun _ => true) ok
          ((p2.allExtensions.filter (fun ext => ext.enabled)).map (fun ext => ext.id))
          (OptionsV2.snapshotThenToggle toggles ok tId tStamp date tLog dLog
            (p2, b, s)).1.allExtensions
          (OptionsV2.snapshotThenToggle toggles ok tId tStamp date tLog dLog
            (p2, b, s)).2.1).2.2, ok c.1 c.2 = true := by
        have h := hok
        rw [roundTripV2_eq] at h
        exact h
      have hvis := restoreLoop_visible_enabled ok _ _ _ h2 hcalls
      have hbrowser := restoreLoop_browser _ _ _ _ _ hcalls
      rw [roundTripV2_eq]
      refine ⟨?_, ?_, ?_⟩
      · show ((restoreLoop (fun _ => true) ok _ _ _).2.1.visible.map _).map _ = _
        rw [List.map_map, hbrowser]
        have hv := visible_map
          (OptionsV2.snapshotThenToggle toggles ok tId tStamp date tLog dLog (p2, b, s)).2.1
          (fun x => if x.id ∈ (((OptionsV2.snapshotThenToggle toggles ok tId tStamp date tLog
              dLog (p2, b, s)).1.allExtensions.filter
                (fun e => true && (e.enabled != ((p2.allExtensions.filter
                  (fun ext => ext.enabled)).map (fun ext => ext.id)).contains e.id))).map
                (fun e => e.id))
            then { x with enabled := ((p2.allExtensions.filter
              (fun ext => ext.enabled)).map (fun ext => ext.id)).contains x.id } else x)
          (fun x => by dsimp only; split_ifs <;> rfl)
          (fun x => by dsimp only; split_ifs <;> rfl)
        rw [hv, List.map_map]
        have hids := congrArg (List.map Prod.fst) h2
        rw [List.map_map, List.map_map] at hids
        rw [← map_id_of_idMay _ _ h1]
        refine Eq.trans ?_ hids.symm
        apply List.map_congr_left
        intro x _
        simp only [Function.comp]
        split_ifs <;> rfl
      · intro ext hext ext0 hext0 hid
        change ext ∈ ((restoreLoop (fun _ => true) ok _ _ _).2.1.visible.map _) at hext
        obtain ⟨x, hx, hxe⟩ := List.mem_map.1 hext
        have hen : ext.enabled = x.enabled := by rw [← hxe]
        have hxid : ext.id = x.id := by rw [← hxe]
        rw [hen, hvis x hx, ← hxid, ← hid]
        exact contains_enabled_ids _ _ hnd hext0
      · intro x hx ext0 hext0 hid
        change x ∈ (restoreLoop (fun _ => true) ok _ _ _).2.1.visible at hx
        rw [hvis x hx, ← hid]
        exact contains_enabled_ids _ _ hnd hext0
    · rw [roundTripV2_eq]
      exact restoreLoop_no_calls _ _ _ _ hnd
  · intro hnd hsync
    refine ⟨?_, ?_⟩
    · intro hok
      have h1 : (OptionsV1.snapshotThenToggle toggles ok tId tStamp date tLog dLog
          (p1, b, s)).1.allExtensions.map (fun e => (e.id, e.mayDisable)) =
          p1.allExtensions.map (fun e => (e.id, e.mayDisable)) :=
        (togglesV1_inv toggles ok tLog dLog
          (p1, b, OptionsV1.createSnapshot p1.allExtensions tId tStamp date tLog dLog s)
          p1.allExtensions rfl).1
      have hsyncT : InSync
          (OptionsV1.snapshotThenToggle toggles ok tId tStamp date tLog dLog
            (p1, b, s)).1.allExtensions
          (OptionsV1.snapshotThenToggle toggles ok tId tStamp date tLog dLog (p1, b, s)).2.1 :=
        togglesV1_sync toggles ok tLog dLog
          (p1, b, OptionsV1.createSnapshot p1.allExtensions tId tStamp date tLog dLog s)
          hnd hsync
      have hndT : ((OptionsV1.snapshotThenToggle toggles ok tId tStamp date tLog dLog
          (p1, b, s)).1.allExtensions.map (fun e => e.id)).Nodup := by
        rw [map_id_of_idMay _ _ h1]
        exact hnd
      have hcalls : ∀ c ∈ (restoreLoop OptionsV1.mayBeRestored ok
          ((p1.allExtensions.filter (fun ext => ext.enabled)).map (fun ext => ext.id))
          (OptionsV1.snapshotThenToggle toggles ok tId tStamp date tLog dLog
            (p1, b, s)).1.allExtensions
          (OptionsV1.snapshotThenToggle toggles ok tId tStamp date tLog dLog
            (p1, b, s)).2.1).2.2, ok c.1 c.2 = true := by
        have h := hok
        rw [(roundTripV1_eq toggles ok tId tStamp date tLog dLog (p1, b, s)).2] at h
        exact h
      have hlist := restoreLoop_list _ _ _ _ _ hcalls
      have hsyncF := restoreLoop_sync _ _ _ _ _ hsyncT hndT hcalls
      rw [(roundTripV1_eq toggles ok tId tStamp date tLog dLog (p1, b, s)).1,
        roundTripV1_browser]
      have hpage : ∀ ext ∈ (restoreLoop OptionsV1.mayBeRestored ok
          ((p1.allExtensions.filter (fun ext => ext.enabled)).map (fun ext => ext.id))
          (OptionsV1.snapshotThenToggle toggles ok tId tStamp date tLog dLog
            (p1, b, s)).1.allExtensions
          (OptionsV1.snapshotThenToggle toggles ok tId tStamp date tLog dLog
            (p1, b, s)).2.1).1,
          ∀ ext0 ∈ p1.allExtensions, ext0.id = ext.id →
            (ext0.mayDisable ≠ some false ∨ ext0.id ∉ toggles ∨ ∀ v, ok ext0.id v = false) →
            ext.enabled = ext0.enabled := by
        intro ext hext ext0 hext0 hid hcond
        rw [hlist] at hext
        obtain ⟨e, he, hee⟩ := List.mem_map.1 hext
        have hpair : (e.id, e.mayDisable) ∈
            p1.allExtensions.map (fun e => (e.id, e.mayDisable)) := by
          rw [← h1]
          exact List.mem_map.2 ⟨e, he, rfl⟩
        obtain ⟨e0, he0, hp0⟩ := List.mem_map.1 hpair
        have hid0 : e0.id = e.id := congrArg Prod.fst hp0
        have hmay0 : e0.mayDisable = e.mayDisable := congrArg Prod.snd hp0
        have heid : ext.id = e.id := by
          rw [← hee]
          split_ifs <;> rfl
        have heq : e0 = ext0 :=
          List.inj_on_of_nodup_map hnd he0 hext0 (by rw [hid0, hid, heid])
        by_cases hel : OptionsV1.mayBeRestored e = true
        · rw [if_pos hel] at hee
          rw [← hee]
          show ((p1.allExtensions.filter (fun ext => ext.enabled)).map
            (fun ext => ext.id)).contains e.id = ext0.enabled
          rw [← hid0, heq]
          exact contains_enabled_ids _ _ hnd hext0
        · rw [if_neg hel] at hee
          have hmf : ext0.mayDisable = some false := by
            rw [← heq, hmay0]
            simpa [OptionsV1.mayBeRestored] using hel
          have hunt : ext0.id ∉ toggles ∨ ∀ v, ok ext0.id v = false := by
            rcases hcond with h | h
            · exact absurd hmf h
            · exact h
          have hfil : (OptionsV1.snapshotThenToggle toggles ok tId tStamp date tLog dLog
              (p1, b, s)).1.allExtensions.filter (fun e => decide (e.id = ext0.id)) =
              p1.allExtensions.filter (fun e => decide (e.id = ext0.id)) :=
            togglesV1_untouched toggles ok tLog dLog
              (p1, b, OptionsV1.createSnapshot p1.allExtensions tId tStamp date tLog dLog s)
              ext0.id hunt
          have hmem : e ∈ p1.allExtensions := by
            have : e ∈ (OptionsV1.snapshotThenToggle toggles ok tId tStamp date tLog dLog
                (p1, b, s)).1.allExtensions.filter (fun e => decide (e.id = ext0.id)) := by
              rw [List.mem_filter]
              exact ⟨he, by rw [decide_eq_true_eq, ← hid0, heq]⟩
            have h' := hfil ▸ this
            exact (List.mem_filter.1 h').1
          have hee0 : e = ext0 :=
            List.inj_on_of_nodup_map hnd hmem hext0 (by rw [← hid0, heq])
          rw [← hee, hee0]
      refine ⟨?_, hpage, ?_⟩
      · rw [hlist, List.map_map, ← map_id_of_idMay _ _ h1]
        apply List.map_congr_left
        intro x _
        simp only [Function.comp]
        split_ifs <;> rfl
      · intro x hx ext0 hext0 hid hcond
        obtain ⟨e', he', hid', hen'⟩ := mem_of_sync _ _ hsyncF x hx
        rw [← hen']
        exact hpage e' he' ext0 hext0 (by rw [hid, hid']) hcond
    · rw [(roundTripV1_eq [] ok tId tStamp date tLog dLog (p1, b, s)).2]
      exact restoreLoop_no_calls _ _ _ _ hnd

/-- C12 (amended) at the toggles "x", "y", "x" on the demo pages, every call
succeeding. -/
theorem C12_snapshot_round_trip_witness :
    (∀ x ∈ (OptionsV2.roundTrip ["x", "y", "x"] (fun _ _ => true) 100 100 "d" 1 "d"
        (demoPage, demoBrowser, Storage.empty)).1.2.1.visible,
      ∀ ext0 ∈ demoPage.allExtensions, ext0.id = x.id → x.enabled = ext0.enabled) ∧
    (OptionsV2.roundTrip [] (fun _ _ => true) 100 100 "d" 1 "d"
      (demoPage, demoBrowser, Storage.empty)).2 = [] ∧
    (∀ x ∈ (OptionsV1.roundTrip ["x", "y", "x"] (fun _ _ => true) 100 100 "d" 1 "d"
        (demoPageV1, demoBrowserV1, Storage.empty)).1.2.1.visible,
      ∀ ext0 ∈ demoPageV1.allExtensions, ext0.id = x.id →
        (ext0.mayDisable ≠ some false ∨ ext0.id ∉ ["x", "y", "x"] ∨
          ∀ v, (fun (_ : String) (_ : Bool) => true) ext0.id v = false) →
        x.enabled = ext0.enabled) :=
  ⟨(((C12_snapshot_round_trip ["x", "y", "x"] (fun _ _ => true) 100 100 "d" 1 "d" demoPage
      demoPageV1 demoBrowser Storage.empty).1 (by decide) (by unfold InSync; decide)).1
      (fun _ _ => rfl)).2.2,
   ((C12_snapshot_round_trip ["x", "y", "x"] (fun _ _ => true) 100 100 "d" 1 "d" demoPage
      demoPageV1 demoBrowser Storage.empty).1 (by decide) (by unfold InSync; decide)).2,
   (((C12_snapshot_round_trip ["x", "y", "x"] (fun _ _ => true) 100 100 "d" 1 "d" demoPage
      demoPageV1 demoBrowserV1 Storage.empty).2 (by decide) (by unfold InSync; decide)).1
      (fun _ _ => rfl)).2.2⟩

end ExtDashboard
